import Mathlib

/-! The class `ncnn::Mat`: a shallow embedding of `SamplesZQCNN/SampleNCNNsgemm/mat.h`.

The C++ class `ncnn::Mat` is a reference-counted 1-, 2- or 3-dimensional buffer.
The embedding below follows the header function by function.

Modelling conventions

* Addresses, `size_t` values and the `int` members are natural numbers; address `0`
  is the null pointer.  The arithmetic is the exact arithmetic of the source
  expressions; it coincides with the machine arithmetic for non-negative arguments
  whose products stay in the range of their C++ type.  The one narrowing conversion
  of the header, `int size = total()` in the fill members, is modelled by `intOfSize`.
* The heap is explicit state: a byte store `mem`, a store `cnt` of the `int`
  objects that serve as reference counters, and the state of the allocator
  together with a chronological log of its `fastMalloc` / `fastFree` calls.
* `allocator.h` and `platform.h` are not among the sources.  `alignSize`,
  `fastMalloc`, `fastFree` and `NCNN_XADD` are modelled from their contract; an
  `Allocator*` is a number, `0` standing for the default allocator, and every
  allocator draws from the same arena.
* Executions that reach undefined behaviour (division by a zero `elemsize`,
  the store `*refcount = 1` after `fastMalloc` returned null) end in a `Fault`.
* A member function `Mat::f(args)` becomes `Mat.f hp self args`, returning the
  new heap next to its result; members that touch no heap state are pure functions.
-/

namespace ncnn

/-! ## Faults, heap, allocator interface -/

/-- Ways in which an execution of the header's code can leave defined behaviour. -/
inductive Fault where
  | divByZero
  | nullStore
  | outOfFuel
deriving DecidableEq, Repr

/-- The memory seen by `Mat`: bytes, reference-counter cells, and the allocator. -/
structure Heap where
  /-- Byte stored at each address. -/
  mem : Nat → Nat
  /-- Value of the `int` object (a reference counter) stored at each address. -/
  cnt : Nat → Int
  /-- First address the allocator has not handed out yet. -/
  brk : Nat
  /-- End of the arena: a request that does not fit below `cap` fails. -/
  cap : Nat
  /-- Log of `fastMalloc` calls: allocator, requested size, returned pointer. -/
  mallocs : List (Nat × Nat × Nat)
  /-- Log of `fastFree` calls: allocator, pointer. -/
  frees : List (Nat × Nat)

/-- A heap with zeroed memory whose arena is the address range `[base, cap)`. -/
def Heap.init (base cap : Nat) : Heap :=
  { mem := fun _ => 0, cnt := fun _ => 0, brk := base, cap := cap, mallocs := [], frees := [] }

/-- Modelled from the spec: `alignSize` is declared in `allocator.h`, which is not
among the sources; `alignSize(n, a)` rounds `n` up to the next multiple of `a`. -/
def alignSize (sz n : Nat) : Nat := (sz + n - 1) / n * n

/-- Modelled from the spec: `fastMalloc` (global, or `Allocator::fastMalloc`) is
declared in `allocator.h`, which is not among the sources; the allocator contract is
`allocate(size) -> address-or-failure`.  The model hands out consecutive blocks of
the arena and answers null once the arena is exhausted. -/
def fastMalloc (hp : Heap) (allocator size : Nat) : Nat × Heap :=
  if hp.brk + size ≤ hp.cap then
    (hp.brk, { hp with brk := hp.brk + size,
                       mallocs := hp.mallocs ++ [(allocator, size, hp.brk)] })
  else
    (0, { hp with mallocs := hp.mallocs ++ [(allocator, size, 0)] })

/-- Modelled from the spec: `fastFree` (global, or `Allocator::fastFree`) is declared
in `allocator.h`, which is not among the sources; the contract is
`free(address) -> void`.  The call is recorded in the log. -/
def fastFree (hp : Heap) (allocator ptr : Nat) : Heap :=
  { hp with frees := hp.frees ++ [(allocator, ptr)] }

/-- Modelled from the spec: `NCNN_XADD` is a macro of `platform.h`, which is not
among the sources; it atomically adds `delta` to the counter at `addr` and yields the
value the counter had before (`release` tests `NCNN_XADD(refcount, -1) == 1`). -/
def NCNN_XADD (hp : Heap) (addr : Nat) (delta : Int) : Int × Heap :=
  (hp.cnt addr,
   { hp with cnt := fun a => if a = addr then hp.cnt addr + delta else hp.cnt a })

/-- The library routine `memcpy(dst, src, n)` on the byte store. -/
def memcpy (hp : Heap) (dst src n : Nat) : Heap :=
  { hp with mem := fun a => if dst ≤ a ∧ a < dst + n then hp.mem (src + (a - dst))
                            else hp.mem a }

/-- The statement `*refcount = 1`. -/
def storeCount (hp : Heap) (addr : Nat) (v : Int) : Heap :=
  { hp with cnt := fun a => if a = addr then v else hp.cnt a }

/-! ## The class `Mat` -/

/-- The data members of `class Mat` (mat.h, lines 133 to 163). -/
structure Mat where
  data : Nat
  refcount : Nat
  elemsize : Nat
  packing : Nat
  allocator : Nat
  dims : Nat
  w : Nat
  h : Nat
  c : Nat
  cstep : Nat
deriving DecidableEq, Repr

namespace Mat

/-- The default constructor `Mat::Mat()`: every member is zero. -/
def ctor : Mat :=
  { data := 0, refcount := 0, elemsize := 0, packing := 0, allocator := 0,
    dims := 0, w := 0, h := 0, c := 0, cstep := 0 }

/-- The member `Mat::total()`. -/
def total (self : Mat) : Nat := self.cstep * self.c

/-- The member `Mat::empty()`. -/
def empty (self : Mat) : Bool := self.data == 0 || self.total == 0

/-- The copy constructor `Mat::Mat(const Mat& m)`. -/
def ctorCopy (hp : Heap) (m : Mat) : Mat × Heap :=
  (m, if m.refcount ≠ 0 then (NCNN_XADD hp m.refcount 1).2 else hp)

/-- The member `Mat::addref()`. -/
def addref (hp : Heap) (self : Mat) : Heap :=
  if self.refcount ≠ 0 then (NCNN_XADD hp self.refcount 1).2 else hp

/-- The member `Mat::release()`.  The member `allocator` is not reset. -/
def release (hp : Heap) (self : Mat) : Mat × Heap :=
  let hp1 :=
    if self.refcount ≠ 0 then
      let r := NCNN_XADD hp self.refcount (-1)
      if r.1 = 1 then fastFree r.2 self.allocator self.data else r.2
    else hp
  ({ self with data := 0, elemsize := 0, packing := 0, dims := 0, w := 0, h := 0,
               c := 0, cstep := 0, refcount := 0 }, hp1)

/-- The block that ends every `create` overload: when `total() > 0`, request
`alignSize(total() * elemsize, 4) + sizeof(int)` bytes, put the counter right after
the data region and set it to one.  The store `*refcount = 1` after a null answer is
a `Fault`. -/
def allocate (hp : Heap) (self : Mat) : Except Fault (Mat × Heap) :=
  if self.total > 0 then
    let totalsize := alignSize (self.total * self.elemsize) 4
    let r := fastMalloc hp self.allocator (totalsize + 4)
    if r.1 = 0 then .error .nullStore
    else
      let m := { self with data := r.1, refcount := r.1 + totalsize }
      .ok (m, storeCount r.2 m.refcount 1)
  else .ok (self, hp)

/-- The overload `create(int w, size_t elemsize, int packing, Allocator*)`. -/
def createPacked1 (hp : Heap) (self : Mat) (_w _elemsize _packing _allocator : Nat) :
    Except Fault (Mat × Heap) :=
  if self.dims = 1 ∧ self.w = _w ∧ self.elemsize = _elemsize ∧ self.packing = _packing
      ∧ self.allocator = _allocator then .ok (self, hp)
  else
    let r := self.release hp
    allocate r.2 { r.1 with elemsize := _elemsize, packing := _packing,
                            allocator := _allocator, dims := 1, w := _w, h := 1, c := 1,
                            cstep := _w }

/-- The overload `create(int w, int h, size_t elemsize, int packing, Allocator*)`. -/
def createPacked2 (hp : Heap) (self : Mat) (_w _h _elemsize _packing _allocator : Nat) :
    Except Fault (Mat × Heap) :=
  if self.dims = 2 ∧ self.w = _w ∧ self.h = _h ∧ self.elemsize = _elemsize
      ∧ self.packing = _packing ∧ self.allocator = _allocator then .ok (self, hp)
  else
    let r := self.release hp
    allocate r.2 { r.1 with elemsize := _elemsize, packing := _packing,
                            allocator := _allocator, dims := 2, w := _w, h := _h, c := 1,
                            cstep := _w * _h }

/-- The overload `create(int w, int h, int c, size_t elemsize, int packing, Allocator*)`.
The channel step divides by `elemsize`. -/
def createPacked3 (hp : Heap) (self : Mat) (_w _h _c _elemsize _packing _allocator : Nat) :
    Except Fault (Mat × Heap) :=
  if self.dims = 3 ∧ self.w = _w ∧ self.h = _h ∧ self.c = _c ∧ self.elemsize = _elemsize
      ∧ self.packing = _packing ∧ self.allocator = _allocator then .ok (self, hp)
  else
    let r := self.release hp
    if _elemsize = 0 then .error .divByZero
    else
      allocate r.2 { r.1 with elemsize := _elemsize, packing := _packing,
                              allocator := _allocator, dims := 3, w := _w, h := _h, c := _c,
                              cstep := alignSize (_w * _h * _elemsize) 16 / _elemsize }

/-- The overload `create(int w, size_t elemsize, Allocator*)`; packing is one. -/
def create1 (hp : Heap) (self : Mat) (_w _elemsize _allocator : Nat) :
    Except Fault (Mat × Heap) :=
  if self.dims = 1 ∧ self.w = _w ∧ self.elemsize = _elemsize ∧ self.packing = 1
      ∧ self.allocator = _allocator then .ok (self, hp)
  else
    let r := self.release hp
    allocate r.2 { r.1 with elemsize := _elemsize, packing := 1,
                            allocator := _allocator, dims := 1, w := _w, h := 1, c := 1,
                            cstep := _w }

/-- The overload `create(int w, int h, size_t elemsize, Allocator*)`. -/
def create2 (hp : Heap) (self : Mat) (_w _h _elemsize _allocator : Nat) :
    Except Fault (Mat × Heap) :=
  if self.dims = 2 ∧ self.w = _w ∧ self.h = _h ∧ self.elemsize = _elemsize
      ∧ self.packing = 1 ∧ self.allocator = _allocator then .ok (self, hp)
  else
    let r := self.release hp
    allocate r.2 { r.1 with elemsize := _elemsize, packing := 1,
                            allocator := _allocator, dims := 2, w := _w, h := _h, c := 1,
                            cstep := _w * _h }

/-- The overload `create(int w, int h, int c, size_t elemsize, Allocator*)`. -/
def create3 (hp : Heap) (self : Mat) (_w _h _c _elemsize _allocator : Nat) :
    Except Fault (Mat × Heap) :=
  if self.dims = 3 ∧ self.w = _w ∧ self.h = _h ∧ self.c = _c ∧ self.elemsize = _elemsize
      ∧ self.packing = 1 ∧ self.allocator = _allocator then .ok (self, hp)
  else
    let r := self.release hp
    if _elemsize = 0 then .error .divByZero
    else
      allocate r.2 { r.1 with elemsize := _elemsize, packing := 1,
                              allocator := _allocator, dims := 3, w := _w, h := _h, c := _c,
                              cstep := alignSize (_w * _h * _elemsize) 16 / _elemsize }

/-- The constructor `Mat(int w, void* data, size_t elemsize, int packing, Allocator*)`. -/
def ctorExtPacked1 (_w _data _elemsize _packing _allocator : Nat) : Mat :=
  { data := _data, refcount := 0, elemsize := _elemsize, packing := _packing,
    allocator := _allocator, dims := 1, w := _w, h := 1, c := 1, cstep := _w }

/-- The constructor `Mat(int w, int h, void* data, size_t elemsize, int packing, Allocator*)`. -/
def ctorExtPacked2 (_w _h _data _elemsize _packing _allocator : Nat) : Mat :=
  { data := _data, refcount := 0, elemsize := _elemsize, packing := _packing,
    allocator := _allocator, dims := 2, w := _w, h := _h, c := 1, cstep := _w * _h }

/-- The constructor
`Mat(int w, int h, int c, void* data, size_t elemsize, int packing, Allocator*)`.
The channel step divides by `elemsize`. -/
def ctorExtPacked3 (_w _h _c _data _elemsize _packing _allocator : Nat) : Except Fault Mat :=
  if _elemsize = 0 then .error .divByZero
  else
    .ok { data := _data, refcount := 0, elemsize := _elemsize, packing := _packing,
          allocator := _allocator, dims := 3, w := _w, h := _h, c := _c,
          cstep := alignSize (_w * _h * _elemsize) 16 / _elemsize }

/-- The constructor `Mat(int w, void* data, size_t elemsize, Allocator*)`. -/
def ctorExt1 (_w _data _elemsize _allocator : Nat) : Mat :=
  { data := _data, refcount := 0, elemsize := _elemsize, packing := 1,
    allocator := _allocator, dims := 1, w := _w, h := 1, c := 1, cstep := _w }

/-- The constructor `Mat(int w, int h, void* data, size_t elemsize, Allocator*)`. -/
def ctorExt2 (_w _h _data _elemsize _allocator : Nat) : Mat :=
  { data := _data, refcount := 0, elemsize := _elemsize, packing := 1,
    allocator := _allocator, dims := 2, w := _w, h := _h, c := 1, cstep := _w * _h }

/-- The constructor `Mat(int w, int h, int c, void* data, size_t elemsize, Allocator*)`. -/
def ctorExt3 (_w _h _c _data _elemsize _allocator : Nat) : Except Fault Mat :=
  if _elemsize = 0 then .error .divByZero
  else
    .ok { data := _data, refcount := 0, elemsize := _elemsize, packing := 1,
          allocator := _allocator, dims := 3, w := _w, h := _h, c := _c,
          cstep := alignSize (_w * _h * _elemsize) 16 / _elemsize }

/-- The member `Mat::channel(int c)`. -/
def channel (self : Mat) (_c : Nat) : Mat :=
  ctorExtPacked2 self.w self.h (self.data + self.cstep * _c * self.elemsize)
    self.elemsize self.packing self.allocator

/-- The member `Mat::channel_range(int c, int channels)`. -/
def channel_range (self : Mat) (_c channels : Nat) : Except Fault Mat :=
  ctorExtPacked3 self.w self.h channels (self.data + self.cstep * _c * self.elemsize)
    self.elemsize self.packing self.allocator

/-- The member `Mat::row_range(int y, int rows)`. -/
def row_range (self : Mat) (y rows : Nat) : Mat :=
  ctorExtPacked2 self.w rows (self.data + self.w * y * self.elemsize)
    self.elemsize self.packing self.allocator

/-- The member `Mat::range(int x, int n)`. -/
def range (self : Mat) (x n : Nat) : Mat :=
  ctorExtPacked1 n (self.data + x * self.elemsize) self.elemsize self.packing self.allocator

/-- The member `Mat::clone(Allocator*)`. -/
def clone (hp : Heap) (self : Mat) (_allocator : Nat) : Except Fault (Mat × Heap) :=
  if self.empty then .ok (ctor, hp)
  else
    let created : Except Fault (Mat × Heap) :=
      if self.dims = 1 then
        createPacked1 hp ctor self.w self.elemsize self.packing _allocator
      else if self.dims = 2 then
        createPacked2 hp ctor self.w self.h self.elemsize self.packing _allocator
      else if self.dims = 3 then
        createPacked3 hp ctor self.w self.h self.c self.elemsize self.packing _allocator
      else .ok (ctor, hp)
    match created with
    | .error e => .error e
    | .ok (m, hp1) =>
      if self.total > 0 then
        .ok (m, memcpy hp1 m.data self.data (self.total * self.elemsize))
      else .ok (m, hp1)

/-- The loop under the comment `flatten` in the 1-D and 2-D `reshape`: channel `i` of
`self` is copied to offset `i * w * h * elemsize` of `m`. -/
def flattenLoop (hp : Heap) (self m : Mat) : Heap :=
  (List.range self.c).foldl
    (fun hp i => memcpy hp (m.data + i * self.w * self.h * self.elemsize)
                   (self.data + i * self.cstep * self.elemsize)
                   (self.w * self.h * self.elemsize)) hp

/-- The loop under the comment `align channel` in the 3-D `reshape`: the `i`-th run
of `_w * _h` elements of `self` is copied to channel `i` of `m`. -/
def alignLoop (hp : Heap) (self m : Mat) (_w _h _c : Nat) : Heap :=
  (List.range _c).foldl
    (fun hp i => memcpy hp (m.data + i * m.cstep * m.elemsize)
                   (self.data + i * _w * _h * self.elemsize)
                   (_w * _h * self.elemsize)) hp

/-- The overload `reshape(int w, Allocator*)`. -/
def reshape1 (hp : Heap) (self : Mat) (_w _allocator : Nat) : Except Fault (Mat × Heap) :=
  if self.w * self.h * self.c ≠ _w then .ok (ctor, hp)
  else if self.dims = 3 ∧ self.cstep ≠ self.w * self.h then
    match createPacked1 hp ctor _w self.elemsize self.packing _allocator with
    | .error e => .error e
    | .ok (m, hp1) => .ok (m, flattenLoop hp1 self m)
  else
    let r := ctorCopy hp self
    .ok ({ r.1 with dims := 1, w := _w, h := 1, c := 1, cstep := _w }, r.2)

/-- The overload `reshape(int w, int h, Allocator*)`. -/
def reshape2 (hp : Heap) (self : Mat) (_w _h _allocator : Nat) : Except Fault (Mat × Heap) :=
  if self.w * self.h * self.c ≠ _w * _h then .ok (ctor, hp)
  else if self.dims = 3 ∧ self.cstep ≠ self.w * self.h then
    match createPacked2 hp ctor _w _h self.elemsize self.packing _allocator with
    | .error e => .error e
    | .ok (m, hp1) => .ok (m, flattenLoop hp1 self m)
  else
    let r := ctorCopy hp self
    .ok ({ r.1 with dims := 2, w := _w, h := _h, c := 1, cstep := _w * _h }, r.2)

/-- The last statements of `reshape(int w, int h, int c, Allocator*)` (lines 533 to
542): copy the handle and overwrite its shape.  The channel step divides by
`elemsize`. -/
def reshape3Alias (hp : Heap) (self : Mat) (_w _h _c : Nat) : Except Fault (Mat × Heap) :=
  let r := ctorCopy hp self
  if self.elemsize = 0 then .error .divByZero
  else
    .ok ({ r.1 with dims := 3, w := _w, h := _h, c := _c,
                    cstep := alignSize (_w * _h * self.elemsize) 16 / self.elemsize }, r.2)

/-- The overload `reshape(int w, int h, int c, Allocator*)`.  The function calls
itself on the flattened temporary; the first argument bounds the depth of these
calls.  The temporary `tmp` is destroyed when the nested call has returned. -/
def reshape3 : Nat → Heap → Mat → Nat → Nat → Nat → Nat → Except Fault (Mat × Heap)
  | 0, _, _, _, _, _, _ => .error .outOfFuel
  | fuel + 1, hp, self, _w, _h, _c, _allocator =>
    if self.w * self.h * self.c ≠ _w * _h * _c then .ok (ctor, hp)
    else if self.dims < 3 then
      if self.elemsize = 0 then .error .divByZero
      else if _w * _h ≠ alignSize (_w * _h * self.elemsize) 16 / self.elemsize then
        match createPacked3 hp ctor _w _h _c self.elemsize self.packing _allocator with
        | .error e => .error e
        | .ok (m, hp1) => .ok (m, alignLoop hp1 self m _w _h _c)
      else reshape3Alias hp self _w _h _c
    else if self.c ≠ _c then
      match reshape1 hp self (_w * _h * _c) _allocator with
      | .error e => .error e
      | .ok (tmp, hp1) =>
        match reshape3 fuel hp1 tmp _w _h _c _allocator with
        | .error e => .error e
        | .ok (m, hp2) => .ok (m, (tmp.release hp2).2)
    else reshape3Alias hp self _w _h _c

/-- The member `Mat::create_like(const Mat& m, Allocator*)`. -/
def create_like (hp : Heap) (self m : Mat) (_allocator : Nat) : Except Fault (Mat × Heap) :=
  if m.dims = 1 then createPacked1 hp self m.w m.elemsize m.packing _allocator
  else if m.dims = 2 then createPacked2 hp self m.w m.h m.elemsize m.packing _allocator
  else if m.dims = 3 then createPacked3 hp self m.w m.h m.c m.elemsize m.packing _allocator
  else .ok (self, hp)

end Mat

/-! ## Element access and auxiliary notions used by the statements -/

/-- Reading `((const T*)p)[i]` for an element type `T` of `size` bytes (the pointer
comes from `Mat::operator const T*()`, which returns `data`). -/
def loadElem (hp : Heap) (p i size : Nat) : List Nat :=
  (List.range size).map (fun b => hp.mem (p + i * size + b))

/-- The assignment `((T*)p)[i] = v` for an element type `T` whose object
representation is the byte list `v`. -/
def storeElem (hp : Heap) (p i : Nat) (v : List Nat) : Heap :=
  { hp with mem := fun a =>
      if p + i * v.length ≤ a ∧ a < p + i * v.length + v.length
      then v.getD (a - (p + i * v.length)) 0 else hp.mem a }

/-- The conversion of a `size_t` value to `int`, as in `int size = total()`: the value
is reduced modulo `2^32` and read as a 32-bit two's complement number, so a count from
`2^31` on does not keep its value. -/
def intOfSize (n : Nat) : Int :=
  if n % 2 ^ 32 < 2 ^ 31 then ((n % 2 ^ 32 : Nat) : Int)
  else ((n % 2 ^ 32 : Nat) : Int) - 2 ^ 32

/-- The loop `for (; remain>0; remain--) *ptr++ = _v;` that ends `fill(float)` and
`fill(int)`; `v` is the object representation of `_v`, and the last argument is the
number of times the loop body runs. -/
def fillLoop (hp : Heap) (ptr : Nat) (v : List Nat) : Nat → Heap
  | 0 => hp
  | remain + 1 => fillLoop (storeElem hp ptr 0 v) (ptr + v.length) v remain

/-- The members `Mat::fill(float v)` and `Mat::fill(int v)` on the path without
`__ARM_NEON`: `int size = total()`, `ptr = data`, `int remain = size`, then the loop,
whose body runs `remain` times when `remain > 0` and not at all otherwise.  No member
is assigned. -/
def Mat.fillScalar (hp : Heap) (self : Mat) (v : List Nat) : Mat × Heap :=
  let size := intOfSize self.total
  (self, fillLoop hp self.data v size.toNat)

/-- The member template `Mat::fill(T v)`: `int size = total()`, `ptr = (T*)data`, then
`ptr[i] = v` for the `int` index `i` from `0` while `i < size`; `v` is the object
representation of the value, `sizeof(T)` bytes.  No member is assigned. -/
def Mat.fill (hp : Heap) (self : Mat) (v : List Nat) : Mat × Heap :=
  let size := intOfSize self.total
  (self, (List.range size.toNat).foldl (fun hp i => storeElem hp self.data i v) hp)

/-- Position, in elements from `data`, of the `k`-th live element of a buffer:
channels are enumerated in order, each contributing `w * h` live elements that start
at `channel_index * cstep`; the alignment padding is skipped. -/
def liveIndex (m : Mat) (k : Nat) : Nat :=
  k / (m.w * m.h) * m.cstep + k % (m.w * m.h)

/-- The layout invariant: the channel step fixed by the dimensionality. -/
def layoutInv (m : Mat) : Prop :=
  (m.dims = 1 → m.cstep = m.w ∧ m.h = 1 ∧ m.c = 1) ∧
  (m.dims = 2 → m.cstep = m.w * m.h ∧ m.c = 1) ∧
  (m.dims = 3 → m.cstep = alignSize (m.w * m.h * m.elemsize) 16 / m.elemsize)

instance (m : Mat) : Decidable (layoutInv m) := by
  unfold layoutInv; infer_instance

/-- Copy-construct `n` further handles from `m`, one after the other. -/
def copies (hp : Heap) (m : Mat) : Nat → List Mat × Heap
  | 0 => ([], hp)
  | n + 1 =>
    let r := copies hp m n
    let k := Mat.ctorCopy r.2 m
    (k.1 :: r.1, k.2)

/-- Release the handles of a list, first to last. -/
def releaseAll (hp : Heap) (hs : List Mat) : Heap :=
  hs.foldl (fun hp m => (m.release hp).2) hp

/-- A well-formed non-empty buffer: the layout invariant, a dimensionality between one
and three, a positive element size, a non-null data pointer and `total() > 0`. -/
structure Valid (m : Mat) : Prop where
  inv : layoutInv m
  dims_pos : 1 ≤ m.dims
  dims_le : m.dims ≤ 3
  elemsize_pos : 1 ≤ m.elemsize
  data_ne : m.data ≠ 0
  total_pos : 0 < m.total

/-- A well-formed non-empty buffer whose data region lies in the part of the address
space below `brk`, that is, outside the blocks the allocator will hand out next. -/
structure Live (hp : Heap) (m : Mat) extends Valid m : Prop where
  below : m.data + m.total * m.elemsize ≤ hp.brk

/-- Size of the request that `create` sends to the allocator for `total` elements
of `elemsize` bytes: the data region rounded up to four bytes, plus the counter. -/
def allocSize (total elemsize : Nat) : Nat := alignSize (total * elemsize) 4 + 4

/-- The arena starts above null and still has room for `n` bytes. -/
def Heap.room (hp : Heap) (n : Nat) : Prop := 0 < hp.brk ∧ hp.brk + n ≤ hp.cap

instance (hp : Heap) (n : Nat) : Decidable (hp.room n) := by
  unfold Heap.room; infer_instance

/-- The heap used by the concrete examples: zeroed memory, arena `[16, 4096)`. -/
def demoHeap : Heap := Heap.init 16 4096

/-- The value of a successful execution (a default pair for a faulting one). -/
def run (x : Except Fault (Mat × Heap)) : Mat × Heap :=
  match x with
  | .ok r => r
  | .error _ => (Mat.ctor, Heap.init 0 0)

/-- A contiguous 3-D buffer: `create(4, 4, 3, 4, 1)` on the example heap (`cstep = 16`). -/
def demoContig : Mat × Heap := run (Mat.createPacked3 demoHeap Mat.ctor 4 4 3 4 1 0)

/-- A padded 3-D buffer: `create(3, 3, 2, 4, 1)` on the example heap (`cstep = 12`). -/
def demoPadded : Mat × Heap := run (Mat.createPacked3 demoHeap Mat.ctor 3 3 2 4 1 0)

/-- Number of `fastMalloc` calls logged between the heap states `hp` and `hp1`. -/
def mallocCount (hp hp1 : Heap) : Nat := hp1.mallocs.length - hp.mallocs.length

/-- The handle `m` owns a block that was requested between `hp` and `hp1` by exactly
one call of `fastMalloc`, of `alignSize (total * elemsize) 4 + 4` bytes, through the
allocator of `m`; the counter is the `int` right after the rounded data region, it is
one, and its four bytes lie inside the block and after the data region. -/
def OwnsFreshBlock (hp : Heap) (m : Mat) (hp1 : Heap) : Prop :=
  hp1.mallocs = hp.mallocs ++
    [(m.allocator, alignSize (m.total * m.elemsize) 4 + 4, m.data)] ∧
  m.data ≠ 0 ∧
  m.refcount = m.data + alignSize (m.total * m.elemsize) 4 ∧
  hp1.cnt m.refcount = 1 ∧
  m.data + m.total * m.elemsize ≤ m.refcount ∧
  m.refcount + 4 ≤ m.data + (alignSize (m.total * m.elemsize) 4 + 4)

/-- What a scalar fill of `self` with the value `v` achieves, from the heap `hp` to
the heap `hp1`: every element at an index below `total()` (padding included) reads as
`v`; no element at an index from `total()` on is written, and no byte outside the
region `[data, data + total() * elemsize)`; counters and allocator logs are as before. -/
def Filled (hp : Heap) (self : Mat) (v : List Nat) (hp1 : Heap) : Prop :=
  (∀ i, i < self.total → loadElem hp1 self.data i self.elemsize = v) ∧
  (∀ i, self.total ≤ i →
    loadElem hp1 self.data i self.elemsize = loadElem hp self.data i self.elemsize) ∧
  (∀ x, x < self.data ∨ self.data + self.total * self.elemsize ≤ x → hp1.mem x = hp.mem x) ∧
  hp1.cnt = hp.cnt ∧ hp1.mallocs = hp.mallocs ∧ hp1.frees = hp.frees

/-- A heap whose arena `[16, 64)` is too small for any of the example buffers. -/
def smallHeap : Heap := Heap.init 16 64

/-- A 1-D buffer of ten `float32` elements: `create(10, 4, 1)` on the example heap. -/
def demoVec : Mat × Heap := run (Mat.createPacked1 demoHeap Mat.ctor 10 4 1 0)

/-- The buffer `create(4, 4, 3, 4, 1, allocator)` with the allocator numbered 7. -/
def demoAlloc7 : Mat × Heap := run (Mat.createPacked3 demoHeap Mat.ctor 4 4 3 4 1 7)

/-- A heap with zeroed memory whose arena `[16, 2^35)` has room for the largest
example buffers. -/
def bigHeap : Heap := Heap.init 16 (2 ^ 35)

/-- The buffer `create(32768, 32768, 2, 1, 1)` of `2^31` one-byte elements. -/
def demoHugeBytes : Mat × Heap :=
  run (Mat.createPacked3 bigHeap Mat.ctor 32768 32768 2 1 1 0)

/-- The buffer `create(1024, 1024, 2048, 4, 1)` of `2^31` `float32` elements. -/
def demoHugeFloats : Mat × Heap :=
  run (Mat.createPacked3 bigHeap Mat.ctor 1024 1024 2048 4 1 0)

/-! ## Theorems -/

open Mat

theorem alignSize_dvd (n a : Nat) : a ∣ alignSize n a := by
  unfold alignSize; exact Dvd.intro_left _ rfl

theorem alignSize_ge (n a : Nat) (ha : 0 < a) : n ≤ alignSize n a := by
  unfold alignSize
  have h1 := Nat.div_add_mod (n + a - 1) a
  have h2 := Nat.mod_lt (n + a - 1) ha
  have h3 : (n + a - 1) / a * a = a * ((n + a - 1) / a) := Nat.mul_comm _ _
  omega

theorem alignSize_lt (n a : Nat) (ha : 0 < a) : alignSize n a < n + a := by
  unfold alignSize
  have h1 := Nat.div_add_mod (n + a - 1) a
  have h3 : (n + a - 1) / a * a = a * ((n + a - 1) / a) := Nat.mul_comm _ _
  omega

theorem alignSize_of_dvd (n a : Nat) (ha : 0 < a) (h : a ∣ n) : alignSize n a = n := by
  obtain ⟨k, rfl⟩ := h
  have h1 := alignSize_ge (a * k) a ha
  have h2 := alignSize_lt (a * k) a ha
  obtain ⟨j, hj⟩ := alignSize_dvd (a * k) a
  rw [hj] at h1 h2 ⊢
  have : j = k := by
    have h3 : k ≤ j := Nat.le_of_mul_le_mul_left h1 ha
    have h4 : a * j < a * (k + 1) := by rw [Nat.mul_add, Nat.mul_one]; exact h2
    have h5 : j < k + 1 := Nat.lt_of_mul_lt_mul_left h4
    omega
  rw [this]

/-- The channel step never cuts a plane short. -/
theorem cstep_ge (n e : Nat) (he : 0 < e) : n ≤ alignSize (n * e) 16 / e := by
  rw [Nat.le_div_iff_mul_le he]
  exact alignSize_ge _ _ (by decide)

theorem cstep_mul_elemsize (n e : Nat) (he : 1 ≤ e) (hd : e ∣ 16 ∨ 16 ∣ e) :
    16 ∣ alignSize (n * e) 16 / e * e := by
  rcases hd with hd | hd
  · have h1 : e ∣ alignSize (n * e) 16 := Dvd.dvd.trans hd (alignSize_dvd _ _)
    rw [Nat.div_mul_cancel h1]; exact alignSize_dvd _ _
  · have h1 : 16 ∣ n * e := Dvd.dvd.mul_left hd n
    rw [alignSize_of_dvd _ _ (by decide) h1, Nat.mul_div_cancel _ he]; exact h1

@[simp] theorem release_fst (hp : Heap) (m : Mat) :
    (m.release hp).1 = { m with data := 0, elemsize := 0, packing := 0, dims := 0, w := 0,
                                h := 0, c := 0, cstep := 0, refcount := 0 } := rfl

@[simp] theorem release_mem (hp : Heap) (m : Mat) : (m.release hp).2.mem = hp.mem := by
  unfold Mat.release NCNN_XADD fastFree; dsimp only; split_ifs <;> rfl

@[simp] theorem release_brk (hp : Heap) (m : Mat) : (m.release hp).2.brk = hp.brk := by
  unfold Mat.release NCNN_XADD fastFree; dsimp only; split_ifs <;> rfl

@[simp] theorem release_cap (hp : Heap) (m : Mat) : (m.release hp).2.cap = hp.cap := by
  unfold Mat.release NCNN_XADD fastFree; dsimp only; split_ifs <;> rfl

/-- The allocation block of `create` leaves the shape members alone. -/
theorem allocate_fields {hp hp' : Heap} {m r : Mat} (h : Mat.allocate hp m = .ok (r, hp')) :
    r.elemsize = m.elemsize ∧ r.packing = m.packing ∧ r.allocator = m.allocator ∧
    r.dims = m.dims ∧ r.w = m.w ∧ r.h = m.h ∧ r.c = m.c ∧ r.cstep = m.cstep := by
  unfold Mat.allocate at h
  dsimp only at h
  split_ifs at h with h1 h2
  · simp only [Except.ok.injEq, Prod.mk.injEq] at h
    obtain ⟨rfl, -⟩ := h
    simp
  · simp only [Except.ok.injEq, Prod.mk.injEq] at h
    obtain ⟨rfl, -⟩ := h
    simp

theorem layoutInv_of_fields {m r : Mat} (h : layoutInv m)
    (hf : r.elemsize = m.elemsize ∧ r.dims = m.dims ∧ r.w = m.w ∧ r.h = m.h ∧ r.c = m.c ∧
      r.cstep = m.cstep) : layoutInv r := by
  obtain ⟨h1, h2, h3, h4, h5, h6⟩ := hf
  unfold layoutInv at *
  rw [h1, h2, h3, h4, h5, h6]; exact h

theorem layoutInv_allocate {hp hp' : Heap} {m r : Mat} (hm : layoutInv m)
    (h : Mat.allocate hp m = .ok (r, hp')) : layoutInv r := by
  obtain ⟨h1, -, -, h4, h5, h6, h7, h8⟩ := allocate_fields h
  exact layoutInv_of_fields hm ⟨h1, h4, h5, h6, h7, h8⟩

theorem layoutInv_createPacked1 {hp hp' : Heap} {self r : Mat} {w e p a : Nat}
    (hs : layoutInv self) (h : Mat.createPacked1 hp self w e p a = .ok (r, hp')) :
    layoutInv r := by
  unfold Mat.createPacked1 at h
  split_ifs at h with h1
  · simp only [Except.ok.injEq, Prod.mk.injEq] at h
    obtain ⟨rfl, -⟩ := h; exact hs
  · refine layoutInv_allocate ?_ h
    simp [layoutInv]

theorem layoutInv_createPacked2 {hp hp' : Heap} {self r : Mat} {w h e p a : Nat}
    (hs : layoutInv self) (hc : Mat.createPacked2 hp self w h e p a = .ok (r, hp')) :
    layoutInv r := by
  unfold Mat.createPacked2 at hc
  split_ifs at hc with h1
  · simp only [Except.ok.injEq, Prod.mk.injEq] at hc
    obtain ⟨rfl, -⟩ := hc; exact hs
  · refine layoutInv_allocate ?_ hc
    simp [layoutInv]

theorem layoutInv_createPacked3 {hp hp' : Heap} {self r : Mat} {w h c e p a : Nat}
    (hs : layoutInv self) (hc : Mat.createPacked3 hp self w h c e p a = .ok (r, hp')) :
    layoutInv r := by
  unfold Mat.createPacked3 at hc
  split_ifs at hc with h1 h2
  · simp only [Except.ok.injEq, Prod.mk.injEq] at hc
    obtain ⟨rfl, -⟩ := hc; exact hs
  · refine layoutInv_allocate ?_ hc
    simp [layoutInv]

theorem create1_eq (hp : Heap) (self : Mat) (w e a : Nat) :
    Mat.create1 hp self w e a = Mat.createPacked1 hp self w e 1 a := rfl

theorem create2_eq (hp : Heap) (self : Mat) (w h e a : Nat) :
    Mat.create2 hp self w h e a = Mat.createPacked2 hp self w h e 1 a := rfl

theorem create3_eq (hp : Heap) (self : Mat) (w h c e a : Nat) :
    Mat.create3 hp self w h c e a = Mat.createPacked3 hp self w h c e 1 a := rfl

theorem layoutInv_ctor : layoutInv Mat.ctor := by decide

theorem layoutInv_clone {hp hp' : Heap} {self r : Mat} {a : Nat}
    (h : Mat.clone hp self a = .ok (r, hp')) : layoutInv r := by
  unfold Mat.clone at h
  by_cases h0 : self.empty = true
  · rw [if_pos h0] at h
    simp only [Except.ok.injEq, Prod.mk.injEq] at h
    obtain ⟨rfl, -⟩ := h; exact layoutInv_ctor
  · rw [if_neg h0] at h
    dsimp only at h
    split at h
    · exact absurd h (by simp)
    · rename_i m hp1 hcr
      have hm : layoutInv m := by
        split_ifs at hcr with h1 h2 h3
        · exact layoutInv_createPacked1 layoutInv_ctor hcr
        · exact layoutInv_createPacked2 layoutInv_ctor hcr
        · exact layoutInv_createPacked3 layoutInv_ctor hcr
        · simp only [Except.ok.injEq, Prod.mk.injEq] at hcr
          obtain ⟨rfl, -⟩ := hcr; exact layoutInv_ctor
      split_ifs at h <;>
      · simp only [Except.ok.injEq, Prod.mk.injEq] at h
        obtain ⟨rfl, -⟩ := h; exact hm

theorem layoutInv_reshape1 {hp hp' : Heap} {self r : Mat} {w a : Nat}
    (h : Mat.reshape1 hp self w a = .ok (r, hp')) : layoutInv r := by
  unfold Mat.reshape1 at h
  split_ifs at h with h0 h1
  · simp only [Except.ok.injEq, Prod.mk.injEq] at h
    obtain ⟨rfl, -⟩ := h; exact layoutInv_ctor
  · split at h
    · exact absurd h (by simp)
    · rename_i m hp1 hcr
      simp only [Except.ok.injEq, Prod.mk.injEq] at h
      obtain ⟨rfl, -⟩ := h
      exact layoutInv_createPacked1 layoutInv_ctor hcr
  · simp only [Except.ok.injEq, Prod.mk.injEq] at h
    obtain ⟨rfl, -⟩ := h
    simp [layoutInv]

theorem layoutInv_reshape2 {hp hp' : Heap} {self r : Mat} {w h a : Nat}
    (hr : Mat.reshape2 hp self w h a = .ok (r, hp')) : layoutInv r := by
  unfold Mat.reshape2 at hr
  split_ifs at hr with h0 h1
  · simp only [Except.ok.injEq, Prod.mk.injEq] at hr
    obtain ⟨rfl, -⟩ := hr; exact layoutInv_ctor
  · split at hr
    · exact absurd hr (by simp)
    · rename_i m hp1 hcr
      simp only [Except.ok.injEq, Prod.mk.injEq] at hr
      obtain ⟨rfl, -⟩ := hr
      exact layoutInv_createPacked2 layoutInv_ctor hcr
  · simp only [Except.ok.injEq, Prod.mk.injEq] at hr
    obtain ⟨rfl, -⟩ := hr
    simp [layoutInv]

theorem layoutInv_reshape3Alias {hp hp' : Heap} {self r : Mat} {w h c : Nat}
    (hr : Mat.reshape3Alias hp self w h c = .ok (r, hp')) : layoutInv r := by
  unfold Mat.reshape3Alias at hr
  dsimp only at hr
  split_ifs at hr with h0
  simp only [Except.ok.injEq, Prod.mk.injEq] at hr
  obtain ⟨rfl, -⟩ := hr
  simp [layoutInv, Mat.ctorCopy]

theorem layoutInv_reshape3 (fuel : Nat) : ∀ {hp hp' : Heap} {self r : Mat} {w h c a : Nat},
    Mat.reshape3 fuel hp self w h c a = .ok (r, hp') → layoutInv r := by
  induction fuel with
  | zero => intro hp hp' self r w h c a hr; simp [Mat.reshape3] at hr
  | succ n ih =>
    intro hp hp' self r w h c a hr
    unfold Mat.reshape3 at hr
    split_ifs at hr with h0 h1 h2 h3 h4
    · simp only [Except.ok.injEq, Prod.mk.injEq] at hr
      obtain ⟨rfl, -⟩ := hr; exact layoutInv_ctor
    · split at hr
      · exact absurd hr (by simp)
      · rename_i m hp1 hcr
        simp only [Except.ok.injEq, Prod.mk.injEq] at hr
        obtain ⟨rfl, -⟩ := hr
        exact layoutInv_createPacked3 layoutInv_ctor hcr
    · exact layoutInv_reshape3Alias hr
    · split at hr
      · exact absurd hr (by simp)
      · rename_i tmp hp1 hcr
        split at hr
        · exact absurd hr (by simp)
        · rename_i m hp2 hrec
          simp only [Except.ok.injEq, Prod.mk.injEq] at hr
          obtain ⟨rfl, -⟩ := hr
          exact ih hrec
    · exact layoutInv_reshape3Alias hr

theorem layoutInv_ctorExtPacked3 {w h c d e p a : Nat} {r : Mat}
    (hr : Mat.ctorExtPacked3 w h c d e p a = .ok r) : layoutInv r := by
  unfold Mat.ctorExtPacked3 at hr
  split_ifs at hr
  simp only [Except.ok.injEq] at hr
  subst hr
  simp [layoutInv]

theorem room_release {hp : Heap} {n : Nat} (m : Mat) (h : hp.room n) :
    (m.release hp).2.room n := by
  unfold Heap.room at *; rw [release_brk, release_cap]; exact h

/-- With room in the arena the allocation block of `create` succeeds; the fresh block
starts at the old `brk` and its counter is one. -/
theorem allocate_ok (hp : Heap) (m : Mat) (hr : hp.room (allocSize m.total m.elemsize)) :
    ∃ r hp', Mat.allocate hp m = .ok (r, hp') ∧
      (r.elemsize = m.elemsize ∧ r.packing = m.packing ∧ r.allocator = m.allocator ∧
        r.dims = m.dims ∧ r.w = m.w ∧ r.h = m.h ∧ r.c = m.c ∧ r.cstep = m.cstep) ∧
      hp'.mem = hp.mem ∧ hp'.cap = hp.cap ∧ hp'.frees = hp.frees ∧
      (0 < m.total → r.data = hp.brk ∧
        r.refcount = hp.brk + alignSize (m.total * m.elemsize) 4 ∧
        hp'.brk = hp.brk + allocSize m.total m.elemsize ∧
        hp'.cnt r.refcount = 1 ∧ (∀ a, a ≠ r.refcount → hp'.cnt a = hp.cnt a) ∧
        hp'.mallocs = hp.mallocs ++ [(m.allocator, allocSize m.total m.elemsize, hp.brk)]) ∧
      (m.total = 0 → r = m ∧ hp' = hp) := by
  obtain ⟨hb, hc⟩ := hr
  unfold allocSize at hc
  by_cases ht : 0 < m.total
  · refine ⟨{ m with data := hp.brk, refcount := hp.brk + alignSize (m.total * m.elemsize) 4 },
      storeCount (fastMalloc hp m.allocator (alignSize (m.total * m.elemsize) 4 + 4)).2
        (hp.brk + alignSize (m.total * m.elemsize) 4) 1, ?_, ?_, ?_, ?_, ?_, ?_, ?_⟩
    · unfold Mat.allocate
      have h1 : (fastMalloc hp m.allocator (alignSize (m.total * m.elemsize) 4 + 4)).1 = hp.brk := by
        unfold fastMalloc; rw [if_pos hc]
      dsimp only
      rw [if_pos ht, h1, if_neg (by omega)]
    · simp
    · unfold fastMalloc storeCount; rw [if_pos hc]
    · unfold fastMalloc storeCount; rw [if_pos hc]
    · unfold fastMalloc storeCount; rw [if_pos hc]
    · intro _
      refine ⟨rfl, rfl, ?_, ?_, ?_, ?_⟩
      · unfold fastMalloc storeCount allocSize; rw [if_pos hc]
      · unfold storeCount; simp
      · intro a ha
        unfold fastMalloc storeCount; rw [if_pos hc]; dsimp only at ha ⊢; rw [if_neg ha]
      · unfold fastMalloc storeCount allocSize; rw [if_pos hc]
    · intro h0; omega
  · refine ⟨m, hp, ?_, ?_, rfl, rfl, rfl, ?_, ?_⟩
    · unfold Mat.allocate; rw [if_neg ht]
    · simp
    · intro h; exact absurd h ht
    · intro _; exact ⟨rfl, rfl⟩

theorem createPacked1_ctor (hp : Heap) (w e p a : Nat) :
    Mat.createPacked1 hp Mat.ctor w e p a =
      Mat.allocate hp { data := 0, refcount := 0, elemsize := e, packing := p, allocator := a,
                        dims := 1, w := w, h := 1, c := 1, cstep := w } := rfl

theorem createPacked2_ctor (hp : Heap) (w h e p a : Nat) :
    Mat.createPacked2 hp Mat.ctor w h e p a =
      Mat.allocate hp { data := 0, refcount := 0, elemsize := e, packing := p, allocator := a,
                        dims := 2, w := w, h := h, c := 1, cstep := w * h } := rfl

theorem createPacked3_ctor (hp : Heap) (w h c e p a : Nat) (he : 1 ≤ e) :
    Mat.createPacked3 hp Mat.ctor w h c e p a =
      Mat.allocate hp { data := 0, refcount := 0, elemsize := e, packing := p, allocator := a,
                        dims := 3, w := w, h := h, c := c,
                        cstep := alignSize (w * h * e) 16 / e } := by
  have h0 : ¬ e = 0 := by omega
  simp [Mat.createPacked3, Mat.ctor, Mat.release, h0]

/-- Shape of the buffer left by the 1-D `create`, whichever path the call takes. -/
theorem createPacked1_ok (hp : Heap) (self : Mat) (w e p a : Nat) (hinv : layoutInv self)
    (hr : hp.room (allocSize w e)) :
    ∃ m hp', Mat.createPacked1 hp self w e p a = .ok (m, hp') ∧ m.dims = 1 ∧ m.w = w ∧
      m.h = 1 ∧ m.c = 1 ∧ m.cstep = w ∧ m.elemsize = e ∧ m.packing = p ∧ m.allocator = a ∧
      hp'.mem = hp.mem := by
  unfold Mat.createPacked1
  split_ifs with h1
  · obtain ⟨hd, hw, he, hp1, ha⟩ := h1
    obtain ⟨h2, h3, h4⟩ := hinv.1 hd
    exact ⟨self, hp, rfl, hd, hw, h3, h4, by rw [h2, hw], he, hp1, ha, rfl⟩
  · dsimp only
    obtain ⟨r, hp', hal, hf, hmem, -, -, -, -⟩ :=
      allocate_ok (self.release hp).2
        { (self.release hp).1 with elemsize := e, packing := p, allocator := a, dims := 1,
                                   w := w, h := 1, c := 1, cstep := w }
        (by simpa [Mat.total] using room_release self hr)
    obtain ⟨f1, f2, f3, f4, f5, f6, f7, f8⟩ := hf
    exact ⟨r, hp', hal, f4, f5, f6, f7, f8, f1, f2, f3, by rw [hmem, release_mem]⟩

/-- Shape of the buffer left by the 2-D `create`, whichever path the call takes. -/
theorem createPacked2_ok (hp : Heap) (self : Mat) (w h e p a : Nat) (hinv : layoutInv self)
    (hr : hp.room (allocSize (w * h) e)) :
    ∃ m hp', Mat.createPacked2 hp self w h e p a = .ok (m, hp') ∧ m.dims = 2 ∧ m.w = w ∧
      m.h = h ∧ m.c = 1 ∧ m.cstep = w * h ∧ m.elemsize = e ∧ m.packing = p ∧
      m.allocator = a ∧ hp'.mem = hp.mem := by
  unfold Mat.createPacked2
  split_ifs with h1
  · obtain ⟨hd, hw, hh, he, hp1, ha⟩ := h1
    obtain ⟨h2, h3⟩ := hinv.2.1 hd
    exact ⟨self, hp, rfl, hd, hw, hh, h3, by rw [h2, hw, hh], he, hp1, ha, rfl⟩
  · dsimp only
    obtain ⟨r, hp', hal, hf, hmem, -, -, -, -⟩ :=
      allocate_ok (self.release hp).2
        { (self.release hp).1 with elemsize := e, packing := p, allocator := a, dims := 2,
                                   w := w, h := h, c := 1, cstep := w * h }
        (by simpa [Mat.total] using room_release self hr)
    obtain ⟨f1, f2, f3, f4, f5, f6, f7, f8⟩ := hf
    exact ⟨r, hp', hal, f4, f5, f6, f7, f8, f1, f2, f3, by rw [hmem, release_mem]⟩

/-- Shape of the buffer left by the 3-D `create`, whichever path the call takes. -/
theorem createPacked3_ok (hp : Heap) (self : Mat) (w h c e p a : Nat) (hinv : layoutInv self)
    (he : 1 ≤ e) (hr : hp.room (allocSize (alignSize (w * h * e) 16 / e * c) e)) :
    ∃ m hp', Mat.createPacked3 hp self w h c e p a = .ok (m, hp') ∧ m.dims = 3 ∧ m.w = w ∧
      m.h = h ∧ m.c = c ∧ m.cstep = alignSize (w * h * e) 16 / e ∧ m.elemsize = e ∧
      m.packing = p ∧ m.allocator = a ∧ hp'.mem = hp.mem := by
  unfold Mat.createPacked3
  split_ifs with h1 h2
  · obtain ⟨hd, hw, hh, hc, hes, hp1, ha⟩ := h1
    have h2 := hinv.2.2 hd
    exact ⟨self, hp, rfl, hd, hw, hh, hc, by rw [h2, hw, hh, hes], hes, hp1, ha, rfl⟩
  · omega
  · dsimp only
    obtain ⟨r, hp', hal, hf, hmem, -, -, -, -⟩ :=
      allocate_ok (self.release hp).2
        { (self.release hp).1 with elemsize := e, packing := p, allocator := a, dims := 3,
                                   w := w, h := h, c := c,
                                   cstep := alignSize (w * h * e) 16 / e }
        (by simpa [Mat.total] using room_release self hr)
    obtain ⟨f1, f2, f3, f4, f5, f6, f7, f8⟩ := hf
    exact ⟨r, hp', hal, f4, f5, f6, f7, f8, f1, f2, f3, by rw [hmem, release_mem]⟩

/-- C3. Layout invariant.  `alignSize n a` is the least multiple of `a` that is at
least `n`.  Every buffer produced by a `create` overload (called on a handle that
satisfies the invariant, such as a fresh one), by an external-memory constructor, by
`clone`, by a `reshape` overload, or by `channel`, `channel_range`, `row_range` or
`range` satisfies `layoutInv`: `dims = 1` gives `cstep = w` and `h = c = 1`, `dims = 2`
gives `cstep = w * h` and `c = 1`, `dims = 3` gives
`cstep = alignSize (w * h * elemsize) 16 / elemsize`.  Example: `create(4, 4, 3, 4, 1)`
has `cstep = 16` and `total() = 48`. -/
theorem layout_invariant :
    (∀ n a, 0 < a → a ∣ alignSize n a ∧ n ≤ alignSize n a ∧ alignSize n a < n + a) ∧
    (∀ hp self w e a r hp', layoutInv self →
      Mat.create1 hp self w e a = .ok (r, hp') → layoutInv r) ∧
    (∀ hp self w h e a r hp', layoutInv self →
      Mat.create2 hp self w h e a = .ok (r, hp') → layoutInv r) ∧
    (∀ hp self w h c e a r hp', layoutInv self →
      Mat.create3 hp self w h c e a = .ok (r, hp') → layoutInv r) ∧
    (∀ hp self w e p a r hp', layoutInv self →
      Mat.createPacked1 hp self w e p a = .ok (r, hp') → layoutInv r) ∧
    (∀ hp self w h e p a r hp', layoutInv self →
      Mat.createPacked2 hp self w h e p a = .ok (r, hp') → layoutInv r) ∧
    (∀ hp self w h c e p a r hp', layoutInv self →
      Mat.createPacked3 hp self w h c e p a = .ok (r, hp') → layoutInv r) ∧
    (∀ w d e a, layoutInv (Mat.ctorExt1 w d e a)) ∧
    (∀ w h d e a, layoutInv (Mat.ctorExt2 w h d e a)) ∧
    (∀ w h c d e a r, Mat.ctorExt3 w h c d e a = .ok r → layoutInv r) ∧
    (∀ w d e p a, layoutInv (Mat.ctorExtPacked1 w d e p a)) ∧
    (∀ w h d e p a, layoutInv (Mat.ctorExtPacked2 w h d e p a)) ∧
    (∀ w h c d e p a r, Mat.ctorExtPacked3 w h c d e p a = .ok r → layoutInv r) ∧
    (∀ hp self a r hp', Mat.clone hp self a = .ok (r, hp') → layoutInv r) ∧
    (∀ hp self w a r hp', Mat.reshape1 hp self w a = .ok (r, hp') → layoutInv r) ∧
    (∀ hp self w h a r hp', Mat.reshape2 hp self w h a = .ok (r, hp') → layoutInv r) ∧
    (∀ fuel hp self w h c a r hp',
      Mat.reshape3 fuel hp self w h c a = .ok (r, hp') → layoutInv r) ∧
    (∀ self i, layoutInv (Mat.channel self i)) ∧
    (∀ self i n r, Mat.channel_range self i n = .ok r → layoutInv r) ∧
    (∀ self y n, layoutInv (Mat.row_range self y n)) ∧
    (∀ self x n, layoutInv (Mat.range self x n)) ∧
    (∃ m hp', Mat.createPacked3 demoHeap Mat.ctor 4 4 3 4 1 0 = .ok (m, hp') ∧
      m.cstep = 16 ∧ m.total = 48) := by
  refine ⟨fun n a ha => ⟨alignSize_dvd n a, alignSize_ge n a ha, alignSize_lt n a ha⟩,
    ?_, ?_, ?_, ?_, ?_, ?_, ?_, ?_, ?_, ?_, ?_, ?_, ?_, ?_, ?_, ?_, ?_, ?_, ?_, ?_, ?_⟩
  · intro hp self w e a r hp' hs h; rw [create1_eq] at h; exact layoutInv_createPacked1 hs h
  · intro hp self w h e a r hp' hs hc; rw [create2_eq] at hc
    exact layoutInv_createPacked2 hs hc
  · intro hp self w h c e a r hp' hs hc; rw [create3_eq] at hc
    exact layoutInv_createPacked3 hs hc
  · intro hp self w e p a r hp' hs h; exact layoutInv_createPacked1 hs h
  · intro hp self w h e p a r hp' hs hc; exact layoutInv_createPacked2 hs hc
  · intro hp self w h c e p a r hp' hs hc; exact layoutInv_createPacked3 hs hc
  · intro w d e a; simp [layoutInv, Mat.ctorExt1]
  · intro w h d e a; simp [layoutInv, Mat.ctorExt2]
  · intro w h c d e a r hr; exact layoutInv_ctorExtPacked3 (show Mat.ctorExtPacked3 w h c d e 1 a = .ok r from hr)
  · intro w d e p a; simp [layoutInv, Mat.ctorExtPacked1]
  · intro w h d e p a; simp [layoutInv, Mat.ctorExtPacked2]
  · intro w h c d e p a r hr; exact layoutInv_ctorExtPacked3 hr
  · intro hp self a r hp' h; exact layoutInv_clone h
  · intro hp self w a r hp' h; exact layoutInv_reshape1 h
  · intro hp self w h a r hp' hr; exact layoutInv_reshape2 hr
  · intro fuel hp self w h c a r hp' hr; exact layoutInv_reshape3 fuel hr
  · intro self i; simp [layoutInv, Mat.channel, Mat.ctorExtPacked2]
  · intro self i n r hr; exact layoutInv_ctorExtPacked3 hr
  · intro self y n; simp [layoutInv, Mat.row_range, Mat.ctorExtPacked2]
  · intro self x n; simp [layoutInv, Mat.range, Mat.ctorExtPacked1]
  · exact ⟨_, _, rfl, by decide, by decide⟩

/-- The layout invariant at `create(3, 3, 2, 4, 1)` on a fresh handle. -/
theorem layout_invariant_witness :
    layoutInv Mat.ctor ∧ layoutInv (run (Mat.createPacked3 demoHeap Mat.ctor 3 3 2 4 1 0)).1 :=
  ⟨by decide, layout_invariant.2.2.2.2.2.2.1 demoHeap Mat.ctor 3 3 2 4 1 0 _ _ (by decide) rfl⟩

/-- C4, amended.  For every element size that divides 16 or is a positive multiple of
16 (the documented sizes 1, 2 and 4 and their packed multiples), and all `w`, `h`, `c`
and `packing`, the 3-D `create` succeeds when the arena has room, leaves
`cstep = alignSize (w * h * elemsize) 16 / elemsize`, and `cstep * elemsize` is a
multiple of 16. -/
theorem create3_stride_bytes (hp : Heap) (self : Mat) (w h c e p a : Nat)
    (hinv : layoutInv self) (he : 1 ≤ e) (hd : e ∣ 16 ∨ 16 ∣ e)
    (hr : hp.room (allocSize (alignSize (w * h * e) 16 / e * c) e)) :
    ∃ m hp', Mat.createPacked3 hp self w h c e p a = .ok (m, hp') ∧
      m.cstep = alignSize (w * h * e) 16 / e ∧ 16 ∣ m.cstep * m.elemsize := by
  obtain ⟨m, hp', hc, -, -, -, -, hcs, hes, -, -, -⟩ :=
    createPacked3_ok hp self w h c e p a hinv he hr
  exact ⟨m, hp', hc, hcs, by rw [hcs, hes]; exact cstep_mul_elemsize _ _ he hd⟩

/-- The stride rule at `create(3, 3, 2, 4, 1)`: `cstep = 12`, 48 bytes per channel. -/
theorem create3_stride_bytes_witness :
    ∃ m hp', Mat.createPacked3 demoHeap Mat.ctor 3 3 2 4 1 0 = .ok (m, hp') ∧
      m.cstep = alignSize (3 * 3 * 4) 16 / 4 ∧ 16 ∣ m.cstep * m.elemsize :=
  create3_stride_bytes demoHeap Mat.ctor 3 3 2 4 1 0 (by decide) (by decide) (by decide)
    (by decide)

/-- C4 as stated fails at `create(1, 1, 1, 3, 1)`: `cstep = 16 / 3 = 5`, and
`cstep * elemsize = 15` is not a multiple of 16. -/
theorem create3_stride_bytes_counterexample :
    ∃ m hp', Mat.createPacked3 demoHeap Mat.ctor 1 1 1 3 1 0 = .ok (m, hp') ∧
      m.elemsize = 3 ∧ m.cstep = alignSize (1 * 1 * 3) 16 / 3 ∧ m.cstep * m.elemsize = 15 ∧
      ¬ 16 ∣ m.cstep * m.elemsize :=
  ⟨_, _, rfl, by decide, by decide, by decide, by decide⟩

/-- C5, amended.  After `create`, `total()` is `cstep * c`: it equals `w` for the 1-D
overload and `w * h` for the 2-D overload; for the 3-D overload it equals
`alignSize (w * h * elemsize) 16 / elemsize * c`, which counts the alignment padding,
is never below `w * h * c`, and equals `w * h * c` when `w * h * elemsize` is a multiple
of 16. -/
theorem create_total (hp : Heap) (self : Mat) (w h c e p a : Nat) (hinv : layoutInv self) :
    (hp.room (allocSize w e) →
      ∃ m hp', Mat.createPacked1 hp self w e p a = .ok (m, hp') ∧ m.total = w) ∧
    (hp.room (allocSize (w * h) e) →
      ∃ m hp', Mat.createPacked2 hp self w h e p a = .ok (m, hp') ∧ m.total = w * h) ∧
    (1 ≤ e → hp.room (allocSize (alignSize (w * h * e) 16 / e * c) e) →
      ∃ m hp', Mat.createPacked3 hp self w h c e p a = .ok (m, hp') ∧
        m.total = alignSize (w * h * e) 16 / e * c ∧ w * h * c ≤ m.total ∧
        (16 ∣ w * h * e → m.total = w * h * c)) := by
  refine ⟨fun hr => ?_, fun hr => ?_, fun he hr => ?_⟩
  · obtain ⟨m, hp', hc, -, -, -, h4, h5, -⟩ := createPacked1_ok hp self w e p a hinv hr
    exact ⟨m, hp', hc, by simp [Mat.total, h4, h5]⟩
  · obtain ⟨m, hp', hc, -, -, -, h4, h5, -⟩ := createPacked2_ok hp self w h e p a hinv hr
    exact ⟨m, hp', hc, by simp [Mat.total, h4, h5]⟩
  · obtain ⟨m, hp', hc, -, -, -, h4, h5, -⟩ := createPacked3_ok hp self w h c e p a hinv he hr
    refine ⟨m, hp', hc, by simp [Mat.total, h4, h5], ?_, ?_⟩
    · simp only [Mat.total, h4, h5]
      exact Nat.mul_le_mul_right c (cstep_ge (w * h) e he)
    · intro hdv
      simp only [Mat.total, h4, h5]
      rw [alignSize_of_dvd _ _ (by decide) hdv, Nat.mul_div_cancel _ he]

/-- The element count at `create(4, 4, 3, 4, 1)`: 48, the product of the extents. -/
theorem create_total_witness :
    ∃ m hp', Mat.createPacked3 demoHeap Mat.ctor 4 4 3 4 1 0 = .ok (m, hp') ∧
        m.total = alignSize (4 * 4 * 4) 16 / 4 * 3 ∧ 4 * 4 * 3 ≤ m.total ∧
        (16 ∣ 4 * 4 * 4 → m.total = 4 * 4 * 3) :=
  (create_total demoHeap Mat.ctor 4 4 3 4 1 0 (by decide)).2.2 (by decide) (by decide)

/-- C5 as stated fails at `create(3, 3, 2, 4, 1)`: `cstep = 12`, so `total()` is 24
while the product of the extents is 18. -/
theorem create_total_counterexample :
    ∃ m hp', Mat.createPacked3 demoHeap Mat.ctor 3 3 2 4 1 0 = .ok (m, hp') ∧
      m.w = 3 ∧ m.h = 3 ∧ m.c = 2 ∧ m.total = 24 ∧ m.total ≠ m.w * m.h * m.c :=
  ⟨_, _, rfl, by decide, by decide, by decide, by decide, by decide⟩

/-! ### Views -/

theorem release_borrowed (hp : Heap) (m : Mat) (h : m.refcount = 0) :
    (m.release hp).2 = hp := by
  unfold Mat.release; dsimp only; rw [if_neg (by simp [h])]

/-- C8, amended.  The buffers returned by `channel`, `channel_range`, `row_range` and
`range` are built by the external-memory constructors: their `refcount` is null whatever
the source is, so they borrow the memory of the source and take no part in its
ownership.  Building a view performs no operation on the heap, and destroying one
leaves the heap, the shared counter included, as it was. -/
theorem views_borrow (hp : Heap) (self : Mat) (i n : Nat) :
    ((Mat.channel self i).refcount = 0 ∧ ((Mat.channel self i).release hp).2 = hp) ∧
    (∀ r, Mat.channel_range self i n = .ok r → r.refcount = 0 ∧ (r.release hp).2 = hp) ∧
    (1 ≤ self.elemsize → ∃ r, Mat.channel_range self i n = .ok r) ∧
    ((Mat.row_range self i n).refcount = 0 ∧ ((Mat.row_range self i n).release hp).2 = hp) ∧
    ((Mat.range self i n).refcount = 0 ∧ ((Mat.range self i n).release hp).2 = hp) := by
  refine ⟨⟨rfl, release_borrowed _ _ rfl⟩, ?_, ?_, ⟨rfl, release_borrowed _ _ rfl⟩,
    ⟨rfl, release_borrowed _ _ rfl⟩⟩
  · intro r hr
    unfold Mat.channel_range Mat.ctorExtPacked3 at hr
    split_ifs at hr
    simp only [Except.ok.injEq] at hr
    subst hr
    exact ⟨rfl, release_borrowed _ _ rfl⟩
  · intro he
    unfold Mat.channel_range Mat.ctorExtPacked3
    rw [if_neg (by omega)]
    exact ⟨_, rfl⟩

/-- The view `channel_range(1, 2)` of the buffer `create(4, 4, 3, 4, 1)` exists. -/
theorem views_borrow_witness :
    ∃ r, Mat.channel_range demoContig.1 1 2 = .ok r :=
  (views_borrow demoContig.2 demoContig.1 1 2).2.2.1 (by decide)

/-- C8 as stated fails for the owning buffer `create(4, 4, 3, 4, 1)`: its counter
pointer is not null, yet none of its views points at that counter. -/
theorem views_share_counterexample :
    ∃ m hp, Mat.createPacked3 demoHeap Mat.ctor 4 4 3 4 1 0 = .ok (m, hp) ∧
      m.refcount ≠ 0 ∧ hp.cnt m.refcount = 1 ∧
      (Mat.channel m 1).refcount ≠ m.refcount ∧
      (Mat.row_range m 1 2).refcount ≠ m.refcount ∧
      (Mat.range m 1 2).refcount ≠ m.refcount ∧
      (∃ r, Mat.channel_range m 1 2 = .ok r ∧ r.refcount ≠ m.refcount) :=
  ⟨_, _, rfl, by decide, by decide, by decide, by decide, by decide, _, rfl, by decide⟩

theorem map_getD_range (v : List Nat) :
    (List.range v.length).map (fun b => v.getD b 0) = v := by
  apply List.ext_getElem
  · simp
  · intro n h1 h2
    simp [List.getElem?_eq_getElem h2]

/-- C9. View aliasing.  `channel(i)` is a 2-D buffer with extents `(w, h)`, the
element size and packing of the source, `cstep = w * h` and data pointer
`data + i * cstep * elemsize`.  Storing an element `v` at index `j` through the view
stores it at index `i * cstep + j` of the source, where it is read back, and every
other element of the source keeps its value. -/
theorem channel_aliases (hp : Heap) (self : Mat) (i j : Nat) (v : List Nat)
    (hv : v.length = self.elemsize) :
    (Mat.channel self i).dims = 2 ∧ (Mat.channel self i).w = self.w ∧
    (Mat.channel self i).h = self.h ∧ (Mat.channel self i).elemsize = self.elemsize ∧
    (Mat.channel self i).packing = self.packing ∧
    (Mat.channel self i).cstep = self.w * self.h ∧
    (Mat.channel self i).data = self.data + i * self.cstep * self.elemsize ∧
    loadElem (storeElem hp (Mat.channel self i).data j v) self.data (i * self.cstep + j)
      self.elemsize = v ∧
    (∀ k, k ≠ i * self.cstep + j →
      loadElem (storeElem hp (Mat.channel self i).data j v) self.data k self.elemsize
        = loadElem hp self.data k self.elemsize) := by
  have hd : (Mat.channel self i).data = self.data + i * self.cstep * self.elemsize := by
    simp [Mat.channel, Mat.ctorExtPacked2, Nat.mul_comm]
  refine ⟨rfl, rfl, rfl, rfl, rfl, rfl, hd, ?_, ?_⟩
  · rw [hd]
    unfold loadElem storeElem
    dsimp only
    conv_rhs => rw [← map_getD_range v]
    rw [hv]
    apply List.map_congr_left
    intro b hb
    rw [List.mem_range] at hb
    have e1 : self.data + (i * self.cstep + j) * self.elemsize + b
        = self.data + i * self.cstep * self.elemsize + j * self.elemsize + b := by ring
    rw [e1, if_pos ⟨by omega, by omega⟩]
    congr 1; omega
  · intro k hk
    rw [hd]
    unfold loadElem storeElem
    dsimp only
    apply List.map_congr_left
    intro b hb
    rw [List.mem_range] at hb
    rw [hv, if_neg]
    intro ⟨h1, h2⟩
    have e1 : self.data + i * self.cstep * self.elemsize + j * self.elemsize
        = self.data + (i * self.cstep + j) * self.elemsize := by ring
    rw [e1] at h1 h2
    rcases Nat.lt_or_gt_of_ne hk with hlt | hgt
    · have : (k + 1) * self.elemsize ≤ (i * self.cstep + j) * self.elemsize :=
        Nat.mul_le_mul_right _ hlt
      rw [Nat.add_mul] at this; omega
    · have : (i * self.cstep + j + 1) * self.elemsize ≤ k * self.elemsize :=
        Nat.mul_le_mul_right _ hgt
      rw [Nat.add_mul (i * self.cstep + j) 1] at this; omega

/-- Four bytes stored at element 2 of channel 1 of `create(4, 4, 3, 4, 1)` are read
back at element `1 * cstep + 2` of the buffer. -/
theorem channel_aliases_witness :
    loadElem (storeElem demoContig.2 (Mat.channel demoContig.1 1).data 2 [1, 2, 3, 4])
      demoContig.1.data (1 * demoContig.1.cstep + 2) demoContig.1.elemsize = [1, 2, 3, 4] :=
  (channel_aliases demoContig.2 demoContig.1 1 2 [1, 2, 3, 4] (by decide)).2.2.2.2.2.2.2.1

/-! ### Ownership -/

theorem copies_fst (hp : Heap) (m : Mat) (n : Nat) :
    (copies hp m n).1 = List.replicate n m := by
  induction n with
  | zero => rfl
  | succ k ih => simp only [copies, Mat.ctorCopy, ih, List.replicate_succ]

theorem copies_snd (hp : Heap) (m : Mat) (n : Nat) (hown : m.refcount ≠ 0) :
    (copies hp m n).2.cnt m.refcount = hp.cnt m.refcount + n ∧
    (copies hp m n).2.frees = hp.frees := by
  induction n with
  | zero => simp [copies]
  | succ k ih =>
    obtain ⟨h1, h2⟩ := ih
    simp only [copies, Mat.ctorCopy, NCNN_XADD, if_pos hown, if_true, h1, h2]
    constructor
    · push_cast; ring
    · trivial

theorem release_owner (hp : Heap) (m : Mat) (hown : m.refcount ≠ 0) :
    (m.release hp).2.cnt m.refcount = hp.cnt m.refcount - 1 ∧
    (m.release hp).2.frees =
      if hp.cnt m.refcount = 1 then hp.frees ++ [(m.allocator, m.data)] else hp.frees := by
  unfold Mat.release NCNN_XADD fastFree
  dsimp only
  rw [if_pos hown]
  split_ifs with h1
  · simp; rfl
  · simp; rfl

theorem releaseAll_replicate (m : Mat) (hown : m.refcount ≠ 0) (k : Nat) :
    ∀ hp : Heap, (k : Int) < hp.cnt m.refcount →
      (releaseAll hp (List.replicate k m)).cnt m.refcount = hp.cnt m.refcount - k ∧
      (releaseAll hp (List.replicate k m)).frees = hp.frees := by
  induction k with
  | zero => intro hp _; simp [releaseAll]
  | succ j ih =>
    intro hp hlt
    obtain ⟨h1, h2⟩ := release_owner hp m hown
    have hne : ¬ hp.cnt m.refcount = 1 := by push_cast at hlt; omega
    rw [if_neg hne] at h2
    have hlt2 : (j : Int) < (m.release hp).2.cnt m.refcount := by
      rw [h1]; push_cast at hlt; omega
    obtain ⟨h3, h4⟩ := ih (m.release hp).2 hlt2
    have e : releaseAll hp (List.replicate (j + 1) m)
        = releaseAll (m.release hp).2 (List.replicate j m) := by
      simp [releaseAll, List.replicate_succ]
    rw [e, h3, h4, h1, h2]
    constructor
    · push_cast; ring
    · trivial

/-- C2. Ownership.  Let `m` be an owning handle whose counter is one (the state
`create` leaves when `total() > 0`).  After `N` further handles have been
copy-constructed the counter is `N + 1`.  When the `N + 1` handles are then released in
any order, the log of `fastFree` calls is unchanged after each of the first `N`
releases, and after the last release it has gained exactly one entry: the allocator and
data pointer of `m`. -/
theorem free_exactly_once (hp : Heap) (m : Mat) (N : Nat) (hown : m.refcount ≠ 0)
    (hone : hp.cnt m.refcount = 1) :
    (copies hp m N).2.cnt m.refcount = N + 1 ∧
    ∀ hs : List Mat, hs.Perm (m :: (copies hp m N).1) →
      (∀ j, j ≤ N → (releaseAll (copies hp m N).2 (hs.take j)).frees = hp.frees) ∧
      (releaseAll (copies hp m N).2 hs).frees = hp.frees ++ [(m.allocator, m.data)] := by
  obtain ⟨hc, hf⟩ := copies_snd hp m N hown
  rw [hone] at hc
  refine ⟨by rw [hc]; ring, ?_⟩
  intro hs hperm
  rw [copies_fst, ← List.replicate_succ] at hperm
  have hs_eq : hs = List.replicate (N + 1) m := List.perm_replicate.mp hperm
  subst hs_eq
  have hpre : ∀ j, j ≤ N →
      (releaseAll (copies hp m N).2 (List.replicate j m)).cnt m.refcount = 1 + N - j ∧
      (releaseAll (copies hp m N).2 (List.replicate j m)).frees = hp.frees := by
    intro j hj
    obtain ⟨h1, h2⟩ := releaseAll_replicate m hown j (copies hp m N).2
      (by rw [hc]; omega)
    rw [h1, h2, hc, hf]
    exact ⟨rfl, rfl⟩
  constructor
  · intro j hj
    rw [List.take_replicate, Nat.min_eq_left (by omega)]
    exact (hpre j hj).2
  · obtain ⟨h1, h2⟩ := hpre N (le_refl N)
    have e : releaseAll (copies hp m N).2 (List.replicate (N + 1) m)
        = (m.release (releaseAll (copies hp m N).2 (List.replicate N m))).2 := by
      simp [releaseAll, List.replicate_succ', List.foldl_append]
    obtain ⟨-, h4⟩ := release_owner (releaseAll (copies hp m N).2 (List.replicate N m)) m hown
    rw [e, h4, h1, h2, if_pos (by ring)]

/-- Two copies of the buffer `create(4, 4, 3, 4, 1)`: the three handles can be
released in the order given, and the block is freed once, at the end. -/
theorem free_exactly_once_witness :
    (∀ j, j ≤ 2 → (releaseAll (copies demoContig.2 demoContig.1 2).2
        ((demoContig.1 :: (copies demoContig.2 demoContig.1 2).1).take j)).frees
      = demoContig.2.frees) ∧
    (releaseAll (copies demoContig.2 demoContig.1 2).2
        (demoContig.1 :: (copies demoContig.2 demoContig.1 2).1)).frees
      = demoContig.2.frees ++ [(demoContig.1.allocator, demoContig.1.data)] :=
  (free_exactly_once demoContig.2 demoContig.1 2 (by decide) (by decide)).2
    (demoContig.1 :: (copies demoContig.2 demoContig.1 2).1) (List.Perm.refl _)

/-- The allocation block of `create` for a buffer with elements: the new handle and
the new heap. -/
theorem allocate_pos (hp : Heap) (m : Mat) (ht : 0 < m.total)
    (hr : hp.room (allocSize m.total m.elemsize)) :
    ∃ hp', Mat.allocate hp m =
        .ok ({ m with data := hp.brk,
                      refcount := hp.brk + alignSize (m.total * m.elemsize) 4 }, hp') ∧
      hp'.mem = hp.mem ∧ hp'.brk = hp.brk + allocSize m.total m.elemsize ∧
      hp'.cap = hp.cap ∧ hp'.frees = hp.frees ∧
      hp'.cnt (hp.brk + alignSize (m.total * m.elemsize) 4) = 1 ∧
      hp'.mallocs = hp.mallocs ++ [(m.allocator, allocSize m.total m.elemsize, hp.brk)] := by
  obtain ⟨r, hp', hal, hf, hmem, hcap, hfr, hpos, -⟩ := allocate_ok hp m hr
  obtain ⟨hd, hrc, hbrk, hcnt, -, hml⟩ := hpos ht
  obtain ⟨f1, f2, f3, f4, f5, f6, f7, f8⟩ := hf
  have hrm : r = { m with data := hp.brk,
                          refcount := hp.brk + alignSize (m.total * m.elemsize) 4 } := by
    cases r; cases m; simp_all
  rw [hrc] at hcnt
  exact ⟨hp', by rw [hal, hrm], hmem, hbrk, hcap, hfr, hcnt, hml⟩

/-! ### Copy loops -/

/-- A loop of `n` calls of `memcpy`, the `i`-th from `S + i * ss` to `D + i * ds`. -/
theorem copyRows_spec (D ds S ss len : Nat) (hlen : len ≤ ds) (n : Nat) :
    ∀ hp : Heap, (∀ i, i < n → S + i * ss + len ≤ D) →
      let hp' := (List.range n).foldl
        (fun hp i => memcpy hp (D + i * ds) (S + i * ss) len) hp
      hp'.brk = hp.brk ∧ hp'.cap = hp.cap ∧ hp'.cnt = hp.cnt ∧ hp'.frees = hp.frees ∧
      hp'.mallocs = hp.mallocs ∧
      (∀ i j, i < n → j < len → hp'.mem (D + i * ds + j) = hp.mem (S + i * ss + j)) ∧
      (∀ a, a < D → hp'.mem a = hp.mem a) := by
  induction n with
  | zero => intro hp _; simp
  | succ n ih =>
    intro hp hsrc
    obtain ⟨h1, h2, h3, h4, h5, h6, h7⟩ := ih hp (fun i hi => hsrc i (by omega))
    simp only [List.range_succ, List.foldl_append, List.foldl_cons, List.foldl_nil]
    refine ⟨h1, h2, h3, h4, h5, ?_, ?_⟩
    · intro i j hi hj
      unfold memcpy
      dsimp only
      by_cases hin : i = n
      · subst hin
        rw [if_pos ⟨by omega, by omega⟩]
        have e : S + i * ss + (D + i * ds + j - (D + i * ds)) = S + i * ss + j := by omega
        rw [e]
        exact h7 _ (by have := hsrc i (by omega); omega)
      · have hlt : i < n := by omega
        have hmul : (i + 1) * ds ≤ n * ds := Nat.mul_le_mul_right _ hlt
        rw [Nat.add_mul, Nat.one_mul] at hmul
        rw [if_neg (by intro ⟨hge, _⟩; omega)]
        exact h6 i j hlt hj
    · intro a ha
      unfold memcpy
      dsimp only
      rw [if_neg (by intro ⟨hge, _⟩; omega)]
      exact h7 a ha

theorem flattenLoop_eq (hp : Heap) (self m : Mat) :
    flattenLoop hp self m = (List.range self.c).foldl
      (fun hp i => memcpy hp (m.data + i * (self.w * self.h * self.elemsize))
        (self.data + i * (self.cstep * self.elemsize)) (self.w * self.h * self.elemsize)) hp := by
  unfold flattenLoop
  congr 1
  funext hp i
  congr 2 <;> ring

theorem alignLoop_eq (hp : Heap) (self m : Mat) (w h c : Nat) :
    alignLoop hp self m w h c = (List.range c).foldl
      (fun hp i => memcpy hp (m.data + i * (m.cstep * m.elemsize))
        (self.data + i * (w * h * self.elemsize)) (w * h * self.elemsize)) hp := by
  unfold alignLoop
  congr 1
  funext hp i
  congr 2 <;> ring

@[simp] theorem ctorCopy_fst (hp : Heap) (m : Mat) : (Mat.ctorCopy hp m).1 = m := rfl

@[simp] theorem ctorCopy_mem (hp : Heap) (m : Mat) : (Mat.ctorCopy hp m).2.mem = hp.mem := by
  unfold Mat.ctorCopy NCNN_XADD; dsimp only; split_ifs <;> rfl

@[simp] theorem ctorCopy_brk (hp : Heap) (m : Mat) : (Mat.ctorCopy hp m).2.brk = hp.brk := by
  unfold Mat.ctorCopy NCNN_XADD; dsimp only; split_ifs <;> rfl

@[simp] theorem ctorCopy_cap (hp : Heap) (m : Mat) : (Mat.ctorCopy hp m).2.cap = hp.cap := by
  unfold Mat.ctorCopy NCNN_XADD; dsimp only; split_ifs <;> rfl

@[simp] theorem ctorCopy_mallocs (hp : Heap) (m : Mat) :
    (Mat.ctorCopy hp m).2.mallocs = hp.mallocs := by
  unfold Mat.ctorCopy NCNN_XADD; dsimp only; split_ifs <;> rfl

/-! ### Facts about well-formed buffers -/

theorem Valid.c_pos {m : Mat} (hl : Valid m) : 0 < m.c := by
  have := hl.total_pos; unfold Mat.total at this
  exact Nat.pos_of_ne_zero (fun h => by rw [h] at this; simp at this)

theorem Valid.cstep_pos {m : Mat} (hl : Valid m) : 0 < m.cstep := by
  have := hl.total_pos; unfold Mat.total at this
  exact Nat.pos_of_ne_zero (fun h => by rw [h] at this; simp at this)

theorem Valid.flat {m : Mat} (hl : Valid m) (hd : m.dims < 3) :
    m.cstep = m.w * m.h ∧ m.c = 1 := by
  have h1 := hl.dims_pos
  obtain ⟨i1, i2, -⟩ := hl.inv
  by_cases h : m.dims = 1
  · obtain ⟨a, b, c⟩ := i1 h
    exact ⟨by rw [a, b, Nat.mul_one], c⟩
  · exact i2 (by omega)

theorem Valid.plane_le {m : Mat} (hl : Valid m) : m.w * m.h ≤ m.cstep := by
  by_cases hd : m.dims < 3
  · exact le_of_eq (hl.flat hd).1.symm
  · have h3 : m.dims = 3 := by have := hl.dims_le; omega
    rw [hl.inv.2.2 h3]
    exact cstep_ge _ _ hl.elemsize_pos

theorem Valid.plane_pos {m : Mat} (hl : Valid m) : 0 < m.w * m.h := by
  by_cases hd : m.dims < 3
  · rw [← (hl.flat hd).1]; exact hl.cstep_pos
  · have h3 : m.dims = 3 := by have := hl.dims_le; omega
    have hc := hl.cstep_pos
    rw [hl.inv.2.2 h3] at hc
    rcases Nat.eq_zero_or_pos (m.w * m.h) with h0 | h0
    · rw [h0] at hc; simp [alignSize] at hc
    · exact h0

theorem Valid.prod_le {m : Mat} (hl : Valid m) : m.w * m.h * m.c ≤ m.total :=
  Nat.mul_le_mul_right _ hl.plane_le

theorem liveIndex_contig (m : Mat) (k : Nat) (h : m.cstep = m.w * m.h) :
    liveIndex m k = k := by
  unfold liveIndex; rw [h]; exact Nat.div_add_mod' k _

/-- Splitting the byte offset of the `k`-th live element into plane and remainder. -/
theorem live_split (wh cs e k b : Nat) :
    (k / wh * cs + k % wh) * e + b = k / wh * (cs * e) + (k % wh * e + b) := by ring

theorem flat_split (wh e k b : Nat) :
    k * e + b = k / wh * (wh * e) + (k % wh * e + b) := by
  have h := Nat.div_add_mod' k wh
  calc k * e + b = (k / wh * wh + k % wh) * e + b := by rw [h]
    _ = k / wh * (wh * e) + (k % wh * e + b) := by ring

theorem rem_lt (wh e k b : Nat) (hwh : 0 < wh) (hb : b < e) : k % wh * e + b < wh * e := by
  have h1 : k % wh < wh := Nat.mod_lt _ hwh
  have h2 : (k % wh + 1) * e ≤ wh * e := Nat.mul_le_mul_right _ h1
  rw [Nat.add_mul, Nat.one_mul] at h2
  omega

/-- The `flatten` loop: live elements of `self`, in order, land contiguously in `m`. -/
theorem flattenLoop_content (hp1 : Heap) (self m : Mat) (hpos : 0 < self.w * self.h)
    (hle : self.w * self.h ≤ self.cstep)
    (hbelow : self.data + self.cstep * self.c * self.elemsize ≤ m.data) :
    (flattenLoop hp1 self m).brk = hp1.brk ∧ (flattenLoop hp1 self m).cap = hp1.cap ∧
    (flattenLoop hp1 self m).cnt = hp1.cnt ∧ (flattenLoop hp1 self m).frees = hp1.frees ∧
    (flattenLoop hp1 self m).mallocs = hp1.mallocs ∧
    (∀ a, a < m.data → (flattenLoop hp1 self m).mem a = hp1.mem a) ∧
    (∀ k b, k < self.w * self.h * self.c → b < self.elemsize →
      (flattenLoop hp1 self m).mem (m.data + k * self.elemsize + b)
        = hp1.mem (self.data + liveIndex self k * self.elemsize + b)) := by
  rw [flattenLoop_eq]
  have hsrc : ∀ i, i < self.c → self.data + i * (self.cstep * self.elemsize)
      + self.w * self.h * self.elemsize ≤ m.data := by
    intro i hi
    have h1 : i * self.cstep + self.w * self.h ≤ self.cstep * self.c := by
      have : (i + 1) * self.cstep ≤ self.c * self.cstep := Nat.mul_le_mul_right _ hi
      rw [Nat.add_mul, Nat.one_mul, Nat.mul_comm self.c] at this
      omega
    have h2 := Nat.mul_le_mul_right self.elemsize h1
    rw [Nat.add_mul, Nat.mul_assoc i] at h2
    omega
  obtain ⟨h1, h2, h3, h4, h5, h6, h7⟩ := copyRows_spec m.data
    (self.w * self.h * self.elemsize) self.data (self.cstep * self.elemsize)
    (self.w * self.h * self.elemsize) (le_refl _) self.c hp1 hsrc
  refine ⟨h1, h2, h3, h4, h5, h7, ?_⟩
  intro k b hk hb
  have hi : k / (self.w * self.h) < self.c := by
    rw [Nat.div_lt_iff_lt_mul hpos, Nat.mul_comm]; exact hk
  have hj := rem_lt (self.w * self.h) self.elemsize k b hpos hb
  have e1 : m.data + k * self.elemsize + b = m.data
      + k / (self.w * self.h) * (self.w * self.h * self.elemsize)
      + (k % (self.w * self.h) * self.elemsize + b) := by
    have := flat_split (self.w * self.h) self.elemsize k b; omega
  have e2 : self.data + liveIndex self k * self.elemsize + b = self.data
      + k / (self.w * self.h) * (self.cstep * self.elemsize)
      + (k % (self.w * self.h) * self.elemsize + b) := by
    have := live_split (self.w * self.h) self.cstep self.elemsize k b
    unfold liveIndex; omega
  rw [e1, e2]
  exact h6 _ _ hi hj

/-- The `align channel` loop: consecutive runs of `w * h` elements of `self` land at
the channel starts of `m`. -/
theorem alignLoop_content (hp1 : Heap) (self m : Mat) (w h c : Nat) (hpos : 0 < w * h)
    (he : m.elemsize = self.elemsize) (hle : w * h ≤ m.cstep)
    (hbelow : self.data + w * h * c * self.elemsize ≤ m.data) :
    (alignLoop hp1 self m w h c).brk = hp1.brk ∧ (alignLoop hp1 self m w h c).cap = hp1.cap ∧
    (alignLoop hp1 self m w h c).cnt = hp1.cnt ∧
    (alignLoop hp1 self m w h c).frees = hp1.frees ∧
    (alignLoop hp1 self m w h c).mallocs = hp1.mallocs ∧
    (∀ a, a < m.data → (alignLoop hp1 self m w h c).mem a = hp1.mem a) ∧
    (∀ k b, k < w * h * c → b < self.elemsize →
      (alignLoop hp1 self m w h c).mem
          (m.data + (k / (w * h) * m.cstep + k % (w * h)) * self.elemsize + b)
        = hp1.mem (self.data + k * self.elemsize + b)) := by
  rw [alignLoop_eq, he]
  have hsrc : ∀ i, i < c → self.data + i * (w * h * self.elemsize)
      + w * h * self.elemsize ≤ m.data := by
    intro i hi
    have h1 : (i + 1) * (w * h * self.elemsize) ≤ c * (w * h * self.elemsize) :=
      Nat.mul_le_mul_right _ hi
    have h2 : c * (w * h * self.elemsize) = w * h * c * self.elemsize := by ring
    rw [Nat.add_mul, Nat.one_mul, h2] at h1
    omega
  obtain ⟨h1, h2, h3, h4, h5, h6, h7⟩ := copyRows_spec m.data
    (m.cstep * self.elemsize) self.data (w * h * self.elemsize)
    (w * h * self.elemsize) (Nat.mul_le_mul_right _ hle) c hp1 hsrc
  refine ⟨h1, h2, h3, h4, h5, h7, ?_⟩
  intro k b hk hb
  have hi : k / (w * h) < c := by
    rw [Nat.div_lt_iff_lt_mul hpos, Nat.mul_comm]; exact hk
  have hj := rem_lt (w * h) self.elemsize k b hpos hb
  have e1 : m.data + (k / (w * h) * m.cstep + k % (w * h)) * self.elemsize + b = m.data
      + k / (w * h) * (m.cstep * self.elemsize) + (k % (w * h) * self.elemsize + b) := by
    have := live_split (w * h) m.cstep self.elemsize k b; omega
  have e2 : self.data + k * self.elemsize + b = self.data
      + k / (w * h) * (w * h * self.elemsize) + (k % (w * h) * self.elemsize + b) := by
    have := flat_split (w * h) self.elemsize k b; omega
  rw [e1, e2]
  exact h6 _ _ hi hj

theorem alignSize_four_ge (n : Nat) : n ≤ alignSize n 4 := alignSize_ge n 4 (by decide)

/-- The copy loops write bytes only: the allocator state and the counters stay. -/
theorem foldl_memcpy_frame (f g len : Nat → Nat) (l : List Nat) :
    ∀ hp : Heap,
      (l.foldl (fun hp i => memcpy hp (f i) (g i) (len i)) hp).brk = hp.brk ∧
      (l.foldl (fun hp i => memcpy hp (f i) (g i) (len i)) hp).cap = hp.cap := by
  induction l with
  | nil => intro hp; exact ⟨rfl, rfl⟩
  | cons x xs ih =>
    intro hp
    simp only [List.foldl_cons]
    obtain ⟨h1, h2⟩ := ih (memcpy hp (f x) (g x) (len x))
    exact ⟨h1, h2⟩

theorem flattenLoop_frame (hp : Heap) (self m : Mat) :
    (flattenLoop hp self m).brk = hp.brk ∧ (flattenLoop hp self m).cap = hp.cap :=
  foldl_memcpy_frame _ _ _ _ hp

theorem alignLoop_frame (hp : Heap) (self m : Mat) (w h c : Nat) :
    (alignLoop hp self m w h c).brk = hp.brk ∧ (alignLoop hp self m w h c).cap = hp.cap :=
  foldl_memcpy_frame _ _ _ _ hp

/-- A well-formed buffer that is not a padded 3-D buffer has contiguous planes. -/
theorem Valid.contig {m : Mat} (hv : Valid m) (hpad : ¬ (m.dims = 3 ∧ m.cstep ≠ m.w * m.h)) :
    m.cstep = m.w * m.h := by
  by_cases hd : m.dims < 3
  · exact (hv.flat hd).1
  · have h3 : m.dims = 3 := by have := hv.dims_le; omega
    by_contra hne; exact hpad ⟨h3, hne⟩

/-- The 1-D `reshape` of a well-formed buffer succeeds; when the source lies below
`brk`, the flat result holds its live elements in channel-major order. -/
theorem reshape1_spec (hp : Heap) (self : Mat) (_w a : Nat) (hl : Valid self)
    (hw : self.w * self.h * self.c = _w) (hr : hp.room (allocSize _w self.elemsize)) :
    ∃ r hp', Mat.reshape1 hp self _w a = .ok (r, hp') ∧
      r.dims = 1 ∧ r.w = _w ∧ r.h = 1 ∧ r.c = 1 ∧ r.cstep = _w ∧
      r.elemsize = self.elemsize ∧ r.data ≠ 0 ∧ hp.brk ≤ hp'.brk ∧
      hp'.brk ≤ hp.brk + allocSize _w self.elemsize ∧ hp'.cap = hp.cap ∧
      (self.data + self.total * self.elemsize ≤ hp.brk →
        r.data + _w * self.elemsize ≤ hp'.brk ∧
        ∀ k b, k < _w → b < self.elemsize →
          hp'.mem (r.data + k * self.elemsize + b)
            = hp.mem (self.data + liveIndex self k * self.elemsize + b)) := by
  have hwpos : 0 < _w := by
    rw [← hw]; exact Nat.mul_pos hl.plane_pos hl.c_pos
  unfold Mat.reshape1
  rw [if_neg (not_not.mpr hw)]
  by_cases hpad : self.dims = 3 ∧ self.cstep ≠ self.w * self.h
  · rw [if_pos hpad, createPacked1_ctor]
    have ht : Mat.total
        { data := 0, refcount := 0, elemsize := self.elemsize, packing := self.packing,
          allocator := a, dims := 1, w := _w, h := 1, c := 1, cstep := _w } = _w := by
      simp [Mat.total]
    obtain ⟨hp1, hal, hmem, hbrk, hcap, -, -, -⟩ := allocate_pos hp
      { data := 0, refcount := 0, elemsize := self.elemsize, packing := self.packing,
        allocator := a, dims := 1, w := _w, h := 1, c := 1, cstep := _w }
      (by rw [ht]; exact hwpos) (by rw [ht]; exact hr)
    rw [ht] at hal hbrk
    rw [hal]
    dsimp only
    obtain ⟨g1, g2⟩ := flattenLoop_frame hp1 self
      { data := hp.brk, refcount := hp.brk + alignSize (_w * self.elemsize) 4,
        elemsize := self.elemsize, packing := self.packing, allocator := a, dims := 1,
        w := _w, h := 1, c := 1, cstep := _w }
    refine ⟨_, _, rfl, rfl, rfl, rfl, rfl, rfl, rfl, ?_, ?_, ?_, ?_, ?_⟩
    · exact Nat.pos_iff_ne_zero.mp hr.1
    · rw [g1, hbrk]; omega
    · rw [g1, hbrk]
    · rw [g2, hcap]
    · intro hbelow
      obtain ⟨-, -, -, -, -, -, g7⟩ := flattenLoop_content hp1 self
        { data := hp.brk, refcount := hp.brk + alignSize (_w * self.elemsize) 4,
          elemsize := self.elemsize, packing := self.packing, allocator := a, dims := 1,
          w := _w, h := 1, c := 1, cstep := _w }
        hl.plane_pos hl.plane_le hbelow
      constructor
      · rw [g1, hbrk]; unfold allocSize
        have := alignSize_four_ge (_w * self.elemsize)
        dsimp only; omega
      · intro k b hk hb
        rw [← hmem]
        exact g7 k b (by rw [hw]; exact hk) hb
  · rw [if_neg hpad]
    have hcs : self.cstep = self.w * self.h := hl.contig hpad
    refine ⟨_, _, rfl, rfl, rfl, rfl, rfl, rfl, rfl, hl.data_ne, ?_, ?_, ?_, ?_⟩
    · simp
    · simp
    · simp
    · intro hbelow
      constructor
      · simp only [ctorCopy_fst, ctorCopy_brk]
        unfold Mat.total at hbelow
        rw [← hw, ← hcs]; exact hbelow
      · intro k b _ _
        simp only [ctorCopy_fst, ctorCopy_mem]
        rw [liveIndex_contig self k hcs]

/-- The 2-D `reshape` of a well-formed buffer succeeds; when the source lies below
`brk`, the result holds its live elements in channel-major order. -/
theorem reshape2_spec (hp : Heap) (self : Mat) (_w _h a : Nat) (hl : Valid self)
    (hw : self.w * self.h * self.c = _w * _h)
    (hr : hp.room (allocSize (_w * _h) self.elemsize)) :
    ∃ r hp', Mat.reshape2 hp self _w _h a = .ok (r, hp') ∧
      r.dims = 2 ∧ r.w = _w ∧ r.h = _h ∧ r.c = 1 ∧ r.cstep = _w * _h ∧
      r.elemsize = self.elemsize ∧ r.data ≠ 0 ∧
      (self.data + self.total * self.elemsize ≤ hp.brk →
        ∀ k b, k < _w * _h → b < self.elemsize →
          hp'.mem (r.data + k * self.elemsize + b)
            = hp.mem (self.data + liveIndex self k * self.elemsize + b)) := by
  have hwpos : 0 < _w * _h := by
    rw [← hw]; exact Nat.mul_pos hl.plane_pos hl.c_pos
  unfold Mat.reshape2
  rw [if_neg (not_not.mpr hw)]
  by_cases hpad : self.dims = 3 ∧ self.cstep ≠ self.w * self.h
  · rw [if_pos hpad, createPacked2_ctor]
    have ht : Mat.total
        { data := 0, refcount := 0, elemsize := self.elemsize, packing := self.packing,
          allocator := a, dims := 2, w := _w, h := _h, c := 1, cstep := _w * _h }
        = _w * _h := by
      simp [Mat.total]
    obtain ⟨hp1, hal, hmem, hbrk, hcap, -, -, -⟩ := allocate_pos hp
      { data := 0, refcount := 0, elemsize := self.elemsize, packing := self.packing,
        allocator := a, dims := 2, w := _w, h := _h, c := 1, cstep := _w * _h }
      (by rw [ht]; exact hwpos) (by rw [ht]; exact hr)
    rw [ht] at hal hbrk
    rw [hal]
    dsimp only
    refine ⟨_, _, rfl, rfl, rfl, rfl, rfl, rfl, rfl, ?_, ?_⟩
    · exact Nat.pos_iff_ne_zero.mp hr.1
    · intro hbelow k b hk hb
      obtain ⟨-, -, -, -, -, -, g7⟩ := flattenLoop_content hp1 self
        { data := hp.brk, refcount := hp.brk + alignSize (_w * _h * self.elemsize) 4,
          elemsize := self.elemsize, packing := self.packing, allocator := a, dims := 2,
          w := _w, h := _h, c := 1, cstep := _w * _h }
        hl.plane_pos hl.plane_le hbelow
      rw [← hmem]
      exact g7 k b (by rw [hw]; exact hk) hb
  · rw [if_neg hpad]
    have hcs : self.cstep = self.w * self.h := hl.contig hpad
    refine ⟨_, _, rfl, rfl, rfl, rfl, rfl, rfl, rfl, hl.data_ne, ?_⟩
    intro _ k b _ _
    simp only [ctorCopy_fst, ctorCopy_mem]
    rw [liveIndex_contig self k hcs]

/-- The 3-D `reshape` of a well-formed 1-D or 2-D buffer: one call, no nested call. -/
theorem reshape3_flat_spec (fuel : Nat) (hp : Heap) (self : Mat) (_w _h _c a : Nat)
    (hl : Valid self) (hd : self.dims < 3)
    (hw : self.w * self.h * self.c = _w * _h * _c)
    (hr : hp.room
      (allocSize (alignSize (_w * _h * self.elemsize) 16 / self.elemsize * _c) self.elemsize)) :
    ∃ r hp', Mat.reshape3 (fuel + 1) hp self _w _h _c a = .ok (r, hp') ∧
      r.dims = 3 ∧ r.w = _w ∧ r.h = _h ∧ r.c = _c ∧
      r.cstep = alignSize (_w * _h * self.elemsize) 16 / self.elemsize ∧
      r.elemsize = self.elemsize ∧ r.data ≠ 0 ∧
      (self.data + self.total * self.elemsize ≤ hp.brk →
        ∀ k b, k < _w * _h * _c → b < self.elemsize →
          hp'.mem (r.data + liveIndex r k * self.elemsize + b)
            = hp.mem (self.data + k * self.elemsize + b)) := by
  have he := hl.elemsize_pos
  have hprod : 0 < _w * _h * _c := by
    rw [← hw]; exact Nat.mul_pos hl.plane_pos hl.c_pos
  have hcpos : 0 < _c := Nat.pos_of_ne_zero (fun h0 => by rw [h0] at hprod; simp at hprod)
  have hwh : 0 < _w * _h := Nat.pos_of_ne_zero (fun h0 => by rw [h0] at hprod; simp at hprod)
  have hcs := cstep_ge (_w * _h) self.elemsize he
  unfold Mat.reshape3
  rw [if_neg (not_not.mpr hw), if_pos hd, if_neg (by omega)]
  by_cases hpad : _w * _h ≠ alignSize (_w * _h * self.elemsize) 16 / self.elemsize
  · rw [if_pos hpad, createPacked3_ctor _ _ _ _ _ _ _ he]
    have ht : Mat.total
        { data := 0, refcount := 0, elemsize := self.elemsize, packing := self.packing,
          allocator := a, dims := 3, w := _w, h := _h, c := _c,
          cstep := alignSize (_w * _h * self.elemsize) 16 / self.elemsize }
        = alignSize (_w * _h * self.elemsize) 16 / self.elemsize * _c := by
      simp [Mat.total]
    obtain ⟨hp1, hal, hmem, hbrk, hcap, -, -, -⟩ := allocate_pos hp
      { data := 0, refcount := 0, elemsize := self.elemsize, packing := self.packing,
        allocator := a, dims := 3, w := _w, h := _h, c := _c,
        cstep := alignSize (_w * _h * self.elemsize) 16 / self.elemsize }
      (by rw [ht]; exact Nat.mul_pos (by omega) hcpos) (by rw [ht]; exact hr)
    rw [ht] at hal hbrk
    rw [hal]
    dsimp only
    refine ⟨_, _, rfl, rfl, rfl, rfl, rfl, rfl, rfl, ?_, ?_⟩
    · exact Nat.pos_iff_ne_zero.mp hr.1
    · intro hb0 k b hk hb
      have hbelow : self.data + _w * _h * _c * self.elemsize ≤ hp.brk := by
        have h1 := Nat.mul_le_mul_right self.elemsize hl.prod_le
        rw [← hw]; omega
      obtain ⟨-, -, -, -, -, -, g7⟩ := alignLoop_content hp1 self
        { data := hp.brk,
          refcount := hp.brk + alignSize
            (alignSize (_w * _h * self.elemsize) 16 / self.elemsize * _c * self.elemsize) 4,
          elemsize := self.elemsize, packing := self.packing, allocator := a, dims := 3,
          w := _w, h := _h, c := _c,
          cstep := alignSize (_w * _h * self.elemsize) 16 / self.elemsize }
        _w _h _c hwh rfl hcs hbelow
      rw [← hmem]
      exact g7 k b hk hb
  · rw [if_neg hpad]
    unfold Mat.reshape3Alias
    dsimp only
    rw [if_neg (by omega)]
    refine ⟨_, _, rfl, rfl, rfl, rfl, rfl, rfl, rfl, hl.data_ne, ?_⟩
    intro _ k b _ _
    simp only [ctorCopy_fst, ctorCopy_mem]
    rw [liveIndex_contig _ k (by simpa using (not_not.mp hpad).symm)]

/-- The 3-D `reshape` of a well-formed buffer: two levels of calls suffice, the call
succeeds, and when the source lies below `brk` the result holds the live elements of
the source in channel-major order. -/
theorem reshape3_spec (fuel : Nat) (hp : Heap) (self : Mat) (_w _h _c a : Nat)
    (hf : 2 ≤ fuel) (hl : Valid self) (hw : self.w * self.h * self.c = _w * _h * _c)
    (hr : hp.room (allocSize (_w * _h * _c) self.elemsize +
      allocSize (alignSize (_w * _h * self.elemsize) 16 / self.elemsize * _c) self.elemsize)) :
    ∃ r hp', Mat.reshape3 fuel hp self _w _h _c a = .ok (r, hp') ∧
      r.dims = 3 ∧ r.w = _w ∧ r.h = _h ∧ r.c = _c ∧
      r.cstep = alignSize (_w * _h * self.elemsize) 16 / self.elemsize ∧
      r.elemsize = self.elemsize ∧ r.data ≠ 0 ∧
      (self.data + self.total * self.elemsize ≤ hp.brk →
        ∀ k b, k < _w * _h * _c → b < self.elemsize →
          hp'.mem (r.data + liveIndex r k * self.elemsize + b)
            = hp.mem (self.data + liveIndex self k * self.elemsize + b)) := by
  obtain ⟨f, rfl⟩ : ∃ f, fuel = f + 2 := ⟨fuel - 2, by omega⟩
  have he := hl.elemsize_pos
  have hr2 : hp.room
      (allocSize (alignSize (_w * _h * self.elemsize) 16 / self.elemsize * _c)
        self.elemsize) := ⟨hr.1, by have := hr.2; omega⟩
  by_cases hd : self.dims < 3
  · obtain ⟨r, hp', h1, h2, h3, h4, h5, h6, h7, h8, h9⟩ :=
      reshape3_flat_spec (f + 1) hp self _w _h _c a hl hd hw hr2
    refine ⟨r, hp', h1, h2, h3, h4, h5, h6, h7, h8, ?_⟩
    intro hb k b hk hb'
    rw [liveIndex_contig self k (hl.flat hd).1]
    exact h9 hb k b hk hb'
  · have h3 : self.dims = 3 := by have := hl.dims_le; omega
    unfold Mat.reshape3
    rw [if_neg (not_not.mpr hw), if_neg hd]
    by_cases hc : self.c ≠ _c
    · rw [if_pos hc]
      obtain ⟨tmp, hp1, t0, t1, t2, t3, t4, t5, t6, t7, t8, t9, t10, t11⟩ :=
        reshape1_spec hp self (_w * _h * _c) a hl hw ⟨hr.1, by have := hr.2; omega⟩
      rw [t0]
      dsimp only
      have htot : tmp.total = _w * _h * _c := by unfold Mat.total; rw [t5, t4, Nat.mul_one]
      have hprod : 0 < _w * _h * _c := by
        rw [← hw]; exact Nat.mul_pos hl.plane_pos hl.c_pos
      have hvt : Valid tmp :=
        { inv := by unfold layoutInv; rw [t1, t5, t2, t3, t4]; simp
          dims_pos := by omega
          dims_le := by omega
          elemsize_pos := by omega
          data_ne := t7
          total_pos := by rw [htot]; exact hprod }
      have hrt : hp1.room
          (allocSize (alignSize (_w * _h * tmp.elemsize) 16 / tmp.elemsize * _c)
            tmp.elemsize) := by
        rw [t6]; exact ⟨by have := hr.1; omega, by rw [t10]; have := hr.2; omega⟩
      obtain ⟨r, hp2, s0, s1, s2, s3, s4, s5, s6, s7, s8⟩ :=
        reshape3_flat_spec f hp1 tmp _w _h _c a hvt (by omega)
          (by rw [t2, t3, t4]; ring) hrt
      rw [s0]
      dsimp only
      rw [t6] at s5 s6 s8
      refine ⟨_, _, rfl, s1, s2, s3, s4, s5, s6, s7, ?_⟩
      intro hb k b hk hb'
      obtain ⟨u1, u2⟩ := t11 hb
      rw [release_mem, s8 (by rw [htot]; exact u1) k b hk hb']
      exact u2 k b hk hb'
    · rw [if_neg hc]
      have hceq : self.c = _c := not_not.mp hc
      unfold Mat.reshape3Alias
      dsimp only
      rw [if_neg (by omega)]
      have hcp := hl.c_pos
      have hplane : self.w * self.h = _w * _h := by
        rw [hceq] at hw hcp
        exact Nat.eq_of_mul_eq_mul_right hcp hw
      refine ⟨_, _, rfl, rfl, rfl, rfl, rfl, rfl, rfl, hl.data_ne, ?_⟩
      intro _ k b _ _
      simp only [ctorCopy_fst, ctorCopy_mem]
      have e : liveIndex
          { self with dims := 3, w := _w, h := _h, c := _c,
                      cstep := alignSize (_w * _h * self.elemsize) 16 / self.elemsize } k
          = liveIndex self k := by
        unfold liveIndex
        dsimp only
        rw [hl.inv.2.2 h3, hplane]
      rw [e]

theorem loadElem_congr (hp hp' : Heap) (p p' i i' e : Nat)
    (h : ∀ b, b < e → hp'.mem (p' + i' * e + b) = hp.mem (p + i * e + b)) :
    loadElem hp' p' i' e = loadElem hp p i e := by
  unfold loadElem
  apply List.map_congr_left
  intro b hb
  exact h b (List.mem_range.mp hb)

/-- C1. Reshape preserves content in channel-major order.  Let `self` be a live
buffer (non-empty, `elemsize ≥ 1`, `dims` from one to three, laid out as `create` lays
buffers out, data region below `brk`) and let the target extents have the product
`w * h * c`.  When the arena has room for the copies, each `reshape` overload succeeds,
keeps the element size, and the `k`-th live element of the result equals the `k`-th
live element of the source for every `k < w * h * c`.  The statement covers the
aliasing path, the flatten path, the align path and flatten-then-align. -/
theorem reshape_preserves_content (hp : Heap) (self : Mat) (a : Nat) (hl : Live hp self) :
    (∀ _w, self.w * self.h * self.c = _w → hp.room (allocSize _w self.elemsize) →
      ∃ r hp', Mat.reshape1 hp self _w a = .ok (r, hp') ∧ r.elemsize = self.elemsize ∧
        ∀ k, k < self.w * self.h * self.c →
          loadElem hp' r.data (liveIndex r k) r.elemsize
            = loadElem hp self.data (liveIndex self k) self.elemsize) ∧
    (∀ _w _h, self.w * self.h * self.c = _w * _h →
      hp.room (allocSize (_w * _h) self.elemsize) →
      ∃ r hp', Mat.reshape2 hp self _w _h a = .ok (r, hp') ∧ r.elemsize = self.elemsize ∧
        ∀ k, k < self.w * self.h * self.c →
          loadElem hp' r.data (liveIndex r k) r.elemsize
            = loadElem hp self.data (liveIndex self k) self.elemsize) ∧
    (∀ fuel _w _h _c, 2 ≤ fuel → self.w * self.h * self.c = _w * _h * _c →
      hp.room (allocSize (_w * _h * _c) self.elemsize +
        allocSize (alignSize (_w * _h * self.elemsize) 16 / self.elemsize * _c)
          self.elemsize) →
      ∃ r hp', Mat.reshape3 fuel hp self _w _h _c a = .ok (r, hp') ∧
        r.elemsize = self.elemsize ∧
        ∀ k, k < self.w * self.h * self.c →
          loadElem hp' r.data (liveIndex r k) r.elemsize
            = loadElem hp self.data (liveIndex self k) self.elemsize) := by
  refine ⟨?_, ?_, ?_⟩
  · intro _w hw hr
    obtain ⟨r, hp', h0, h1, h2, h3, h4, h5, h6, -, -, -, -, h11⟩ :=
      reshape1_spec hp self _w a hl.toValid hw hr
    refine ⟨r, hp', h0, h6, ?_⟩
    intro k hk
    rw [h6, liveIndex_contig r k (by rw [h5, h2, h3, Nat.mul_one])]
    exact loadElem_congr _ _ _ _ _ _ _ (fun b hb => (h11 hl.below).2 k b (by omega) hb)
  · intro _w _h hw hr
    obtain ⟨r, hp', h0, h1, h2, h3, h4, h5, h6, -, h8⟩ :=
      reshape2_spec hp self _w _h a hl.toValid hw hr
    refine ⟨r, hp', h0, h6, ?_⟩
    intro k hk
    rw [h6, liveIndex_contig r k (by rw [h5, h2, h3])]
    exact loadElem_congr _ _ _ _ _ _ _ (fun b hb => h8 hl.below k b (by omega) hb)
  · intro fuel _w _h _c hf hw hr
    obtain ⟨r, hp', h0, -, -, -, -, -, h6, -, h8⟩ :=
      reshape3_spec fuel hp self _w _h _c a hf hl.toValid hw hr
    refine ⟨r, hp', h0, h6, ?_⟩
    intro k hk
    rw [h6]
    exact loadElem_congr _ _ _ _ _ _ _ (fun b hb => h8 hl.below k b (by omega) hb)

/-- The padded buffer `create(3, 3, 2, 4, 1)` reshaped to `(2, 3, 3)`: flatten, then
align. -/
theorem reshape_preserves_content_witness :
    ∃ r hp', Mat.reshape3 2 demoPadded.2 demoPadded.1 2 3 3 0 = .ok (r, hp') ∧
      r.elemsize = demoPadded.1.elemsize ∧
      ∀ k, k < demoPadded.1.w * demoPadded.1.h * demoPadded.1.c →
        loadElem hp' r.data (liveIndex r k) r.elemsize
          = loadElem demoPadded.2 demoPadded.1.data (liveIndex demoPadded.1 k)
              demoPadded.1.elemsize :=
  (reshape_preserves_content demoPadded.2 demoPadded.1 0
    ⟨⟨by decide, by decide, by decide, by decide, by decide, by decide⟩, by decide⟩).2.2
    2 2 3 3 (by decide) (by decide) (by decide)

theorem empty_false_of {r : Mat} (hd : r.data ≠ 0) (ht : 0 < r.cstep * r.c) :
    r.empty = false := by
  unfold Mat.empty Mat.total
  simp only [Bool.or_eq_false_iff, beq_eq_false_iff_ne, ne_eq]
  exact ⟨hd, by omega⟩

/-- C6, amended.  When the product of the target extents differs from `w * h * c`,
every `reshape` overload returns the default empty buffer and leaves the heap alone,
whatever the source is.  When the products are equal, the source is non-empty and
well formed (`Valid`), and the arena has room for the copies, every overload succeeds
with a non-empty result. -/
theorem reshape_conservative (hp : Heap) (self : Mat) (a : Nat) :
    (∀ _w, self.w * self.h * self.c ≠ _w → Mat.reshape1 hp self _w a = .ok (Mat.ctor, hp)) ∧
    (∀ _w _h, self.w * self.h * self.c ≠ _w * _h →
      Mat.reshape2 hp self _w _h a = .ok (Mat.ctor, hp)) ∧
    (∀ fuel _w _h _c, 1 ≤ fuel → self.w * self.h * self.c ≠ _w * _h * _c →
      Mat.reshape3 fuel hp self _w _h _c a = .ok (Mat.ctor, hp)) ∧
    Mat.ctor.empty = true ∧
    (Valid self →
      (∀ _w, self.w * self.h * self.c = _w → hp.room (allocSize _w self.elemsize) →
        ∃ r hp', Mat.reshape1 hp self _w a = .ok (r, hp') ∧ r.empty = false) ∧
      (∀ _w _h, self.w * self.h * self.c = _w * _h →
        hp.room (allocSize (_w * _h) self.elemsize) →
        ∃ r hp', Mat.reshape2 hp self _w _h a = .ok (r, hp') ∧ r.empty = false) ∧
      (∀ fuel _w _h _c, 2 ≤ fuel → self.w * self.h * self.c = _w * _h * _c →
        hp.room (allocSize (_w * _h * _c) self.elemsize +
          allocSize (alignSize (_w * _h * self.elemsize) 16 / self.elemsize * _c)
            self.elemsize) →
        ∃ r hp', Mat.reshape3 fuel hp self _w _h _c a = .ok (r, hp') ∧ r.empty = false)) := by
  refine ⟨?_, ?_, ?_, by decide, ?_⟩
  · intro _w hne
    unfold Mat.reshape1; rw [if_pos hne]
  · intro _w _h hne
    unfold Mat.reshape2; rw [if_pos hne]
  · intro fuel _w _h _c hf hne
    obtain ⟨f, rfl⟩ : ∃ f, fuel = f + 1 := ⟨fuel - 1, by omega⟩
    unfold Mat.reshape3; rw [if_pos hne]
  · intro hv
    have hpos : 0 < self.w * self.h * self.c := Nat.mul_pos hv.plane_pos hv.c_pos
    refine ⟨?_, ?_, ?_⟩
    · intro _w hw hr
      obtain ⟨r, hp', h0, -, -, -, h4, h5, -, h7, -⟩ := reshape1_spec hp self _w a hv hw hr
      exact ⟨r, hp', h0, empty_false_of h7 (by rw [h5, h4]; omega)⟩
    · intro _w _h hw hr
      obtain ⟨r, hp', h0, -, -, -, h4, h5, -, h7, -⟩ := reshape2_spec hp self _w _h a hv hw hr
      exact ⟨r, hp', h0, empty_false_of h7 (by rw [h5, h4]; omega)⟩
    · intro fuel _w _h _c hf hw hr
      obtain ⟨r, hp', h0, -, -, -, h4, h5, -, h7, -⟩ :=
        reshape3_spec fuel hp self _w _h _c a hf hv hw hr
      refine ⟨r, hp', h0, empty_false_of h7 ?_⟩
      rw [h5, h4]
      have hcs := cstep_ge (_w * _h) self.elemsize hv.elemsize_pos
      rw [hw] at hpos
      have hcpos : 0 < _c :=
        Nat.pos_of_ne_zero (fun h0 => by rw [h0] at hpos; simp at hpos)
      have hwh : 0 < _w * _h :=
        Nat.pos_of_ne_zero (fun h0 => by rw [h0] at hpos; simp at hpos)
      exact Nat.mul_pos (by omega) hcpos

/-- C6 as stated fails for the default-constructed buffer: `reshape(0)` has matching
products (both zero), yet its result is empty. -/
theorem reshape_conservative_counterexample :
    ∃ r hp', Mat.reshape1 demoHeap Mat.ctor 0 0 = .ok (r, hp') ∧
      Mat.ctor.w * Mat.ctor.h * Mat.ctor.c = 0 ∧ r.empty = true :=
  ⟨_, _, rfl, by decide, by decide⟩

/-- C7, amended.  Let `m` have `elemsize ≥ 1` and planes that are contiguous and need
no padding: `cstep = w * h = alignSize (w * h * elemsize) 16 / elemsize` (every
contiguous 3-D buffer with the layout invariant is such a buffer).  Then
`m.reshape(w * h * c).reshape(w, h, c)` has the extents `(w, h, c)` and the data pointer
of `m`; no allocation is requested and no byte is written. -/
theorem reshape_round_trip (fuel : Nat) (hp : Heap) (m : Mat) (a : Nat) (hf : 1 ≤ fuel)
    (he : 1 ≤ m.elemsize) (hc : m.cstep = m.w * m.h)
    (hpad : m.w * m.h = alignSize (m.w * m.h * m.elemsize) 16 / m.elemsize) :
    ∃ t hp1 r hp2, Mat.reshape1 hp m (m.w * m.h * m.c) a = .ok (t, hp1) ∧
      Mat.reshape3 fuel hp1 t m.w m.h m.c a = .ok (r, hp2) ∧
      r.w = m.w ∧ r.h = m.h ∧ r.c = m.c ∧ r.data = m.data ∧
      hp2.mallocs = hp.mallocs ∧ hp2.mem = hp.mem := by
  obtain ⟨f, rfl⟩ : ∃ f, fuel = f + 1 := ⟨fuel - 1, by omega⟩
  have h1 : Mat.reshape1 hp m (m.w * m.h * m.c) a
      = .ok ({ m with dims := 1, w := m.w * m.h * m.c, h := 1, c := 1,
                      cstep := m.w * m.h * m.c }, (Mat.ctorCopy hp m).2) := by
    unfold Mat.reshape1
    rw [if_neg (by simp), if_neg (by intro ⟨_, h⟩; exact h hc)]
    rfl
  have h2 : Mat.reshape3 (f + 1) (Mat.ctorCopy hp m).2
      { m with dims := 1, w := m.w * m.h * m.c, h := 1, c := 1, cstep := m.w * m.h * m.c }
      m.w m.h m.c a
      = .ok ({ m with dims := 3, w := m.w, h := m.h, c := m.c,
                      cstep := alignSize (m.w * m.h * m.elemsize) 16 / m.elemsize },
          (Mat.ctorCopy (Mat.ctorCopy hp m).2
            { m with dims := 1, w := m.w * m.h * m.c, h := 1, c := 1,
                     cstep := m.w * m.h * m.c }).2) := by
    unfold Mat.reshape3
    dsimp only
    rw [if_neg (by simp), if_pos (by decide), if_neg (by omega), if_neg (by simpa using hpad)]
    unfold Mat.reshape3Alias
    dsimp only
    rw [if_neg (by omega)]
    rfl
  exact ⟨_, _, _, _, h1, h2, rfl, rfl, rfl, rfl, by simp, by simp⟩

/-- The round trip of the contiguous buffer `create(4, 4, 3, 4, 1)`. -/
theorem reshape_round_trip_witness :
    ∃ t hp1 r hp2, Mat.reshape1 demoContig.2 demoContig.1
        (demoContig.1.w * demoContig.1.h * demoContig.1.c) 0 = .ok (t, hp1) ∧
      Mat.reshape3 2 hp1 t demoContig.1.w demoContig.1.h demoContig.1.c 0 = .ok (r, hp2) ∧
      r.w = demoContig.1.w ∧ r.h = demoContig.1.h ∧ r.c = demoContig.1.c ∧
      r.data = demoContig.1.data ∧
      hp2.mallocs = demoContig.2.mallocs ∧ hp2.mem = demoContig.2.mem :=
  reshape_round_trip 2 demoContig.2 demoContig.1 0 (by decide) (by decide) (by decide)
    (by decide)

/-- C7 as stated fails for the contiguous 2-D buffer `create(3, 3, 4, 1)`
(`cstep = w * h = 9`): the 3-D target needs `cstep = 12`, so the round trip allocates a
new block and returns a different data pointer. -/
theorem reshape_round_trip_counterexample :
    ∃ m hp t hp1 r hp2, Mat.createPacked2 demoHeap Mat.ctor 3 3 4 1 0 = .ok (m, hp) ∧
      m.cstep = m.w * m.h ∧ m.empty = false ∧
      Mat.reshape1 hp m (m.w * m.h * m.c) 0 = .ok (t, hp1) ∧
      Mat.reshape3 2 hp1 t m.w m.h m.c 0 = .ok (r, hp2) ∧
      r.data ≠ m.data ∧ hp2.mallocs.length = hp.mallocs.length + 1 :=
  ⟨_, _, _, _, _, _, rfl, by decide, by decide, rfl, rfl, by decide, by decide⟩

/-- The padded buffer `create(3, 3, 2, 4, 1)` flattened to 18 elements is not empty. -/
theorem reshape_conservative_witness :
    ∃ r hp', Mat.reshape1 demoPadded.2 demoPadded.1 18 0 = .ok (r, hp') ∧ r.empty = false :=
  ((reshape_conservative demoPadded.2 demoPadded.1 0).2.2.2.2
    ⟨by decide, by decide, by decide, by decide, by decide, by decide⟩).1
    18 (by decide) (by decide)

/-- The `create` call made by `clone` on a non-empty source with the layout invariant. -/
theorem clone_create (hp : Heap) (b1 : Mat) (a : Nat) (hinv : layoutInv b1)
    (hlo : 1 ≤ b1.dims) (hhi : b1.dims ≤ 3) (ht : 0 < b1.total) :
    (if b1.dims = 1 then
        Mat.createPacked1 hp Mat.ctor b1.w b1.elemsize b1.packing a
      else if b1.dims = 2 then
        Mat.createPacked2 hp Mat.ctor b1.w b1.h b1.elemsize b1.packing a
      else if b1.dims = 3 then
        Mat.createPacked3 hp Mat.ctor b1.w b1.h b1.c b1.elemsize b1.packing a
      else .ok (Mat.ctor, hp))
    = Mat.allocate hp { data := 0, refcount := 0, elemsize := b1.elemsize,
                        packing := b1.packing, allocator := a, dims := b1.dims, w := b1.w,
                        h := b1.h, c := b1.c, cstep := b1.cstep } := by
  obtain ⟨i1, i2, i3⟩ := hinv
  by_cases h1 : b1.dims = 1
  · obtain ⟨e1, e2, e3⟩ := i1 h1
    rw [if_pos h1, createPacked1_ctor, h1, e1, e2, e3]
  · by_cases h2 : b1.dims = 2
    · obtain ⟨e1, e2⟩ := i2 h2
      rw [if_neg h1, if_pos h2, createPacked2_ctor, h2, e1, e2]
    · have h3 : b1.dims = 3 := by omega
      have he : 1 ≤ b1.elemsize := by
        rcases Nat.eq_zero_or_pos b1.elemsize with h0 | h0
        · unfold Mat.total at ht
          rw [i3 h3, h0] at ht
          simp at ht
        · exact h0
      rw [if_neg h1, if_neg h2, if_pos h3, createPacked3_ctor _ _ _ _ _ _ _ he, h3, ← i3 h3]

/-- C10. Clone is a deep copy.  For an empty `b1` the result is the default empty
buffer.  For a non-empty `b1` with `dims` from one to three and the layout invariant,
whose data lies below `brk`, on a heap with room: `clone` succeeds; the result has the
`dims`, `w`, `h`, `c`, `elemsize`, `packing` and `cstep` of `b1`; it owns the one block
requested by the call, with counter one; its data pointer differs from that of `b1`;
its first `total() * elemsize` bytes equal those of `b1`; and a later store to any
element of `b1` leaves these bytes of the result as they are. -/
theorem clone_deep_copy (hp : Heap) (b1 : Mat) (a : Nat) :
    (b1.empty = true → Mat.clone hp b1 a = .ok (Mat.ctor, hp)) ∧
    (b1.empty = false → layoutInv b1 → 1 ≤ b1.dims → b1.dims ≤ 3 →
      b1.data < hp.brk → b1.data + b1.total * b1.elemsize ≤ hp.brk →
      hp.room (allocSize b1.total b1.elemsize) →
      ∃ b2 hp', Mat.clone hp b1 a = .ok (b2, hp') ∧
        b2.dims = b1.dims ∧ b2.w = b1.w ∧ b2.h = b1.h ∧ b2.c = b1.c ∧
        b2.elemsize = b1.elemsize ∧ b2.packing = b1.packing ∧ b2.cstep = b1.cstep ∧
        b2.refcount ≠ 0 ∧ hp'.cnt b2.refcount = 1 ∧
        hp'.mallocs = hp.mallocs ++ [(a, allocSize b1.total b1.elemsize, b2.data)] ∧
        b2.data ≠ 0 ∧ b2.data ≠ b1.data ∧
        (∀ j, j < b1.total * b1.elemsize → hp'.mem (b2.data + j) = hp.mem (b1.data + j)) ∧
        (∀ i v j, i < b1.total → v.length = b1.elemsize → j < b1.total * b1.elemsize →
          (storeElem hp' b1.data i v).mem (b2.data + j) = hp'.mem (b2.data + j))) := by
  constructor
  · intro he
    unfold Mat.clone; rw [if_pos he]
  · intro hne hinv hlo hhi hlt hbelow hr
    have htp : 0 < b1.total := by
      unfold Mat.empty at hne
      simp only [Bool.or_eq_false_iff, beq_eq_false_iff_ne, ne_eq] at hne
      omega
    have ht : Mat.total
        { data := 0, refcount := 0, elemsize := b1.elemsize, packing := b1.packing,
          allocator := a, dims := b1.dims, w := b1.w, h := b1.h, c := b1.c,
          cstep := b1.cstep } = b1.total := rfl
    obtain ⟨hp1, hal, hmem, hbrk, hcap, hfr, hcnt, hml⟩ := allocate_pos hp
      { data := 0, refcount := 0, elemsize := b1.elemsize, packing := b1.packing,
        allocator := a, dims := b1.dims, w := b1.w, h := b1.h, c := b1.c,
        cstep := b1.cstep }
      (by rw [ht]; exact htp) (by rw [ht]; exact hr)
    rw [ht] at hal hcnt hml
    have hbpos := hr.1
    unfold Mat.clone
    rw [if_neg (by rw [hne]; simp)]
    dsimp only
    rw [clone_create hp b1 a hinv hlo hhi htp, hal]
    dsimp only
    rw [if_pos htp]
    refine ⟨_, _, rfl, rfl, rfl, rfl, rfl, rfl, rfl, rfl, ?_, ?_, ?_, ?_, ?_, ?_, ?_⟩
    · dsimp only; omega
    · exact hcnt
    · exact hml
    · dsimp only; omega
    · dsimp only; omega
    · intro j hj
      unfold memcpy
      dsimp only
      rw [if_pos ⟨by omega, by omega⟩, hmem]
      congr 1; omega
    · intro i v j hi hlen hj
      unfold storeElem
      dsimp only
      rw [if_neg]
      intro ⟨_, h2⟩
      rw [hlen] at h2
      have h3 : (i + 1) * b1.elemsize ≤ b1.total * b1.elemsize :=
        Nat.mul_le_mul_right _ hi
      rw [Nat.add_mul, Nat.one_mul] at h3
      omega

/-- The clone of the padded buffer `create(3, 3, 2, 4, 1)`. -/
theorem clone_deep_copy_witness :
    ∃ b2 hp', Mat.clone demoPadded.2 demoPadded.1 0 = .ok (b2, hp') ∧
      b2.dims = demoPadded.1.dims ∧ b2.w = demoPadded.1.w ∧ b2.h = demoPadded.1.h ∧
      b2.c = demoPadded.1.c ∧ b2.elemsize = demoPadded.1.elemsize ∧
      b2.packing = demoPadded.1.packing ∧ b2.cstep = demoPadded.1.cstep ∧
      b2.refcount ≠ 0 ∧ hp'.cnt b2.refcount = 1 ∧
      hp'.mallocs = demoPadded.2.mallocs ++
        [(0, allocSize demoPadded.1.total demoPadded.1.elemsize, b2.data)] ∧
      b2.data ≠ 0 ∧ b2.data ≠ demoPadded.1.data ∧
      (∀ j, j < demoPadded.1.total * demoPadded.1.elemsize →
        hp'.mem (b2.data + j) = demoPadded.2.mem (demoPadded.1.data + j)) ∧
      (∀ i v j, i < demoPadded.1.total → v.length = demoPadded.1.elemsize →
        j < demoPadded.1.total * demoPadded.1.elemsize →
        (storeElem hp' demoPadded.1.data i v).mem (b2.data + j) = hp'.mem (b2.data + j)) :=
  (clone_deep_copy demoPadded.2 demoPadded.1 0).2
    (by decide) (by decide) (by decide) (by decide) (by decide) (by decide) (by decide)

/-! ### Buffers produced by `create` are live -/

/-- A buffer created by a fresh handle on a heap with room is `Live`. -/
theorem create_live (hp : Heap) (w h c e p a : Nat) (he : 1 ≤ e) :
    (0 < w → hp.room (allocSize w e) →
      ∃ m hp', Mat.createPacked1 hp Mat.ctor w e p a = .ok (m, hp') ∧ Live hp' m ∧
        m.refcount ≠ 0 ∧ hp'.cnt m.refcount = 1) ∧
    (0 < w * h → hp.room (allocSize (w * h) e) →
      ∃ m hp', Mat.createPacked2 hp Mat.ctor w h e p a = .ok (m, hp') ∧ Live hp' m ∧
        m.refcount ≠ 0 ∧ hp'.cnt m.refcount = 1) ∧
    (0 < w * h * c → hp.room (allocSize (alignSize (w * h * e) 16 / e * c) e) →
      ∃ m hp', Mat.createPacked3 hp Mat.ctor w h c e p a = .ok (m, hp') ∧ Live hp' m ∧
        m.refcount ≠ 0 ∧ hp'.cnt m.refcount = 1) := by
  refine ⟨?_, ?_, ?_⟩
  · intro hw hr
    have ht : Mat.total
        { data := 0, refcount := 0, elemsize := e, packing := p, allocator := a,
          dims := 1, w := w, h := 1, c := 1, cstep := w } = w := by simp [Mat.total]
    obtain ⟨hp1, hal, -, hbrk, -, -, hcnt, -⟩ := allocate_pos hp
      { data := 0, refcount := 0, elemsize := e, packing := p, allocator := a,
        dims := 1, w := w, h := 1, c := 1, cstep := w }
      (by rw [ht]; exact hw) (by rw [ht]; exact hr)
    rw [ht] at hal hbrk hcnt
    have hb := hr.1
    refine ⟨_, hp1, by rw [createPacked1_ctor, hal], ?_, by dsimp only; omega, hcnt⟩
    exact { inv := by simp [layoutInv]
            dims_pos := by simp
            dims_le := by simp
            elemsize_pos := he
            data_ne := by dsimp only; omega
            total_pos := by rw [show Mat.total _ = w from by simp [Mat.total]]; exact hw
            below := by
              rw [show Mat.total _ = w from by simp [Mat.total], hbrk]
              unfold allocSize
              have := alignSize_four_ge (w * e)
              dsimp only; omega }
  · intro hw hr
    have ht : Mat.total
        { data := 0, refcount := 0, elemsize := e, packing := p, allocator := a,
          dims := 2, w := w, h := h, c := 1, cstep := w * h } = w * h := by simp [Mat.total]
    obtain ⟨hp1, hal, -, hbrk, -, -, hcnt, -⟩ := allocate_pos hp
      { data := 0, refcount := 0, elemsize := e, packing := p, allocator := a,
        dims := 2, w := w, h := h, c := 1, cstep := w * h }
      (by rw [ht]; exact hw) (by rw [ht]; exact hr)
    rw [ht] at hal hbrk hcnt
    have hb := hr.1
    refine ⟨_, hp1, by rw [createPacked2_ctor, hal], ?_, by dsimp only; omega, hcnt⟩
    exact { inv := by simp [layoutInv]
            dims_pos := by simp
            dims_le := by simp
            elemsize_pos := he
            data_ne := by dsimp only; omega
            total_pos := by rw [show Mat.total _ = w * h from by simp [Mat.total]]; exact hw
            below := by
              rw [show Mat.total _ = w * h from by simp [Mat.total], hbrk]
              unfold allocSize
              have := alignSize_four_ge (w * h * e)
              dsimp only; omega }
  · intro hw hr
    have hcpos : 0 < c := Nat.pos_of_ne_zero (fun h0 => by rw [h0] at hw; simp at hw)
    have hwh : 0 < w * h := Nat.pos_of_ne_zero (fun h0 => by rw [h0] at hw; simp at hw)
    have hcs := cstep_ge (w * h) e he
    have hpos : 0 < alignSize (w * h * e) 16 / e * c := Nat.mul_pos (by omega) hcpos
    have ht : Mat.total
        { data := 0, refcount := 0, elemsize := e, packing := p, allocator := a,
          dims := 3, w := w, h := h, c := c, cstep := alignSize (w * h * e) 16 / e }
        = alignSize (w * h * e) 16 / e * c := by simp [Mat.total]
    obtain ⟨hp1, hal, -, hbrk, -, -, hcnt, -⟩ := allocate_pos hp
      { data := 0, refcount := 0, elemsize := e, packing := p, allocator := a,
        dims := 3, w := w, h := h, c := c, cstep := alignSize (w * h * e) 16 / e }
      (by rw [ht]; exact hpos) (by rw [ht]; exact hr)
    rw [ht] at hal hbrk hcnt
    have hb := hr.1
    refine ⟨_, hp1, by rw [createPacked3_ctor _ _ _ _ _ _ _ he, hal], ?_,
      by dsimp only; omega, hcnt⟩
    exact { inv := by simp [layoutInv]
            dims_pos := by simp
            dims_le := by simp
            elemsize_pos := he
            data_ne := by dsimp only; omega
            total_pos := by
              rw [show Mat.total _ = alignSize (w * h * e) 16 / e * c from by simp [Mat.total]]
              exact hpos
            below := by
              rw [show Mat.total _ = alignSize (w * h * e) 16 / e * c from by simp [Mat.total],
                hbrk]
              unfold allocSize
              have := alignSize_four_ge (alignSize (w * h * e) 16 / e * c * e)
              dsimp only; omega }

/-! ### The paths of `create` -/

@[simp] theorem release_mallocs (hp : Heap) (m : Mat) :
    (m.release hp).2.mallocs = hp.mallocs := by
  unfold Mat.release NCNN_XADD fastFree; dsimp only; split_ifs <;> rfl

/-- The 1-D `create` when the early return is not taken. -/
theorem createPacked1_realloc (hp : Heap) (self : Mat) (w e p a : Nat)
    (hne : ¬ (self.dims = 1 ∧ self.w = w ∧ self.elemsize = e ∧ self.packing = p
      ∧ self.allocator = a)) :
    Mat.createPacked1 hp self w e p a =
      Mat.allocate (self.release hp).2
        { data := 0, refcount := 0, elemsize := e, packing := p, allocator := a,
          dims := 1, w := w, h := 1, c := 1, cstep := w } := by
  unfold Mat.createPacked1; rw [if_neg hne]; rfl

/-- The 2-D `create` when the early return is not taken. -/
theorem createPacked2_realloc (hp : Heap) (self : Mat) (w h e p a : Nat)
    (hne : ¬ (self.dims = 2 ∧ self.w = w ∧ self.h = h ∧ self.elemsize = e
      ∧ self.packing = p ∧ self.allocator = a)) :
    Mat.createPacked2 hp self w h e p a =
      Mat.allocate (self.release hp).2
        { data := 0, refcount := 0, elemsize := e, packing := p, allocator := a,
          dims := 2, w := w, h := h, c := 1, cstep := w * h } := by
  unfold Mat.createPacked2; rw [if_neg hne]; rfl

/-- The 3-D `create` when the early return is not taken and `elemsize` is not zero. -/
theorem createPacked3_realloc (hp : Heap) (self : Mat) (w h c e p a : Nat) (he : 1 ≤ e)
    (hne : ¬ (self.dims = 3 ∧ self.w = w ∧ self.h = h ∧ self.c = c ∧ self.elemsize = e
      ∧ self.packing = p ∧ self.allocator = a)) :
    Mat.createPacked3 hp self w h c e p a =
      Mat.allocate (self.release hp).2
        { data := 0, refcount := 0, elemsize := e, packing := p, allocator := a,
          dims := 3, w := w, h := h, c := c, cstep := alignSize (w * h * e) 16 / e } := by
  unfold Mat.createPacked3; rw [if_neg hne]; dsimp only; rw [if_neg (by omega)]; rfl

/-- The allocation block of `create` logs at most one request, none for an empty
buffer, one for the allocator of the handle otherwise. -/
theorem allocate_count {hp hp1 : Heap} {m0 m : Mat} (h : Mat.allocate hp m0 = .ok (m, hp1)) :
    mallocCount hp hp1 = (if m0.total = 0 then 0 else 1) := by
  unfold Mat.allocate at h
  dsimp only at h
  unfold mallocCount
  by_cases ht : m0.total > 0
  · rw [if_pos ht] at h
    split_ifs at h with h2
    simp only [Except.ok.injEq, Prod.mk.injEq] at h
    obtain ⟨-, rfl⟩ := h
    have : (fastMalloc hp m0.allocator (alignSize (m0.total * m0.elemsize) 4 + 4)).2.mallocs.length
        = hp.mallocs.length + 1 := by
      unfold fastMalloc; split_ifs <;> simp
    rw [if_neg (by omega)]
    unfold storeCount; dsimp only; omega
  · rw [if_neg ht] at h
    simp only [Except.ok.injEq, Prod.mk.injEq] at h
    obtain ⟨-, rfl⟩ := h
    rw [if_pos (by omega)]; omega

theorem mallocCount_release (hp hp1 : Heap) (m : Mat) :
    mallocCount hp hp1 = mallocCount (m.release hp).2 hp1 := by
  unfold mallocCount; rw [release_mallocs]

theorem mallocCount_self (hp : Heap) : mallocCount hp hp = 0 := by
  unfold mallocCount; omega

/-- C11, amended.  When a call of `create` has succeeded, a second call with the same
arguments on the same handle is a no-op: it returns the same handle and the same heap,
so no member, no counter and neither log changes.  The two calls together request one
allocation when the first call does not return early and leaves `total() > 0`, and none
otherwise (the handle already had the layout, or an extent is zero).  On a handle that
satisfies the layout invariant and a heap with room the first call succeeds. -/
theorem create_idempotent (hp : Heap) (self : Mat) (w h c e p a : Nat) :
    (∀ m hp1, Mat.createPacked1 hp self w e p a = .ok (m, hp1) →
      Mat.createPacked1 hp1 m w e p a = .ok (m, hp1) ∧
      mallocCount hp hp1 =
        (if (self.dims = 1 ∧ self.w = w ∧ self.elemsize = e ∧ self.packing = p
              ∧ self.allocator = a) ∨ m.total = 0 then 0 else 1)) ∧
    (∀ m hp1, Mat.createPacked2 hp self w h e p a = .ok (m, hp1) →
      Mat.createPacked2 hp1 m w h e p a = .ok (m, hp1) ∧
      mallocCount hp hp1 =
        (if (self.dims = 2 ∧ self.w = w ∧ self.h = h ∧ self.elemsize = e
              ∧ self.packing = p ∧ self.allocator = a) ∨ m.total = 0 then 0 else 1)) ∧
    (∀ m hp1, Mat.createPacked3 hp self w h c e p a = .ok (m, hp1) →
      Mat.createPacked3 hp1 m w h c e p a = .ok (m, hp1) ∧
      mallocCount hp hp1 =
        (if (self.dims = 3 ∧ self.w = w ∧ self.h = h ∧ self.c = c ∧ self.elemsize = e
              ∧ self.packing = p ∧ self.allocator = a) ∨ m.total = 0 then 0 else 1)) ∧
    (layoutInv self →
      (hp.room (allocSize w e) → ∃ m hp1, Mat.createPacked1 hp self w e p a = .ok (m, hp1)) ∧
      (hp.room (allocSize (w * h) e) →
        ∃ m hp1, Mat.createPacked2 hp self w h e p a = .ok (m, hp1)) ∧
      (1 ≤ e → hp.room (allocSize (alignSize (w * h * e) 16 / e * c) e) →
        ∃ m hp1, Mat.createPacked3 hp self w h c e p a = .ok (m, hp1))) := by
  refine ⟨?_, ?_, ?_, ?_⟩
  · intro m hp1 h1
    by_cases hearly : self.dims = 1 ∧ self.w = w ∧ self.elemsize = e ∧ self.packing = p
        ∧ self.allocator = a
    · have h1' := h1
      unfold Mat.createPacked1 at h1'
      rw [if_pos hearly] at h1'
      simp only [Except.ok.injEq, Prod.mk.injEq] at h1'
      obtain ⟨rfl, rfl⟩ := h1'
      exact ⟨h1, by rw [if_pos (Or.inl hearly)]; exact mallocCount_self hp⟩
    · rw [createPacked1_realloc hp self w e p a hearly] at h1
      obtain ⟨f1, f2, f3, f4, f5, f6, f7, f8⟩ := allocate_fields h1
      constructor
      · unfold Mat.createPacked1
        rw [if_pos ⟨f4, f5, f1, f2, f3⟩]
      · have ht : m.total = Mat.total
            { data := 0, refcount := 0, elemsize := e, packing := p, allocator := a,
              dims := 1, w := w, h := 1, c := 1, cstep := w } := by
          unfold Mat.total; rw [f8, f7]
        rw [mallocCount_release hp hp1 self, allocate_count h1, ← ht]
        by_cases h0 : m.total = 0
        · rw [if_pos h0, if_pos (Or.inr h0)]
        · rw [if_neg h0, if_neg (fun hx => hx.elim hearly h0)]
  · intro m hp1 h1
    by_cases hearly : self.dims = 2 ∧ self.w = w ∧ self.h = h ∧ self.elemsize = e
        ∧ self.packing = p ∧ self.allocator = a
    · have h1' := h1
      unfold Mat.createPacked2 at h1'
      rw [if_pos hearly] at h1'
      simp only [Except.ok.injEq, Prod.mk.injEq] at h1'
      obtain ⟨rfl, rfl⟩ := h1'
      exact ⟨h1, by rw [if_pos (Or.inl hearly)]; exact mallocCount_self hp⟩
    · rw [createPacked2_realloc hp self w h e p a hearly] at h1
      obtain ⟨f1, f2, f3, f4, f5, f6, f7, f8⟩ := allocate_fields h1
      constructor
      · unfold Mat.createPacked2
        rw [if_pos ⟨f4, f5, f6, f1, f2, f3⟩]
      · have ht : m.total = Mat.total
            { data := 0, refcount := 0, elemsize := e, packing := p, allocator := a,
              dims := 2, w := w, h := h, c := 1, cstep := w * h } := by
          unfold Mat.total; rw [f8, f7]
        rw [mallocCount_release hp hp1 self, allocate_count h1, ← ht]
        by_cases h0 : m.total = 0
        · rw [if_pos h0, if_pos (Or.inr h0)]
        · rw [if_neg h0, if_neg (fun hx => hx.elim hearly h0)]
  · intro m hp1 h1
    by_cases hearly : self.dims = 3 ∧ self.w = w ∧ self.h = h ∧ self.c = c
        ∧ self.elemsize = e ∧ self.packing = p ∧ self.allocator = a
    · have h1' := h1
      unfold Mat.createPacked3 at h1'
      rw [if_pos hearly] at h1'
      simp only [Except.ok.injEq, Prod.mk.injEq] at h1'
      obtain ⟨rfl, rfl⟩ := h1'
      exact ⟨h1, by rw [if_pos (Or.inl hearly)]; exact mallocCount_self hp⟩
    · have he : 1 ≤ e := by
        rcases Nat.eq_zero_or_pos e with h0 | h0
        · unfold Mat.createPacked3 at h1
          rw [if_neg hearly] at h1
          dsimp only at h1
          rw [if_pos h0] at h1
          exact absurd h1 (by simp)
        · exact h0
      rw [createPacked3_realloc hp self w h c e p a he hearly] at h1
      obtain ⟨f1, f2, f3, f4, f5, f6, f7, f8⟩ := allocate_fields h1
      constructor
      · unfold Mat.createPacked3
        rw [if_pos ⟨f4, f5, f6, f7, f1, f2, f3⟩]
      · have ht : m.total = Mat.total
            { data := 0, refcount := 0, elemsize := e, packing := p, allocator := a,
              dims := 3, w := w, h := h, c := c,
              cstep := alignSize (w * h * e) 16 / e } := by
          unfold Mat.total; rw [f8, f7]
        rw [mallocCount_release hp hp1 self, allocate_count h1, ← ht]
        by_cases h0 : m.total = 0
        · rw [if_pos h0, if_pos (Or.inr h0)]
        · rw [if_neg h0, if_neg (fun hx => hx.elim hearly h0)]
  · intro hinv
    refine ⟨fun hr => ?_, fun hr => ?_, fun he hr => ?_⟩
    · obtain ⟨m, hp1, h1, -⟩ := createPacked1_ok hp self w e p a hinv hr
      exact ⟨m, hp1, h1⟩
    · obtain ⟨m, hp1, h1, -⟩ := createPacked2_ok hp self w h e p a hinv hr
      exact ⟨m, hp1, h1⟩
    · obtain ⟨m, hp1, h1, -⟩ := createPacked3_ok hp self w h c e p a hinv he hr
      exact ⟨m, hp1, h1⟩

/-- Creating `create(4, 4, 3, 4, 1)` twice on a fresh handle: the second call returns
the state left by the first, and one allocation is logged. -/
theorem create_idempotent_witness :
    Mat.createPacked3 demoContig.2 demoContig.1 4 4 3 4 1 0 = .ok (demoContig.1, demoContig.2) ∧
    mallocCount demoHeap demoContig.2 = 1 :=
  ((create_idempotent demoHeap Mat.ctor 4 4 3 4 1 0).2.2.1 demoContig.1 demoContig.2 rfl).imp
    id (fun h => h.trans (by decide))

/-- C11 as stated fails for `create(0, 0, 0, 4, 1)` on a fresh handle: both calls
succeed and no allocation at all is requested, not one. -/
theorem create_idempotent_counterexample :
    ∃ m hp1, Mat.createPacked3 demoHeap Mat.ctor 0 0 0 4 1 0 = .ok (m, hp1) ∧
      Mat.createPacked3 hp1 m 0 0 0 4 1 0 = .ok (m, hp1) ∧
      mallocCount demoHeap hp1 = 0 ∧ hp1.mallocs = [] :=
  ⟨_, _, rfl, rfl, by decide, by decide⟩

/-- When `fastMalloc` answers null, the allocation block of `create` runs into the
store `*refcount = 1` with `refcount` computed from the null data pointer. -/
theorem allocate_null (hp : Heap) (m0 : Mat) (ht : 0 < m0.total)
    (hfull : hp.cap < hp.brk + allocSize m0.total m0.elemsize) :
    Mat.allocate hp m0 = .error .nullStore := by
  unfold Mat.allocate
  dsimp only
  unfold allocSize at hfull
  have h1 : (fastMalloc hp m0.allocator (alignSize (m0.total * m0.elemsize) 4 + 4)).1 = 0 := by
    unfold fastMalloc; rw [if_neg (by omega)]
  rw [if_pos ht, if_pos h1]

/-- C12, the code at the failing input.  On a heap whose arena cannot serve the
request, `fastMalloc` answers null for the 196 bytes of `create(4, 4, 3, 4, 1)`, and
the call does not end with an error value or an empty buffer: it runs into the store
`*refcount = 1` through `(int*)((unsigned char*)0 + 192)`, with the shape members
already set. -/
theorem create_null_store :
    (fastMalloc smallHeap 0 (allocSize (16 * 3) 4)).1 = 0 ∧
    Mat.createPacked3 smallHeap Mat.ctor 4 4 3 4 1 0 = .error .nullStore ∧
    Mat.createPacked2 smallHeap Mat.ctor 4 12 4 1 0 = .error .nullStore ∧
    Mat.createPacked1 smallHeap Mat.ctor 48 4 1 0 = .error .nullStore :=
  ⟨by decide, rfl, rfl, rfl⟩

/-- C13. Zero extents.  Let the handle satisfy the layout invariant and hold null
pointers whenever it has no elements (a fresh handle does).  A `create` call with a
zero extent (and `elemsize ≥ 1` for the 3-D overload) succeeds, logs no allocation,
and leaves `total() = 0`, `data` and `refcount` null, `empty()` true, and `dims`, `w`,
`h`, `c`, `elemsize`, `packing` as requested. -/
theorem create_zero_extent (hp : Heap) (self : Mat) (w h c e p a : Nat)
    (hinv : layoutInv self) (hnull : self.total = 0 → self.data = 0 ∧ self.refcount = 0) :
    (w = 0 →
      ∃ m hp1, Mat.createPacked1 hp self w e p a = .ok (m, hp1) ∧ m.total = 0 ∧
        hp1.mallocs = hp.mallocs ∧ m.data = 0 ∧ m.refcount = 0 ∧ m.empty = true ∧
        m.dims = 1 ∧ m.w = w ∧ m.h = 1 ∧ m.c = 1 ∧ m.elemsize = e ∧ m.packing = p) ∧
    (w = 0 ∨ h = 0 →
      ∃ m hp1, Mat.createPacked2 hp self w h e p a = .ok (m, hp1) ∧ m.total = 0 ∧
        hp1.mallocs = hp.mallocs ∧ m.data = 0 ∧ m.refcount = 0 ∧ m.empty = true ∧
        m.dims = 2 ∧ m.w = w ∧ m.h = h ∧ m.c = 1 ∧ m.elemsize = e ∧ m.packing = p) ∧
    (1 ≤ e → w = 0 ∨ h = 0 ∨ c = 0 →
      ∃ m hp1, Mat.createPacked3 hp self w h c e p a = .ok (m, hp1) ∧ m.total = 0 ∧
        hp1.mallocs = hp.mallocs ∧ m.data = 0 ∧ m.refcount = 0 ∧ m.empty = true ∧
        m.dims = 3 ∧ m.w = w ∧ m.h = h ∧ m.c = c ∧ m.elemsize = e ∧ m.packing = p) := by
  have hempty : ∀ m : Mat, m.data = 0 → m.empty = true := by
    intro m hm; unfold Mat.empty; simp [hm]
  refine ⟨?_, ?_, ?_⟩
  · intro hw
    by_cases hearly : self.dims = 1 ∧ self.w = w ∧ self.elemsize = e ∧ self.packing = p
        ∧ self.allocator = a
    · obtain ⟨hd, hw1, he1, hp1, ha1⟩ := hearly
      obtain ⟨i1, i2, i3⟩ := hinv.1 hd
      have ht : self.total = 0 := by unfold Mat.total; rw [i1, hw1, hw]; simp
      obtain ⟨n1, n2⟩ := hnull ht
      refine ⟨self, hp, ?_, ht, rfl, n1, n2, hempty _ n1, hd, hw1, i2, i3, he1, hp1⟩
      unfold Mat.createPacked1; rw [if_pos ⟨hd, hw1, he1, hp1, ha1⟩]
    · rw [createPacked1_realloc hp self w e p a hearly]
      refine ⟨{ data := 0, refcount := 0, elemsize := e, packing := p, allocator := a,
                 dims := 1, w := w, h := 1, c := 1, cstep := w },
        (self.release hp).2, ?_, ?_, release_mallocs hp self, rfl, rfl,
        hempty _ rfl, rfl, rfl, rfl, rfl, rfl, rfl⟩
      · unfold Mat.allocate; rw [if_neg (by simp [Mat.total, hw])]
      · simp [Mat.total, hw]
  · intro hz
    have hwh : w * h = 0 := by rcases hz with hz | hz <;> simp [hz]
    by_cases hearly : self.dims = 2 ∧ self.w = w ∧ self.h = h ∧ self.elemsize = e
        ∧ self.packing = p ∧ self.allocator = a
    · obtain ⟨hd, hw1, hh1, he1, hp1, ha1⟩ := hearly
      obtain ⟨i1, i2⟩ := hinv.2.1 hd
      have ht : self.total = 0 := by unfold Mat.total; rw [i1, hw1, hh1, hwh]; simp
      obtain ⟨n1, n2⟩ := hnull ht
      refine ⟨self, hp, ?_, ht, rfl, n1, n2, hempty _ n1, hd, hw1, hh1, i2, he1, hp1⟩
      unfold Mat.createPacked2; rw [if_pos ⟨hd, hw1, hh1, he1, hp1, ha1⟩]
    · rw [createPacked2_realloc hp self w h e p a hearly]
      refine ⟨{ data := 0, refcount := 0, elemsize := e, packing := p, allocator := a,
                 dims := 2, w := w, h := h, c := 1, cstep := w * h },
        (self.release hp).2, ?_, ?_, release_mallocs hp self, rfl, rfl,
        hempty _ rfl, rfl, rfl, rfl, rfl, rfl, rfl⟩
      · unfold Mat.allocate; rw [if_neg (by simp [Mat.total, hwh])]
      · simp [Mat.total, hwh]
  · intro he hz
    have htot : alignSize (w * h * e) 16 / e * c = 0 := by
      rcases hz with hz | hz | hz
      · simp [hz, alignSize]
      · simp [hz, alignSize]
      · simp [hz]
    by_cases hearly : self.dims = 3 ∧ self.w = w ∧ self.h = h ∧ self.c = c
        ∧ self.elemsize = e ∧ self.packing = p ∧ self.allocator = a
    · obtain ⟨hd, hw1, hh1, hc1, he1, hp1, ha1⟩ := hearly
      have i1 := hinv.2.2 hd
      have ht : self.total = 0 := by
        unfold Mat.total; rw [i1, hw1, hh1, hc1, he1]; exact htot
      obtain ⟨n1, n2⟩ := hnull ht
      refine ⟨self, hp, ?_, ht, rfl, n1, n2, hempty _ n1, hd, hw1, hh1, hc1, he1, hp1⟩
      unfold Mat.createPacked3; rw [if_pos ⟨hd, hw1, hh1, hc1, he1, hp1, ha1⟩]
    · rw [createPacked3_realloc hp self w h c e p a he hearly]
      refine ⟨{ data := 0, refcount := 0, elemsize := e, packing := p, allocator := a,
                 dims := 3, w := w, h := h, c := c,
                 cstep := alignSize (w * h * e) 16 / e },
        (self.release hp).2, ?_, ?_, release_mallocs hp self, rfl, rfl,
        hempty _ rfl, rfl, rfl, rfl, rfl, rfl, rfl⟩
      · unfold Mat.allocate; rw [if_neg (by simp only [Mat.total]; omega)]
      · simp only [Mat.total]; exact htot

/-- The call `create(4, 0, 3, 4, 1)` on a fresh handle. -/
theorem create_zero_extent_witness :
    ∃ m hp1, Mat.createPacked3 demoHeap Mat.ctor 4 0 3 4 1 0 = .ok (m, hp1) ∧ m.total = 0 ∧
      hp1.mallocs = demoHeap.mallocs ∧ m.data = 0 ∧ m.refcount = 0 ∧ m.empty = true ∧
      m.dims = 3 ∧ m.w = 4 ∧ m.h = 0 ∧ m.c = 3 ∧ m.elemsize = 4 ∧ m.packing = 1 :=
  (create_zero_extent demoHeap Mat.ctor 4 0 3 4 1 0 (by decide) (by decide)).2.2
    (by decide) (by decide)

/-- The allocation block of `create` for a buffer with elements, on a heap with room:
the handle owns the one block requested. -/
theorem allocate_block (hp : Heap) (m0 : Mat) (ht : 0 < m0.total)
    (hr : hp.room (allocSize m0.total m0.elemsize)) :
    ∃ m hp1, Mat.allocate hp m0 = .ok (m, hp1) ∧ 0 < m.total ∧
      m.allocator = m0.allocator ∧ OwnsFreshBlock hp m hp1 := by
  obtain ⟨hp1, hal, -, hbrk, -, -, hcnt, hml⟩ := allocate_pos hp m0 ht hr
  refine ⟨_, hp1, hal, ht, rfl, ?_⟩
  have hb := hr.1
  have h4 := alignSize_four_ge (m0.total * m0.elemsize)
  unfold OwnsFreshBlock
  refine ⟨?_, ?_, rfl, hcnt, ?_, ?_⟩
  · rw [hml]; rfl
  · dsimp only; omega
  · simp only [Mat.total] at h4 ⊢; omega
  · exact Nat.le_refl _

theorem ownsFreshBlock_release {hp hp1 : Heap} {m : Mat} (self : Mat)
    (h : OwnsFreshBlock (self.release hp).2 m hp1) : OwnsFreshBlock hp m hp1 := by
  unfold OwnsFreshBlock at *
  rw [release_mallocs] at h
  exact h

/-- C19, amended.  Let a `create` call not take the early return (the handle does not
already hold the requested layout), leave `total() > 0`, and find room in the arena.
Then the call succeeds and requests exactly one allocation, of
`alignSize (total() * elemsize) 4 + 4` bytes, from the allocator it was given (number 0
is the default one); `refcount` is `data + alignSize (total() * elemsize) 4`; the
counter is one; the four bytes of the counter lie inside the block and after the data
region `[data, data + total() * elemsize)`. -/
theorem create_allocation (hp : Heap) (self : Mat) (w h c e p a : Nat) :
    (¬ (self.dims = 1 ∧ self.w = w ∧ self.elemsize = e ∧ self.packing = 1
          ∧ self.allocator = a) →
      0 < w → hp.room (allocSize w e) →
      ∃ m hp1, Mat.create1 hp self w e a = .ok (m, hp1) ∧ 0 < m.total ∧ m.allocator = a ∧
        mallocCount hp hp1 = 1 ∧ OwnsFreshBlock hp m hp1) ∧
    (¬ (self.dims = 1 ∧ self.w = w ∧ self.elemsize = e ∧ self.packing = p
          ∧ self.allocator = a) →
      0 < w → hp.room (allocSize w e) →
      ∃ m hp1, Mat.createPacked1 hp self w e p a = .ok (m, hp1) ∧ 0 < m.total ∧
        m.allocator = a ∧ mallocCount hp hp1 = 1 ∧ OwnsFreshBlock hp m hp1) ∧
    (¬ (self.dims = 2 ∧ self.w = w ∧ self.h = h ∧ self.elemsize = e ∧ self.packing = p
          ∧ self.allocator = a) →
      0 < w * h → hp.room (allocSize (w * h) e) →
      ∃ m hp1, Mat.createPacked2 hp self w h e p a = .ok (m, hp1) ∧ 0 < m.total ∧
        m.allocator = a ∧ mallocCount hp hp1 = 1 ∧ OwnsFreshBlock hp m hp1) ∧
    (¬ (self.dims = 3 ∧ self.w = w ∧ self.h = h ∧ self.c = c ∧ self.elemsize = e
          ∧ self.packing = p ∧ self.allocator = a) →
      1 ≤ e → 0 < alignSize (w * h * e) 16 / e * c →
      hp.room (allocSize (alignSize (w * h * e) 16 / e * c) e) →
      ∃ m hp1, Mat.createPacked3 hp self w h c e p a = .ok (m, hp1) ∧ 0 < m.total ∧
        m.allocator = a ∧ mallocCount hp hp1 = 1 ∧ OwnsFreshBlock hp m hp1) := by
  have key : ∀ m0 : Mat, 0 < m0.total → hp.room (allocSize m0.total m0.elemsize) →
      ∃ m hp1, Mat.allocate (self.release hp).2 m0 = .ok (m, hp1) ∧ 0 < m.total ∧
        m.allocator = m0.allocator ∧ mallocCount hp hp1 = 1 ∧ OwnsFreshBlock hp m hp1 := by
    intro m0 ht hr
    obtain ⟨m, hp1, hal, h1, h2, h3⟩ :=
      allocate_block (self.release hp).2 m0 ht (room_release self hr)
    refine ⟨m, hp1, hal, h1, h2, ?_, ownsFreshBlock_release self h3⟩
    rw [mallocCount_release hp hp1 self, allocate_count hal, if_neg (by omega)]
  refine ⟨?_, ?_, ?_, ?_⟩
  · intro hne hw hr
    rw [create1_eq, createPacked1_realloc hp self w e 1 a hne]
    exact key _ (by simpa [Mat.total] using hw) (by simpa [Mat.total] using hr)
  · intro hne hw hr
    rw [createPacked1_realloc hp self w e p a hne]
    exact key _ (by simpa [Mat.total] using hw) (by simpa [Mat.total] using hr)
  · intro hne hw hr
    rw [createPacked2_realloc hp self w h e p a hne]
    exact key _ (by simpa [Mat.total] using hw) (by simpa [Mat.total] using hr)
  · intro hne he hw hr
    rw [createPacked3_realloc hp self w h c e p a he hne]
    exact key _ (by simpa [Mat.total] using hw) (by simpa [Mat.total] using hr)

/-- The call `create(4, 4, 3, 4, 1)` on a fresh handle requests one block of 196
bytes. -/
theorem create_allocation_witness :
    ∃ m hp1, Mat.createPacked3 demoHeap Mat.ctor 4 4 3 4 1 0 = .ok (m, hp1) ∧ 0 < m.total ∧
      m.allocator = 0 ∧ mallocCount demoHeap hp1 = 1 ∧ OwnsFreshBlock demoHeap m hp1 :=
  (create_allocation demoHeap Mat.ctor 4 4 3 4 1 0).2.2.2 (by decide) (by decide) (by decide)
    (by decide)

/-- C19 as stated fails for a call that returns early: `create(4, 4, 3, 4, 1)` on
the handle that already holds this layout leaves `total() = 48 > 0` and requests no
allocation. -/
theorem create_allocation_counterexample :
    Mat.createPacked3 demoContig.2 demoContig.1 4 4 3 4 1 0 = .ok (demoContig.1, demoContig.2) ∧
    0 < demoContig.1.total ∧ mallocCount demoContig.2 demoContig.2 = 0 :=
  ⟨rfl, by decide, by decide⟩

/-! ### Assignment and release -/

/-- What `release` logs: the block of an owning handle whose counter was one. -/
theorem release_frees (hp : Heap) (m : Mat) :
    (m.release hp).2.frees =
      if m.refcount ≠ 0 ∧ hp.cnt m.refcount = 1 then hp.frees ++ [(m.allocator, m.data)]
      else hp.frees := by
  by_cases hown : m.refcount ≠ 0
  · rw [(release_owner hp m hown).2]
    by_cases h1 : hp.cnt m.refcount = 1
    · rw [if_pos h1, if_pos ⟨hown, h1⟩]
    · rw [if_neg h1, if_neg (fun hx => h1 hx.2)]
  · rw [release_borrowed hp m (not_not.mp hown), if_neg (fun hx => hown hx.1)]

/-- C15, amended.  After `release()` the members `data` and `refcount` are null and
`elemsize`, `packing`, `dims`, `w`, `h`, `c`, `cstep` are zero, as in a
default-constructed buffer; the member `allocator` keeps its value.  `fastFree` is
called, once, on `data` through that allocator exactly when the handle was owning and
its counter was one before the decrement; a borrowing handle leaves the heap as it
was, an owning one lowers its counter by one. -/
theorem release_spec (hp : Heap) (m : Mat) :
    (m.release hp).1 = { Mat.ctor with allocator := m.allocator } ∧
    (m.release hp).2.frees =
      (if m.refcount ≠ 0 ∧ hp.cnt m.refcount = 1 then hp.frees ++ [(m.allocator, m.data)]
       else hp.frees) ∧
    (m.refcount = 0 → (m.release hp).2 = hp) ∧
    (m.refcount ≠ 0 → (m.release hp).2.cnt m.refcount = hp.cnt m.refcount - 1) :=
  ⟨rfl, release_frees hp m, release_borrowed hp m, fun h => (release_owner hp m h).1⟩

/-- Releasing the only handle of the buffer created with allocator 7 lowers the
counter from one to zero. -/
theorem release_spec_witness :
    (demoAlloc7.1.release demoAlloc7.2).2.cnt demoAlloc7.1.refcount
      = demoAlloc7.2.cnt demoAlloc7.1.refcount - 1 :=
  (release_spec demoAlloc7.2 demoAlloc7.1).2.2.2 (by decide)

/-- C15 as stated fails for the buffer created with allocator 7: after `release()`
the member `allocator` is still 7, while a default-constructed buffer has a null
allocator. -/
theorem release_spec_counterexample :
    (demoAlloc7.1.release demoAlloc7.2).1.allocator = 7 ∧ Mat.ctor.allocator = 0 ∧
    (demoAlloc7.1.release demoAlloc7.2).1 ≠ Mat.ctor :=
  ⟨by decide, by decide, by decide⟩

/-! ### `create_like` and the range views -/

/-- C16, amended.  Let `m` and the target `t` satisfy the layout invariant.  When
`m.dims` is 1, 2 or 3 (with `elemsize ≥ 1` for 3) and the arena has room,
`t.create_like(m, allocator)` succeeds and `dims`, `w`, `h`, `c`, `elemsize` and
`packing` of `t` equal those of `m`, while `allocator` is the one passed.  For any
other `m.dims` (a default-constructed or released `m`) the call does nothing: `t` and
the heap stay as they were. -/
theorem create_like_spec (hp : Heap) (t m : Mat) (a : Nat) (hm : layoutInv m)
    (ht : layoutInv t) :
    (1 ≤ m.dims → m.dims ≤ 3 → (m.dims = 3 → 1 ≤ m.elemsize) →
      hp.room (allocSize m.total m.elemsize) →
      ∃ r hp1, Mat.create_like hp t m a = .ok (r, hp1) ∧ r.dims = m.dims ∧ r.w = m.w ∧
        r.h = m.h ∧ r.c = m.c ∧ r.elemsize = m.elemsize ∧ r.packing = m.packing ∧
        r.allocator = a) ∧
    (¬ (1 ≤ m.dims ∧ m.dims ≤ 3) → Mat.create_like hp t m a = .ok (t, hp)) := by
  constructor
  · intro hlo hhi he hr
    obtain ⟨i1, i2, i3⟩ := hm
    unfold Mat.create_like
    by_cases h1 : m.dims = 1
    · obtain ⟨e1, e2, e3⟩ := i1 h1
      rw [if_pos h1]
      have hr1 : hp.room (allocSize m.w m.elemsize) := by
        simpa [Mat.total, e1, e3] using hr
      obtain ⟨r, hp1, hc, f1, f2, f3, f4, -, f6, f7, f8, -⟩ :=
        createPacked1_ok hp t m.w m.elemsize m.packing a ht hr1
      exact ⟨r, hp1, hc, by rw [f1, h1], f2, by rw [f3, e2], by rw [f4, e3], f6, f7, f8⟩
    · by_cases h2 : m.dims = 2
      · obtain ⟨e1, e2⟩ := i2 h2
        rw [if_neg h1, if_pos h2]
        have hr2 : hp.room (allocSize (m.w * m.h) m.elemsize) := by
          simpa [Mat.total, e1, e2] using hr
        obtain ⟨r, hp1, hc, f1, f2, f3, f4, -, f6, f7, f8, -⟩ :=
          createPacked2_ok hp t m.w m.h m.elemsize m.packing a ht hr2
        exact ⟨r, hp1, hc, by rw [f1, h2], f2, f3, by rw [f4, e2], f6, f7, f8⟩
      · have h3 : m.dims = 3 := by omega
        have e1 := i3 h3
        rw [if_neg h1, if_neg h2, if_pos h3]
        have hr3 : hp.room
            (allocSize (alignSize (m.w * m.h * m.elemsize) 16 / m.elemsize * m.c)
              m.elemsize) := by
          rw [← e1]; exact hr
        obtain ⟨r, hp1, hc, f1, f2, f3, f4, -, f6, f7, f8, -⟩ :=
          createPacked3_ok hp t m.w m.h m.c m.elemsize m.packing a ht (he h3) hr3
        exact ⟨r, hp1, hc, by rw [f1, h3], f2, f3, f4, f6, f7, f8⟩
  · intro hd
    unfold Mat.create_like
    rw [if_neg (by omega), if_neg (by omega), if_neg (by omega)]

/-- A fresh handle made like the padded buffer `create(3, 3, 2, 4, 1)`. -/
theorem create_like_spec_witness :
    ∃ r hp1, Mat.create_like demoPadded.2 Mat.ctor demoPadded.1 0 = .ok (r, hp1) ∧
      r.dims = demoPadded.1.dims ∧ r.w = demoPadded.1.w ∧ r.h = demoPadded.1.h ∧
      r.c = demoPadded.1.c ∧ r.elemsize = demoPadded.1.elemsize ∧
      r.packing = demoPadded.1.packing ∧ r.allocator = 0 :=
  (create_like_spec demoPadded.2 Mat.ctor demoPadded.1 0 (by decide) (by decide)).1
    (by decide) (by decide) (by decide) (by decide)

/-- C16 as stated fails when `m` is a default-constructed buffer and `t` is the buffer
`create(4, 4, 3, 4, 1)`: the call leaves `t` as it was, with `dims = 3`, while
`m.dims = 0`. -/
theorem create_like_spec_counterexample :
    Mat.create_like demoContig.2 demoContig.1 Mat.ctor 0 = .ok (demoContig.1, demoContig.2) ∧
    demoContig.1.dims = 3 ∧ Mat.ctor.dims = 0 ∧ demoContig.1.w ≠ Mat.ctor.w ∧
    demoContig.1.elemsize ≠ Mat.ctor.elemsize :=
  ⟨rfl, by decide, by decide, by decide, by decide⟩

/-- C18, amended.  For every source with `elemsize ≥ 1`, `channel_range(i, n)` is a
3-D buffer with extents `(w, h, n)` and data pointer `data + i * cstep * elemsize`,
whose `cstep` is that of the source when the source is 3-D and satisfies the layout
invariant.  For every source, `row_range(y, n)` is a 2-D buffer with extents `(w, n)`
and data pointer `data + y * w * elemsize`, and `range(x, n)` is a 1-D buffer with
extent `n` and data pointer `data + x * elemsize`.  Each view keeps `elemsize`,
`packing` and `allocator` of the source; the three members do not touch the heap, so
no data is copied. -/
theorem range_views (self : Mat) (i n : Nat) :
    (1 ≤ self.elemsize →
      ∃ r, Mat.channel_range self i n = .ok r ∧ r.dims = 3 ∧ r.w = self.w ∧ r.h = self.h ∧
        r.c = n ∧ r.data = self.data + i * self.cstep * self.elemsize ∧
        r.elemsize = self.elemsize ∧ r.packing = self.packing ∧
        r.allocator = self.allocator ∧
        (self.dims = 3 → layoutInv self → r.cstep = self.cstep)) ∧
    ((Mat.row_range self i n).dims = 2 ∧ (Mat.row_range self i n).w = self.w ∧
      (Mat.row_range self i n).h = n ∧ (Mat.row_range self i n).c = 1 ∧
      (Mat.row_range self i n).cstep = self.w * n ∧
      (Mat.row_range self i n).data = self.data + i * self.w * self.elemsize ∧
      (Mat.row_range self i n).elemsize = self.elemsize ∧
      (Mat.row_range self i n).packing = self.packing ∧
      (Mat.row_range self i n).allocator = self.allocator) ∧
    ((Mat.range self i n).dims = 1 ∧ (Mat.range self i n).w = n ∧
      (Mat.range self i n).h = 1 ∧ (Mat.range self i n).c = 1 ∧
      (Mat.range self i n).cstep = n ∧
      (Mat.range self i n).data = self.data + i * self.elemsize ∧
      (Mat.range self i n).elemsize = self.elemsize ∧
      (Mat.range self i n).packing = self.packing ∧
      (Mat.range self i n).allocator = self.allocator) := by
  refine ⟨?_, ?_, ?_⟩
  · intro he
    unfold Mat.channel_range Mat.ctorExtPacked3
    rw [if_neg (by omega)]
    refine ⟨_, rfl, rfl, rfl, rfl, rfl, ?_, rfl, rfl, rfl, ?_⟩
    · dsimp only; rw [Nat.mul_comm self.cstep i]
    · intro hd hinv
      exact (hinv.2.2 hd).symm
  · refine ⟨rfl, rfl, rfl, rfl, rfl, ?_, rfl, rfl, rfl⟩
    simp only [Mat.row_range, Mat.ctorExtPacked2]
    rw [Nat.mul_comm self.w i]
  · exact ⟨rfl, rfl, rfl, rfl, rfl, rfl, rfl, rfl, rfl⟩

/-- The view `channel_range(1, 2)` of the padded buffer `create(3, 3, 2, 4, 1)` keeps
the channel step 12. -/
theorem range_views_witness :
    ∃ r, Mat.channel_range demoPadded.1 1 2 = .ok r ∧ r.dims = 3 ∧ r.w = demoPadded.1.w ∧
      r.h = demoPadded.1.h ∧ r.c = 2 ∧
      r.data = demoPadded.1.data + 1 * demoPadded.1.cstep * demoPadded.1.elemsize ∧
      r.elemsize = demoPadded.1.elemsize ∧ r.packing = demoPadded.1.packing ∧
      r.allocator = demoPadded.1.allocator ∧
      (demoPadded.1.dims = 3 → layoutInv demoPadded.1 → r.cstep = demoPadded.1.cstep) :=
  (range_views demoPadded.1 1 2).1 (by decide)

/-- C18 as stated fails for a default-constructed source: `channel_range(0, 1)`
divides by the zero `elemsize` when it computes the channel step. -/
theorem range_views_counterexample :
    Mat.ctor.elemsize = 0 ∧ Mat.channel_range Mat.ctor 0 1 = .error .divByZero :=
  ⟨rfl, rfl⟩

/-! ### Scalar fill -/

theorem storeElem_mem (hp : Heap) (p i : Nat) (v : List Nat) (x : Nat) :
    (storeElem hp p i v).mem x =
      if p + i * v.length ≤ x ∧ x < p + i * v.length + v.length
      then v.getD (x - (p + i * v.length)) 0 else hp.mem x := rfl

/-- The loop of the member template `fill`, byte by byte. -/
theorem fill_foldl_mem (data : Nat) (v : List Nat) (n : Nat) (hp : Heap) :
    ((List.range n).foldl (fun hp i => storeElem hp data i v) hp).cnt = hp.cnt ∧
    ((List.range n).foldl (fun hp i => storeElem hp data i v) hp).mallocs = hp.mallocs ∧
    ((List.range n).foldl (fun hp i => storeElem hp data i v) hp).frees = hp.frees ∧
    ∀ x, ((List.range n).foldl (fun hp i => storeElem hp data i v) hp).mem x =
      if data ≤ x ∧ x < data + n * v.length then v.getD ((x - data) % v.length) 0
      else hp.mem x := by
  induction n with
  | zero =>
    refine ⟨rfl, rfl, rfl, fun x => ?_⟩
    rw [if_neg (by omega)]; rfl
  | succ n ih =>
    obtain ⟨h1, h2, h3, h4⟩ := ih
    simp only [List.range_succ, List.foldl_append, List.foldl_cons, List.foldl_nil]
    refine ⟨h1, h2, h3, ?_⟩
    intro x
    rw [storeElem_mem]
    have hexp : (n + 1) * v.length = n * v.length + v.length := by ring
    by_cases hin : data + n * v.length ≤ x ∧ x < data + n * v.length + v.length
    · rw [if_pos hin, if_pos ⟨by omega, by omega⟩]
      congr 1
      have e1 : x - data = x - (data + n * v.length) + n * v.length := by omega
      rw [e1, Nat.add_mul_mod_self_right, Nat.mod_eq_of_lt (by omega)]
    · rw [if_neg hin, h4 x]
      by_cases hlow : data ≤ x ∧ x < data + n * v.length
      · rw [if_pos hlow, if_pos ⟨hlow.1, by omega⟩]
      · rw [if_neg hlow, if_neg (by intro hx; omega)]

/-- The loop of `fill(float)` and `fill(int)`, byte by byte. -/
theorem fillLoop_mem (v : List Nat) (n : Nat) : ∀ (hp : Heap) (ptr : Nat),
    (fillLoop hp ptr v n).cnt = hp.cnt ∧ (fillLoop hp ptr v n).mallocs = hp.mallocs ∧
    (fillLoop hp ptr v n).frees = hp.frees ∧
    ∀ x, (fillLoop hp ptr v n).mem x =
      if ptr ≤ x ∧ x < ptr + n * v.length then v.getD ((x - ptr) % v.length) 0
      else hp.mem x := by
  induction n with
  | zero =>
    intro hp ptr
    refine ⟨rfl, rfl, rfl, fun x => ?_⟩
    rw [if_neg (by omega)]; rfl
  | succ n ih =>
    intro hp ptr
    obtain ⟨h1, h2, h3, h4⟩ := ih (storeElem hp ptr 0 v) (ptr + v.length)
    simp only [fillLoop]
    refine ⟨h1, h2, h3, ?_⟩
    intro x
    rw [h4 x, storeElem_mem]
    have hexp : (n + 1) * v.length = n * v.length + v.length := by ring
    by_cases hhi : ptr + v.length ≤ x ∧ x < ptr + v.length + n * v.length
    · rw [if_pos hhi, if_pos ⟨by omega, by omega⟩]
      congr 1
      have e1 : x - ptr = x - (ptr + v.length) + v.length := by omega
      rw [e1, Nat.add_mod_right]
    · rw [if_neg hhi]
      by_cases hlo : ptr + 0 * v.length ≤ x ∧ x < ptr + 0 * v.length + v.length
      · rw [if_pos hlo, if_pos ⟨by omega, by omega⟩]
        congr 1
        rw [Nat.mod_eq_of_lt (by omega)]; omega
      · rw [if_neg hlo, if_neg (by intro hx; omega)]

/-- From the byte-level description of a fill to its effect on elements. -/
theorem filled_of_mem (hp hp1 : Heap) (self : Mat) (v : List Nat)
    (hv : v.length = self.elemsize) (hc : hp1.cnt = hp.cnt) (hm : hp1.mallocs = hp.mallocs)
    (hf : hp1.frees = hp.frees)
    (hmem : ∀ x, hp1.mem x =
      if self.data ≤ x ∧ x < self.data + self.total * v.length
      then v.getD ((x - self.data) % v.length) 0 else hp.mem x) :
    Filled hp self v hp1 := by
  refine ⟨?_, ?_, ?_, hc, hm, hf⟩
  · intro i hi
    unfold loadElem
    conv_rhs => rw [← map_getD_range v]
    rw [← hv]
    apply List.map_congr_left
    intro b hb
    rw [List.mem_range] at hb
    have h1 : (i + 1) * v.length ≤ self.total * v.length := Nat.mul_le_mul_right _ hi
    rw [Nat.add_mul, Nat.one_mul] at h1
    rw [hmem, if_pos ⟨by omega, by omega⟩]
    congr 1
    have e1 : self.data + i * v.length + b - self.data = b + i * v.length := by omega
    rw [e1, Nat.add_mul_mod_self_right, Nat.mod_eq_of_lt hb]
  · intro i hi
    unfold loadElem
    apply List.map_congr_left
    intro b hb
    have h1 : self.total * v.length ≤ i * v.length := Nat.mul_le_mul_right _ hi
    rw [hmem, if_neg (by rw [← hv]; intro hx; omega)]
  · intro x hx
    rw [hmem, if_neg (by rw [hv]; intro hy; omega)]

/-- A count in the range of `int` keeps its value through `int size = total()`. -/
theorem intOfSize_of_lt (n : Nat) (h : n < 2 ^ 31) : (intOfSize n).toNat = n := by
  have h1 : n % 2 ^ 32 = n := Nat.mod_eq_of_lt (by omega)
  unfold intOfSize
  rw [h1, if_pos h]
  exact Int.toNat_natCast n

/-- C17, amended. Scalar fill on the path without vector instructions.  For a buffer
whose `total()` is in the range of `int` (below `2^31`) and a value whose object
representation `v` has the element size of the buffer, the member template `fill` and
the members `fill(float)` / `fill(int)` assign no member of the handle and leave the
heap `Filled`: every element at an index below `total()`, that is all `cstep * c`
elements with the padding, reads as `v`; no element at an index from `total()` on is
written. -/
theorem fill_spec (hp : Heap) (self : Mat) (v : List Nat) (hv : v.length = self.elemsize)
    (ht : self.total < 2 ^ 31) :
    ((self.fill hp v).1 = self ∧ Filled hp self v (self.fill hp v).2) ∧
    ((self.fillScalar hp v).1 = self ∧ Filled hp self v (self.fillScalar hp v).2) := by
  refine ⟨⟨rfl, ?_⟩, ⟨rfl, ?_⟩⟩
  · obtain ⟨h1, h2, h3, h4⟩ := fill_foldl_mem self.data v self.total hp
    have e : (self.fill hp v).2 =
        (List.range self.total).foldl (fun hp i => storeElem hp self.data i v) hp := by
      unfold Mat.fill
      simp only [intOfSize_of_lt self.total ht]
    rw [e]
    exact filled_of_mem hp _ self v hv h1 h2 h3 h4
  · obtain ⟨h1, h2, h3, h4⟩ := fillLoop_mem v self.total hp self.data
    have e : (self.fillScalar hp v).2 = fillLoop hp self.data v self.total := by
      unfold Mat.fillScalar
      simp only [intOfSize_of_lt self.total ht]
    rw [e]
    exact filled_of_mem hp _ self v hv h1 h2 h3 h4

/-- A 1-D buffer of ten `float32` elements filled with 2.5, whose object
representation is the bytes `00 00 20 40`: each of the ten elements reads back as
these bytes. -/
theorem fill_spec_witness :
    demoVec.1.total = 10 ∧
    Filled demoVec.2 demoVec.1 [0, 0, 32, 64] (demoVec.1.fillScalar demoVec.2 [0, 0, 32, 64]).2 :=
  ⟨by decide,
   (fill_spec demoVec.2 demoVec.1 [0, 0, 32, 64] (by decide) (by decide)).2.2⟩

/-- C17 as stated, without the bound on `total()`, fails.  The buffer
`create(32768, 32768, 2, 1, 1)` is allocated and holds `2^31` one-byte elements, so
`int size = total()` is `-2^31`: `fill<unsigned char>(7)` runs its loop zero times,
leaves the heap as it was, and element 0 still reads `0`.  In the same way the buffer
`create(1024, 1024, 2048, 4, 1)` holds `2^31` `float32` elements and `fill(2.5f)`
writes nothing. -/
theorem fill_spec_counterexample :
    (demoHugeBytes.1.data ≠ 0 ∧ demoHugeBytes.1.total = 2 ^ 31 ∧
      [7].length = demoHugeBytes.1.elemsize ∧ intOfSize demoHugeBytes.1.total = -2 ^ 31 ∧
      (demoHugeBytes.1.fill demoHugeBytes.2 [7]).2 = demoHugeBytes.2 ∧
      loadElem (demoHugeBytes.1.fill demoHugeBytes.2 [7]).2 demoHugeBytes.1.data 0 1 = [0] ∧
      ¬ Filled demoHugeBytes.2 demoHugeBytes.1 [7] (demoHugeBytes.1.fill demoHugeBytes.2 [7]).2) ∧
    (demoHugeFloats.1.data ≠ 0 ∧ demoHugeFloats.1.total = 2 ^ 31 ∧
      [0, 0, 32, 64].length = demoHugeFloats.1.elemsize ∧
      (demoHugeFloats.1.fillScalar demoHugeFloats.2 [0, 0, 32, 64]).2 = demoHugeFloats.2 ∧
      loadElem (demoHugeFloats.1.fillScalar demoHugeFloats.2 [0, 0, 32, 64]).2
        demoHugeFloats.1.data 0 4 = [0, 0, 0, 0] ∧
      ¬ Filled demoHugeFloats.2 demoHugeFloats.1 [0, 0, 32, 64]
        (demoHugeFloats.1.fillScalar demoHugeFloats.2 [0, 0, 32, 64]).2) := by
  have hb : (demoHugeBytes.1.fill demoHugeBytes.2 [7]).2 = demoHugeBytes.2 := rfl
  have hf : (demoHugeFloats.1.fillScalar demoHugeFloats.2 [0, 0, 32, 64]).2 =
      demoHugeFloats.2 := rfl
  have lb : loadElem demoHugeBytes.2 demoHugeBytes.1.data 0 1 = [0] := by decide
  have lf : loadElem demoHugeFloats.2 demoHugeFloats.1.data 0 4 = [0, 0, 0, 0] := by decide
  refine ⟨⟨by decide, by decide, by decide, by decide, hb, ?_, ?_⟩,
    ⟨by decide, by decide, by decide, hf, ?_, ?_⟩⟩
  · rw [hb]; exact lb
  · intro h
    have h0 := h.1 0 (by decide)
    rw [hb, show demoHugeBytes.1.elemsize = 1 from by decide, lb] at h0
    exact absurd h0 (by decide)
  · rw [hf]; exact lf
  · intro h
    have h0 := h.1 0 (by decide)
    rw [hf, show demoHugeFloats.1.elemsize = 4 from by decide, lf] at h0
    exact absurd h0 (by decide)

/-! ### Aliasing and copying reshape -/

/-- The copy loops leave the counters and the allocator logs alone. -/
theorem foldl_memcpy_logs (f g len : Nat → Nat) (l : List Nat) :
    ∀ hp : Heap,
      (l.foldl (fun hp i => memcpy hp (f i) (g i) (len i)) hp).cnt = hp.cnt ∧
      (l.foldl (fun hp i => memcpy hp (f i) (g i) (len i)) hp).mallocs = hp.mallocs ∧
      (l.foldl (fun hp i => memcpy hp (f i) (g i) (len i)) hp).frees = hp.frees := by
  induction l with
  | nil => intro hp; exact ⟨rfl, rfl, rfl⟩
  | cons x xs ih =>
    intro hp
    simp only [List.foldl_cons]
    exact ih (memcpy hp (f x) (g x) (len x))

theorem flattenLoop_logs (hp : Heap) (self m : Mat) :
    (flattenLoop hp self m).cnt = hp.cnt ∧ (flattenLoop hp self m).mallocs = hp.mallocs ∧
    (flattenLoop hp self m).frees = hp.frees :=
  foldl_memcpy_logs _ _ _ _ hp

theorem ctorCopy_cnt (hp : Heap) (m : Mat) (hown : m.refcount ≠ 0) :
    (Mat.ctorCopy hp m).2.cnt m.refcount = hp.cnt m.refcount + 1 := by
  simp [Mat.ctorCopy, NCNN_XADD, hown]

theorem ctorCopy_frees (hp : Heap) (m : Mat) : (Mat.ctorCopy hp m).2.frees = hp.frees := by
  unfold Mat.ctorCopy NCNN_XADD; dsimp only; split_ifs <;> rfl

/-- A non-empty padded 3-D buffer with the layout invariant has positive extents. -/
theorem padded_prod_pos (self : Mat) (hne : self.empty = false) (hinv : layoutInv self)
    (h3 : self.dims = 3) : 0 < self.w * self.h * self.c := by
  unfold Mat.empty at hne
  simp only [Bool.or_eq_false_iff, beq_eq_false_iff_ne, ne_eq] at hne
  obtain ⟨hd, ht⟩ := hne
  have hcs := hinv.2.2 h3
  have htp : 0 < self.cstep * self.c := by
    unfold Mat.total at ht; omega
  have hc : 0 < self.c := Nat.pos_of_ne_zero (fun h0 => by rw [h0] at htp; simp at htp)
  have hs : 0 < self.cstep := Nat.pos_of_ne_zero (fun h0 => by rw [h0] at htp; simp at htp)
  have hwh : 0 < self.w * self.h := by
    rcases Nat.eq_zero_or_pos (self.w * self.h) with h0 | h0
    · rw [hcs, h0] at hs; simp [alignSize] at hs
    · exact h0
  exact Nat.mul_pos hwh hc

/-- C20. Reshape to one or two dimensions aliases exactly when no padding is in the
way.  Let `self` be an owning buffer and the target extents have the product
`w * h * c`.  When `self` is not a 3-D buffer with `cstep ≠ w * h`, the result has
the `data`, `refcount`, `elemsize`, `packing` and `allocator` of `self`, the shared
counter is one higher, and no byte is written and no allocator call is made.  When
`self` is a non-empty 3-D buffer with `cstep ≠ w * h` and the layout invariant, whose
data and counter lie below `brk`, on a heap with room, the result owns the one block
requested by the call: its data pointer differs from that of `self`, its counter is
one, and the counter of `self` is as before. -/
theorem reshape_alias_or_copy (hp : Heap) (self : Mat) (a : Nat) (hown : self.refcount ≠ 0) :
    (¬ (self.dims = 3 ∧ self.cstep ≠ self.w * self.h) →
      (∀ _w, self.w * self.h * self.c = _w →
        ∃ r hp1, Mat.reshape1 hp self _w a = .ok (r, hp1) ∧
          r.data = self.data ∧ r.refcount = self.refcount ∧ r.elemsize = self.elemsize ∧
          r.packing = self.packing ∧ r.allocator = self.allocator ∧
          hp1.cnt self.refcount = hp.cnt self.refcount + 1 ∧
          hp1.mem = hp.mem ∧ hp1.mallocs = hp.mallocs ∧ hp1.frees = hp.frees) ∧
      (∀ _w _h, self.w * self.h * self.c = _w * _h →
        ∃ r hp1, Mat.reshape2 hp self _w _h a = .ok (r, hp1) ∧
          r.data = self.data ∧ r.refcount = self.refcount ∧ r.elemsize = self.elemsize ∧
          r.packing = self.packing ∧ r.allocator = self.allocator ∧
          hp1.cnt self.refcount = hp.cnt self.refcount + 1 ∧
          hp1.mem = hp.mem ∧ hp1.mallocs = hp.mallocs ∧ hp1.frees = hp.frees)) ∧
    (self.dims = 3 ∧ self.cstep ≠ self.w * self.h → self.empty = false → layoutInv self →
      self.data < hp.brk → self.refcount < hp.brk →
      (∀ _w, self.w * self.h * self.c = _w → hp.room (allocSize _w self.elemsize) →
        ∃ r hp1, Mat.reshape1 hp self _w a = .ok (r, hp1) ∧
          r.data ≠ self.data ∧ r.refcount ≠ 0 ∧ hp1.cnt r.refcount = 1 ∧
          hp1.cnt self.refcount = hp.cnt self.refcount ∧ mallocCount hp hp1 = 1) ∧
      (∀ _w _h, self.w * self.h * self.c = _w * _h →
        hp.room (allocSize (_w * _h) self.elemsize) →
        ∃ r hp1, Mat.reshape2 hp self _w _h a = .ok (r, hp1) ∧
          r.data ≠ self.data ∧ r.refcount ≠ 0 ∧ hp1.cnt r.refcount = 1 ∧
          hp1.cnt self.refcount = hp.cnt self.refcount ∧ mallocCount hp hp1 = 1)) := by
  have hcopy : ∀ m0 : Mat, m0.data = 0 → 0 < m0.total → self.data < hp.brk →
      self.refcount < hp.brk → hp.room (allocSize m0.total m0.elemsize) →
      ∃ r hp1, (match Mat.allocate hp m0 with
          | .error e => Except.error e
          | .ok (m, hp1) => Except.ok (m, flattenLoop hp1 self m)) = .ok (r, hp1) ∧
        r.data ≠ self.data ∧ r.refcount ≠ 0 ∧ hp1.cnt r.refcount = 1 ∧
        hp1.cnt self.refcount = hp.cnt self.refcount ∧ mallocCount hp hp1 = 1 := by
    intro m0 _ ht hd hrc hr
    obtain ⟨r, hp1, hal, -, -, -, -, hpos, -⟩ := allocate_ok hp m0 hr
    obtain ⟨q1, q2, -, q4, q5, -⟩ := hpos ht
    obtain ⟨l1, l2, -⟩ := flattenLoop_logs hp1 self r
    have hb := hr.1
    refine ⟨r, flattenLoop hp1 self r, by rw [hal], by omega, by omega, ?_, ?_, ?_⟩
    · rw [l1]; exact q4
    · rw [l1]; exact q5 _ (by omega)
    · have hcnt := allocate_count hal
      unfold mallocCount at hcnt ⊢
      rw [l2, hcnt, if_neg (by omega)]
  constructor
  · intro hnp
    constructor
    · intro _w hw
      unfold Mat.reshape1
      rw [if_neg (not_not.mpr hw), if_neg hnp]
      exact ⟨_, _, rfl, rfl, rfl, rfl, rfl, rfl, ctorCopy_cnt hp self hown,
        ctorCopy_mem hp self, ctorCopy_mallocs hp self, ctorCopy_frees hp self⟩
    · intro _w _h hw
      unfold Mat.reshape2
      rw [if_neg (not_not.mpr hw), if_neg hnp]
      exact ⟨_, _, rfl, rfl, rfl, rfl, rfl, rfl, ctorCopy_cnt hp self hown,
        ctorCopy_mem hp self, ctorCopy_mallocs hp self, ctorCopy_frees hp self⟩
  · intro hpad hne hinv hd hrc
    have hprod := padded_prod_pos self hne hinv hpad.1
    constructor
    · intro _w hw hr
      unfold Mat.reshape1
      rw [if_neg (not_not.mpr hw), if_pos hpad, createPacked1_ctor]
      exact hcopy _ rfl (by simp only [Mat.total]; omega) hd hrc
        (by simpa [Mat.total] using hr)
    · intro _w _h hw hr
      unfold Mat.reshape2
      rw [if_neg (not_not.mpr hw), if_pos hpad, createPacked2_ctor]
      exact hcopy _ rfl (by simp only [Mat.total]; omega) hd hrc
        (by simpa [Mat.total] using hr)

/-- The padded buffer `create(3, 3, 2, 4, 1)` flattened to 18 elements is copied into
a block of its own. -/
theorem reshape_alias_or_copy_witness :
    ∃ r hp1, Mat.reshape1 demoPadded.2 demoPadded.1 18 0 = .ok (r, hp1) ∧
      r.data ≠ demoPadded.1.data ∧ r.refcount ≠ 0 ∧ hp1.cnt r.refcount = 1 ∧
      hp1.cnt demoPadded.1.refcount = demoPadded.2.cnt demoPadded.1.refcount ∧
      mallocCount demoPadded.2 hp1 = 1 :=
  ((reshape_alias_or_copy demoPadded.2 demoPadded.1 0 (by decide)).2
    (by decide) (by decide) (by decide) (by decide) (by decide)).1 18 (by decide) (by decide)

/-! ### Division by zero and depth of the 3-D `reshape` -/

/-- With a zero `elemsize` and matching products, the 3-D `reshape` of a buffer that
is not 3-D, or whose channel count is the target's, divides by zero. -/
theorem reshape3_elemsize_zero (fuel : Nat) (hp : Heap) (self : Mat) (_w _h _c a : Nat)
    (he : self.elemsize = 0) (hw : self.w * self.h * self.c = _w * _h * _c)
    (hb : self.dims < 3 ∨ self.c = _c) :
    Mat.reshape3 (fuel + 1) hp self _w _h _c a = .error .divByZero := by
  unfold Mat.reshape3
  rw [if_neg (not_not.mpr hw)]
  by_cases hd : self.dims < 3
  · rw [if_pos hd, if_pos he]
  · rw [if_neg hd]
    have hc : self.c = _c := hb.resolve_left hd
    rw [if_neg (not_not.mpr hc)]
    unfold Mat.reshape3Alias
    dsimp only
    rw [if_pos he]

/-- C21, the code at the failing input.  For a default-constructed buffer, and for a
buffer that has been released, `elemsize` is zero and `w * h * c` is zero; the target
`(0, 0, 0)` has the same product, so `reshape(0, 0, 0)` passes the product check, finds
`dims = 0 < 3`, and evaluates `alignSize(_w * _h * elemsize, 16) / elemsize` with
`elemsize = 0`: a division by zero, and no buffer is returned. -/
theorem reshape3_div_by_zero :
    Mat.ctor.elemsize = 0 ∧ Mat.ctor.w * Mat.ctor.h * Mat.ctor.c = 0 * 0 * 0 ∧
    Mat.reshape3 2 demoHeap Mat.ctor 0 0 0 0 = .error .divByZero ∧
    (demoContig.1.release demoContig.2).1.elemsize = 0 ∧
    Mat.reshape3 2 (demoContig.1.release demoContig.2).2 (demoContig.1.release demoContig.2).1
      0 0 0 0 = .error .divByZero ∧
    Mat.reshape3 2 (demoContig.1.release demoContig.2).2 (demoContig.1.release demoContig.2).1
      0 5 7 0 = .error .divByZero :=
  ⟨rfl, rfl, rfl, rfl, rfl, rfl⟩

/-- The shape of what the 1-D `reshape` returns when the products match. -/
theorem reshape1_shape {hp hp1 : Heap} {self tmp : Mat} {_w a : Nat}
    (hw : self.w * self.h * self.c = _w) (h : Mat.reshape1 hp self _w a = .ok (tmp, hp1)) :
    tmp.dims = 1 ∧ tmp.w = _w ∧ tmp.h = 1 ∧ tmp.c = 1 := by
  unfold Mat.reshape1 at h
  rw [if_neg (not_not.mpr hw)] at h
  by_cases hpad : self.dims = 3 ∧ self.cstep ≠ self.w * self.h
  · rw [if_pos hpad, createPacked1_ctor] at h
    split at h
    · exact absurd h (by simp)
    · rename_i m hp2 hal
      simp only [Except.ok.injEq, Prod.mk.injEq] at h
      obtain ⟨rfl, -⟩ := h
      obtain ⟨-, -, -, f4, f5, f6, f7, -⟩ := allocate_fields hal
      exact ⟨f4, f5, f6, f7⟩
  · rw [if_neg hpad] at h
    simp only [Except.ok.injEq, Prod.mk.injEq] at h
    obtain ⟨rfl, -⟩ := h
    exact ⟨rfl, rfl, rfl, rfl⟩

/-- With room in the arena the 1-D `reshape` returns a buffer, whatever the source. -/
theorem reshape1_returns (hp : Heap) (self : Mat) (_w a : Nat)
    (hr : hp.room (allocSize _w self.elemsize)) :
    ∃ tmp hp1, Mat.reshape1 hp self _w a = .ok (tmp, hp1) := by
  unfold Mat.reshape1
  by_cases hw : self.w * self.h * self.c ≠ _w
  · rw [if_pos hw]; exact ⟨_, _, rfl⟩
  · rw [if_neg hw]
    by_cases hpad : self.dims = 3 ∧ self.cstep ≠ self.w * self.h
    · rw [if_pos hpad, createPacked1_ctor]
      obtain ⟨m, hp1, hal, -⟩ := allocate_ok hp
        { data := 0, refcount := 0, elemsize := self.elemsize, packing := self.packing,
          allocator := a, dims := 1, w := _w, h := 1, c := 1, cstep := _w }
        (by simpa [Mat.total] using hr)
      rw [hal]
      exact ⟨_, _, rfl⟩
    · rw [if_neg hpad]; exact ⟨_, _, rfl⟩

/-- The allocation block of `create` never asks for a deeper call. -/
theorem allocate_error {hp : Heap} {m : Mat} {e : Fault}
    (h : Mat.allocate hp m = .error e) : e ≠ .outOfFuel := by
  unfold Mat.allocate at h
  dsimp only at h
  split_ifs at h
  simp only [Except.error.injEq] at h
  subst h
  decide

/-- A 1-D or 2-D source is reshaped without a nested call: the result does not depend
on the depth bound. -/
theorem reshape3_flat_depth (fuel : Nat) (hp : Heap) (self : Mat) (_w _h _c a : Nat)
    (hd : self.dims < 3) :
    Mat.reshape3 (fuel + 1) hp self _w _h _c a = Mat.reshape3 1 hp self _w _h _c a := by
  unfold Mat.reshape3
  by_cases hw : self.w * self.h * self.c ≠ _w * _h * _c
  · rw [if_pos hw, if_pos hw]
  · rw [if_neg hw, if_neg hw, if_pos hd, if_pos hd]

/-- A 1-D or 2-D source never exhausts the depth bound one. -/
theorem reshape3_flat_in_depth (hp : Heap) (self : Mat) (_w _h _c a : Nat)
    (hd : self.dims < 3) :
    Mat.reshape3 1 hp self _w _h _c a ≠ .error .outOfFuel := by
  unfold Mat.reshape3
  by_cases hw : self.w * self.h * self.c ≠ _w * _h * _c
  · rw [if_pos hw]; simp
  · rw [if_neg hw, if_pos hd]
    by_cases he : self.elemsize = 0
    · rw [if_pos he]; simp
    · rw [if_neg he]
      by_cases hpad : _w * _h ≠ alignSize (_w * _h * self.elemsize) 16 / self.elemsize
      · rw [if_pos hpad, createPacked3_ctor _ _ _ _ _ _ _ (by omega)]
        split
        · rename_i e hal
          intro hx
          simp only [Except.error.injEq] at hx
          exact allocate_error hal hx
        · simp
      · rw [if_neg hpad]
        unfold Mat.reshape3Alias
        dsimp only
        rw [if_neg he]
        simp

/-- The 1-D `reshape` never asks for a deeper call. -/
theorem reshape1_error {hp : Heap} {self : Mat} {_w a : Nat} {e : Fault}
    (h : Mat.reshape1 hp self _w a = .error e) : e ≠ .outOfFuel := by
  unfold Mat.reshape1 at h
  split_ifs at h with h0 h1
  rw [createPacked1_ctor] at h
  split at h
  · rename_i e1 hal
    simp only [Except.error.injEq] at h
    subst h
    exact allocate_error hal
  · exact absurd h (by simp)

/-- The branch `flatten and then align` of the 3-D `reshape`. -/
theorem reshape3_nested (fuel : Nat) (hp : Heap) (self : Mat) (_w _h _c a : Nat)
    (hd : 3 ≤ self.dims) (hc : self.c ≠ _c)
    (hw : self.w * self.h * self.c = _w * _h * _c) :
    Mat.reshape3 (fuel + 1) hp self _w _h _c a =
      (match Mat.reshape1 hp self (_w * _h * _c) a with
       | .error e => .error e
       | .ok (tmp, hp1) =>
         match Mat.reshape3 fuel hp1 tmp _w _h _c a with
         | .error e => .error e
         | .ok (m, hp2) => .ok (m, (tmp.release hp2).2)) := by
  conv_lhs => unfold Mat.reshape3
  rw [if_neg (not_not.mpr hw), if_neg (by omega), if_pos hc]

/-- C22. The 3-D `reshape` calls itself at most once.  Let the source be 3-D with a
channel count other than the target's and the same extent product.  With room in the
arena the flattening `reshape(w * h * c)` returns an intermediate buffer; whenever it
does, that buffer has `dims = 1` and the extent product of the target, so the nested
call is answered on a branch that makes no further call: its result is the same for
every depth bound and is never the exhaustion of the bound one.  Hence the whole call
is the same for every depth bound from two on and never exhausts the bound two, while
the bound one is exhausted: exactly one nested call is made. -/
theorem reshape3_one_nested_call (hp : Heap) (self : Mat) (_w _h _c a : Nat)
    (hd : 3 ≤ self.dims) (hc : self.c ≠ _c)
    (hw : self.w * self.h * self.c = _w * _h * _c) :
    (hp.room (allocSize (_w * _h * _c) self.elemsize) →
      ∃ tmp hp1, Mat.reshape1 hp self (_w * _h * _c) a = .ok (tmp, hp1)) ∧
    (∀ tmp hp1, Mat.reshape1 hp self (_w * _h * _c) a = .ok (tmp, hp1) →
      tmp.dims = 1 ∧ tmp.w * tmp.h * tmp.c = _w * _h * _c ∧
      (∀ fuel, Mat.reshape3 (fuel + 1) hp1 tmp _w _h _c a
        = Mat.reshape3 1 hp1 tmp _w _h _c a) ∧
      Mat.reshape3 1 hp1 tmp _w _h _c a ≠ .error .outOfFuel ∧
      Mat.reshape3 1 hp self _w _h _c a = .error .outOfFuel) ∧
    (∀ fuel, Mat.reshape3 (fuel + 2) hp self _w _h _c a
      = Mat.reshape3 2 hp self _w _h _c a) ∧
    Mat.reshape3 2 hp self _w _h _c a ≠ .error .outOfFuel := by
  refine ⟨fun hr => reshape1_returns hp self _ a hr, ?_, ?_, ?_⟩
  · intro tmp hp1 h1
    obtain ⟨s1, s2, s3, s4⟩ := reshape1_shape hw h1
    refine ⟨s1, by rw [s2, s3, s4]; ring, ?_, ?_, ?_⟩
    · intro fuel
      exact reshape3_flat_depth fuel hp1 tmp _w _h _c a (by omega)
    · exact reshape3_flat_in_depth hp1 tmp _w _h _c a (by omega)
    · rw [reshape3_nested 0 hp self _w _h _c a hd hc hw, h1]
      rfl
  · intro fuel
    rw [reshape3_nested (fuel + 1) hp self _w _h _c a hd hc hw,
      reshape3_nested 1 hp self _w _h _c a hd hc hw]
    split
    · rfl
    · rename_i tmp hp1 h1
      obtain ⟨s1, -⟩ := reshape1_shape hw h1
      rw [reshape3_flat_depth fuel hp1 tmp _w _h _c a (by omega)]
  · rw [reshape3_nested 1 hp self _w _h _c a hd hc hw]
    split
    · rename_i e h1
      intro hx
      simp only [Except.error.injEq] at hx
      exact reshape1_error h1 hx
    · rename_i tmp hp1 h1
      obtain ⟨s1, -⟩ := reshape1_shape hw h1
      have hn := reshape3_flat_in_depth hp1 tmp _w _h _c a (by omega)
      split
      · rename_i e h2
        intro hx
        simp only [Except.error.injEq] at hx
        rw [hx] at h2
        exact hn h2
      · simp

/-- The padded buffer `create(3, 3, 2, 4, 1)` reshaped to `(2, 3, 3)`: the flattening
returns an intermediate buffer, and the depth bound two is not exhausted. -/
theorem reshape3_one_nested_call_witness :
    (∃ tmp hp1, Mat.reshape1 demoPadded.2 demoPadded.1 (2 * 3 * 3) 0 = .ok (tmp, hp1)) ∧
    Mat.reshape3 2 demoPadded.2 demoPadded.1 2 3 3 0 ≠ .error .outOfFuel :=
  ⟨(reshape3_one_nested_call demoPadded.2 demoPadded.1 2 3 3 0 (by decide) (by decide)
      (by decide)).1 (by decide),
   (reshape3_one_nested_call demoPadded.2 demoPadded.1 2 3 3 0 (by decide) (by decide)
      (by decide)).2.2.2⟩

end ncnn
